import Mathlib

/-!
# scattergl, bar and parcoords: plot code of plotly.js

A shallow embedding of `src/traces/scattergl/index.js` (the selection engine `selectPoints`
and `styleTextSelection`, the scene lifecycle of `sceneUpdate`, `calc` and `plot`, the line
trimming and fill construction of `plot`, and `hoverPoints`), of the pixel rounding and text
transform code of `src/traces/bar/plot.js`, and of the callback `filterChanged` of
`src/traces/parcoords/plot.js`, with theorems about the embedded functions.

Conventions of the embedding
* A JavaScript array whose slots may be `null`, `undefined` or missing is a `List (Option β)`;
  `none` stands for every falsy slot value, an array (also the empty one) is truthy.
* A function that can throw a `TypeError` returns an `Option`; `none` is the throw.
* Loops with a fixed index range are folds over that range; `while` loops carry fuel and
  return `none` when the fuel runs out.
* Numbers in arithmetic are the elements of an ordered ring or field, `NaN` apart.
-/

namespace Scattergl

/-! ## JavaScript arrays -/

/-- Read `a[i]`: a slot past the end reads as `undefined`, which is `none` here. -/
def jsGet {β : Type} (a : List (Option β)) (i : Nat) : Option β :=
  a.getD i none

/-- Write `a[i] = v`: a write past the end first pads the array with empty slots. -/
def jsSet {β : Type} (a : List (Option β)) (i : Nat) (v : Option β) : List (Option β) :=
  if i < a.length then a.set i v else a ++ List.replicate (i - a.length) none ++ [v]

/-- The call `arrayRange(len)` of the package `array-range`: the list `[0, 1, ..., len - 1]`. -/
def arrayRange (len : Nat) : List Nat :=
  List.range len

/-! ## Selection: data model -/

/-- A per-trace batch array such as `scene.selectBatch`: one slot per trace index, each slot a
list of point indices or empty (`null` / `undefined`). -/
abbrev Batch := List (Option (List Nat))

/-- The attributes of a trace that `selectPoints` and `styleTextSelection` read:
`visible` is `trace.visible === true`, `hasMarkers` and `hasText` are the results of
`subTypes.hasMarkers(trace)` and `subTypes.hasText(trace)`. -/
structure Trace where
  visible : Bool
  hasMarkers : Bool
  hasText : Bool
  _length : Nat
deriving DecidableEq, Repr

/-- A colour attribute: one colour for all points or an array indexed by point.
A colour value is an `Option C`; `none` is an absent (falsy) value. -/
inductive ColorAttr (C : Type) where
  | scalar (c : Option C)
  | array (cs : List (Option C))
deriving DecidableEq, Repr

/-- The entry `base[j]` or `base` that the code calls
`hasArrayBase ? base[j] : base`. -/
def ColorAttr.at {C : Type} (base : ColorAttr C) (j : Nat) : Option C :=
  match base with
  | .scalar c => c
  | .array cs => jsGet cs j

/-- Base text options of one trace (`scene.textOptions[i]`); only `color` is read. -/
structure TextOpts (C : Type) where
  color : ColorAttr C
deriving DecidableEq, Repr

/-- Selected / unselected text options of one trace; `color` is the explicit style colour,
`none` when the style sets none. -/
structure TextSelOpts (C : Type) where
  color : Option C
deriving DecidableEq, Repr

/-- The fields of the per-subplot scene that selection reads and writes.
`scatter2d` is the marker renderer: `none` when no renderer was created, otherwise the list
of payloads passed to its `update` so far. `glText` is the array of text renderers, each one
the list of colour attributes passed to its `update` so far. -/
structure Scene (C M : Type) where
  count : Nat
  selectBatch : Option Batch
  unselectBatch : Option Batch
  markerUnselectedOptions : List (Option M)
  textOptions : List (Option (TextOpts C))
  textSelectedOptions : List (Option (TextSelOpts C))
  textUnselectedOptions : List (Option (TextSelOpts C))
  scatter2d : Option (List (List (Option M)))
  glText : Option (List (List (ColorAttr C)))
deriving DecidableEq, Repr

/-- The calculated trace data (`cd[0].t`) used by selection: data coordinates, the pixel
caches (`null` outside selection mode) and the trace index in the scene. -/
structure Stash (X P : Type) where
  x : List X
  y : List X
  xpx : Option (List P)
  ypx : Option (List P)
  index : Nat
deriving DecidableEq, Repr

/-- A selection tester. `contains pt i` is the call
`selectionTester.contains([xpx[i], ypx[i]], false, i, searchInfo)`. -/
structure Tester (P : Type) where
  degenerate : Bool
  contains : Option P × Option P → Nat → Bool

/-- One record of the returned selection. -/
structure SelRecord (X : Type) where
  pointNumber : Nat
  x : Option X
  y : Option X
deriving DecidableEq, Repr

/-! ## Selection: the code -/

section Selection

variable {C M X P D : Type}

/-- The colour written for an unselected point:
`utc ? utc : stc ? basej : Color.addOpacity(basej, DESELECTDIM)`. -/
def unselectedColor (addOpacity : Option C → D → C) (DESELECTDIM : D)
    (stc utc basej : Option C) : Option C :=
  match utc with
  | some u => some u
  | none =>
    match stc with
    | some _ => basej
    | none => some (addOpacity basej DESELECTDIM)

/-- The colour written for a selected point: `stc || basej`. -/
def selectedColor (stc basej : Option C) : Option C :=
  match stc with
  | some s => some s
  | none => basej

/-- The array `opts.color` built by `styleTextSelection` when both batches of the trace exist:
`new Array(trace._length)`, then one write per selected index, then one per unselected. -/
def textColors (addOpacity : Option C → D → C) (DESELECTDIM : D) (len : Nat)
    (base : ColorAttr C) (stc utc : Option C) (els unels : List Nat) : List (Option C) :=
  let color0 : List (Option C) := List.replicate len none
  let color1 := els.foldl (fun col j => jsSet col j (selectedColor stc (base.at j))) color0
  unels.foldl
    (fun col j => jsSet col j (unselectedColor addOpacity DESELECTDIM stc utc (base.at j)))
    color1

/-- The value of `opts.color` at the end of `styleTextSelection`, for the batches `els` and
`unels` of the trace: the colour array when both batches exist (reading `baseOpts.color` of
missing base options throws), otherwise the colour copied from the base options. -/
def styledTextColor (addOpacity : Option C → D → C) (DESELECTDIM : D)
    (trace : Trace) (index : Nat) (scene : Scene C M) (els unels : Option (List Nat)) :
    Option (ColorAttr C) :=
  let baseOpts := jsGet scene.textOptions index
  let selOpts := (jsGet scene.textSelectedOptions index).getD ⟨none⟩
  let unselOpts := (jsGet scene.textUnselectedOptions index).getD ⟨none⟩
  match els, unels with
  | some els, some unels =>
    match baseOpts with
    | none => none
    | some b =>
      let stc := selOpts.color
      let utc := unselOpts.color
      let base := b.color
      some (ColorAttr.array
        (textColors addOpacity DESELECTDIM trace._length base stc utc els unels))
  | _, _ =>
    match baseOpts with
    | none => some (ColorAttr.scalar none)
    | some b => some b.color

/-- The function `styleTextSelection(cd)`, on the scene, trace and index found in `cd[0]`.
The result is the scene after `scene.glText[index].update(opts)`; `none` is a `TypeError`
(batches not created, no base options where a colour is read, no text renderer). -/
def styleTextSelection (addOpacity : Option C → D → C) (DESELECTDIM : D)
    (trace : Trace) (index : Nat) (scene : Scene C M) : Option (Scene C M) := do
  let selectBatch ← scene.selectBatch
  let els := jsGet selectBatch index
  let unselectBatch ← scene.unselectBatch
  let unels := jsGet unselectBatch index
  let optsColor ← styledTextColor addOpacity DESELECTDIM trace index scene els unels
  let glText ← scene.glText
  if h : index < glText.length then
    some { scene with glText := some (glText.set index (glText[index] ++ [optsColor])) }
  else
    none

/-- One pass of the body of the point loop of `selectPoints`: the state is
`(els, unels, selection)`. Reading `stash.xpx[i]` of a `null` cache throws. -/
def selectStep (contains : Option P × Option P → Nat → Bool) (stash : Stash X P)
    (st : List Nat × List Nat × List (SelRecord X)) (i : Nat) :
    Option (List Nat × List Nat × List (SelRecord X)) :=
  match stash.xpx, stash.ypx with
  | some xpx, some ypx =>
    if contains (xpx[i]?, ypx[i]?) i then
      some (st.1 ++ [i], st.2.1, st.2.2 ++ [⟨i, stash.x[i]?, stash.y[i]?⟩])
    else
      some (st.1, st.2.1 ++ [i], st.2.2)
  | _, _ => none

/-- The loop `for(i = 0; i < len; i++)` of `selectPoints`. -/
def selectLoop (contains : Option P × Option P → Nat → Bool) (stash : Stash X P) (len : Nat) :
    Option (List Nat × List Nat × List (SelRecord X)) :=
  (List.range len).foldlM (selectStep contains stash) ([], [], [])

/-- The loop `for(i = 0; i < scene.count; i++)` that puts an empty array in every slot of a
batch array. -/
def resetBatch (count : Nat) (batch : Batch) : Batch :=
  (List.range count).foldl (fun b i => jsSet b i (some [])) batch

/-- The point test of `selectPoints`: the values of `els`, `unels` and `selection` after the
`if(selectionTester !== false && !selectionTester.degenerate) ... else ...` statement.
`selectionTester` is `none` for the value `false`. -/
def selectTest (trace : Trace) (stash : Stash X P) (selectionTester : Option (Tester P)) :
    Option (Option (List Nat) × Option (List Nat) × List (SelRecord X)) :=
  let len := trace._length
  let noSelection : Option (Option (List Nat) × Option (List Nat) × List (SelRecord X)) :=
    some (none, some (arrayRange len), [])
  match selectionTester with
  | none => noSelection
  | some tester =>
    if !tester.degenerate then do
      let r ← selectLoop tester.contains stash len
      pure (some r.1, some r.2.1, r.2.2)
    else noSelection

/-- The statement `if(!scene.selectBatch) { scene.selectBatch = []; scene.unselectBatch = []; }`. -/
def ensureBatches (scene : Scene C M) : Scene C M :=
  match scene.selectBatch with
  | none => { scene with selectBatch := some [], unselectBatch := some [] }
  | some _ => scene

/-- The statement `if(!scene.selectBatch[stash.index]) { ... }` of `selectPoints`: when the
slot of the trace is empty, every slot below `scene.count` of both batch arrays becomes an
empty array and, for a trace with markers, `scene.scatter2d.update` is called with the
unselected marker options. A `null` batch array throws (in the code at its first write, at the
latest at `scene.unselectBatch[stash.index] = unels`), as does a missing marker renderer. -/
def enterSelectMode (trace : Trace) (index : Nat) (scene : Scene C M) : Option (Scene C M) := do
  let selectBatch ← scene.selectBatch
  match jsGet selectBatch index with
  | some _ => some scene
  | none =>
    let unselectBatch ← scene.unselectBatch
    let scene :=
      { scene with
          selectBatch := some (resetBatch scene.count selectBatch),
          unselectBatch := some (resetBatch scene.count unselectBatch) }
    if trace.hasMarkers then do
      let scatter2d ← scene.scatter2d
      pure { scene with scatter2d := some (scatter2d ++ [scene.markerUnselectedOptions]) }
    else pure scene

/-- The function `selectPoints(searchInfo, selectionTester)`. `scene` is `stash._scene`
(`none` when the stash has no scene), `selectionTester` is `none` for the value `false`.
The result is the scene after the call and the returned selection; `none` is a `TypeError`. -/
def selectPoints (addOpacity : Option C → D → C) (DESELECTDIM : D)
    (trace : Trace) (stash : Stash X P) (scene : Option (Scene C M))
    (selectionTester : Option (Tester P)) :
    Option (Option (Scene C M) × List (SelRecord X)) :=
  match scene with
  | none => some (none, [])
  | some scene =>
    let hasOnlyLines := !trace.hasMarkers && !trace.hasText
    if !trace.visible || hasOnlyLines then some (some scene, []) else do
      let (els, unels, selection) ← selectTest trace stash selectionTester
      let scene ← enterSelectMode trace stash.index (ensureBatches scene)
      let selectBatch ← scene.selectBatch
      let unselectBatch ← scene.unselectBatch
      let scene :=
        { scene with
            selectBatch := some (jsSet selectBatch stash.index els),
            unselectBatch := some (jsSet unselectBatch stash.index unels) }
      -- update text options
      let scene ←
        if trace.hasText then styleTextSelection addOpacity DESELECTDIM trace stash.index scene
        else some scene
      pure (some scene, selection)

/-- The scene has what `selectPoints` uses without a check for this trace: an array
`unselectBatch` beside an array `selectBatch`, a marker renderer when the trace has markers,
base text options and a text renderer at the trace index when the trace has text. This is the
state `plot` leaves for a trace that `calc` has put in the scene. -/
def Scene.readyFor (scene : Scene C M) (trace : Trace) (index : Nat) : Bool :=
  (scene.selectBatch.isNone || scene.unselectBatch.isSome) &&
  (!trace.hasMarkers || scene.scatter2d.isSome) &&
  (!trace.hasText ||
    ((jsGet scene.textOptions index).isSome &&
      (match scene.glText with
        | some glText => decide (index < glText.length)
        | none => false)))

end Selection

/-! ## Position buffers -/

/-- A value read from a position buffer: a number, the value `NaN`, or `undefined` (what an
index outside the buffer reads, and what `BADNUM` is). -/
inductive JSVal (α : Type) where
  | undefined
  | nan
  | num (v : α)
deriving DecidableEq, Repr

section Buffers

variable {α : Type}

/-- The global function `isNaN`: true of `NaN` and of `undefined`, false of a number. -/
def isNaN : JSVal α → Bool
  | .num _ => false
  | _ => true

/-- Read `srcPos[i]` for an integer index: `undefined` outside the buffer. -/
def idx (srcPos : List (JSVal α)) (i : Int) : JSVal α :=
  if 0 ≤ i then srcPos.getD i.toNat .undefined else .undefined

/-- The method `Array.prototype.slice(start, end)`: a negative bound counts from the end,
both bounds are clamped to the array. -/
def jsSlice {β : Type} (a : List β) (start stop : Int) : List β :=
  let len : Int := a.length
  let k := if start < 0 then max (len + start) 0 else min start len
  let fin := if stop < 0 then max (len + stop) 0 else min stop len
  (a.take fin.toNat).drop k.toNat

/-- The loop `while(i < len && bad(i)) i += 2`, with fuel; the result is the final `i`. -/
def whileUp (bad : Int → Bool) (len : Int) : Nat → Int → Option Int
  | 0, _ => none
  | fuel + 1, i => if i < len && bad i then whileUp bad len fuel (i + 2) else some i

/-- The loop `while(i > first && bad(i)) i -= 2`, with fuel; the result is the final `i`. -/
def whileDown (bad : Int → Bool) (first : Int) : Nat → Int → Option Int
  | 0, _ => none
  | fuel + 1, i => if i > first && bad i then whileDown bad first fuel (i - 2) else some i

/-- The line trimming of `plot`: the new value of `lineOptions.positions` computed from
`srcPos = lineOptions.positions`. Each loop runs at most `srcPos.length / 2` times; the fuel
is `srcPos.length + 1`. -/
def trimLinePositions (srcPos : List (JSVal α)) : Option (List (JSVal α)) := do
  let bad := fun i : Int => isNaN (idx srcPos i) || isNaN (idx srcPos (i + 1))
  let firstptdef ← whileUp bad srcPos.length (srcPos.length + 1) 0
  let lastptdef ← whileDown bad firstptdef (srcPos.length + 1) ((srcPos.length : Int) - 2)
  pure (jsSlice srcPos firstptdef (lastptdef + 2))

/-- The branch `trace.fill === 'tozeroy'` of the fill construction of `plot`: the value of
`pos` computed from `srcPos`. -/
def fillTozeroy [DecidableEq α] [Zero α] (srcPos : List (JSVal α)) :
    Option (List (JSVal α)) := do
  let bad := fun i : Int => isNaN (idx srcPos (i + 1))
  let firstptdef ← whileUp bad srcPos.length (srcPos.length + 1) 0
  let lastptdef ← whileDown bad firstptdef (srcPos.length + 1) ((srcPos.length : Int) - 2)
  let pos : List (JSVal α) :=
    if idx srcPos (firstptdef + 1) ≠ .num 0 then [idx srcPos firstptdef, .num 0] else []
  let pos := pos ++ jsSlice srcPos firstptdef (lastptdef + 2)
  let pos :=
    if idx srcPos (lastptdef + 1) ≠ .num 0 then pos ++ [idx srcPos lastptdef, .num 0] else pos
  pure pos

/-- The branch `trace.fill === 'tozerox'` of the fill construction of `plot`. -/
def fillTozerox [DecidableEq α] [Zero α] (srcPos : List (JSVal α)) :
    Option (List (JSVal α)) := do
  let bad := fun i : Int => isNaN (idx srcPos i)
  let firstptdef ← whileUp bad srcPos.length (srcPos.length + 1) 0
  let lastptdef ← whileDown bad firstptdef (srcPos.length + 1) ((srcPos.length : Int) - 2)
  let pos : List (JSVal α) :=
    if idx srcPos firstptdef ≠ .num 0 then [.num 0, idx srcPos (firstptdef + 1)] else []
  let pos := pos ++ jsSlice srcPos firstptdef (lastptdef + 2)
  let pos :=
    if idx srcPos lastptdef ≠ .num 0 then pos ++ [.num 0, idx srcPos (lastptdef + 1)] else pos
  pure pos

/-- One pass of the body of the loop `for(j = 0; j < srcPos.length; j += 2)` of the branch
`'toself'` / `'tonext'`; the state is `(pos, last)`. -/
def toselfStep (srcPos : List (JSVal α)) (st : List (JSVal α) × Int) (j : Int) :
    List (JSVal α) × Int :=
  if isNaN (idx srcPos j) || isNaN (idx srcPos (j + 1)) then
    (st.1 ++ jsSlice srcPos st.2 j ++ [idx srcPos st.2, idx srcPos (st.2 + 1)], j + 2)
  else st

/-- The statements after the loop of the branch `'toself'` / `'tonext'`:
`pos = pos.concat(srcPos.slice(last)); if(last) pos.push(srcPos[last], srcPos[last + 1])`. -/
def toselfFinish (srcPos : List (JSVal α)) (st : List (JSVal α) × Int) : List (JSVal α) :=
  let pos := st.1 ++ jsSlice srcPos st.2 srcPos.length
  if st.2 ≠ 0 then pos ++ [idx srcPos st.2, idx srcPos (st.2 + 1)] else pos

/-- The branch `trace.fill === 'toself' || trace.fill === 'tonext'` of the fill construction
of `plot`. The loop index takes the values `0, 2, 4, ...` below `srcPos.length`. -/
def fillToself (srcPos : List (JSVal α)) : List (JSVal α) :=
  let js := (List.range ((srcPos.length + 1) / 2)).map (fun k : Nat => 2 * (k : Int))
  toselfFinish srcPos (js.foldl (toselfStep srcPos) ([], 0))

/-! ### Buffers as lists of pairs -/

/-- The buffer `[x0, y0, x1, y1, ...]` of a list of pairs. -/
def interleave {β : Type} : List (β × β) → List β
  | [] => []
  | p :: ps => p.1 :: p.2 :: interleave ps

/-- The pairs `(x0, y0), (x1, y1), ...` of a buffer; a last element without partner is
dropped. -/
def pairs {β : Type} : List β → List (β × β)
  | a :: b :: rest => (a, b) :: pairs rest
  | _ => []

/-- A buffer with `x` and `y` of every pair exchanged. -/
def swapXY {β : Type} : List β → List β
  | a :: b :: rest => b :: a :: swapXY rest
  | rest => rest

/-- The pair number `k` of a buffer of pairs, `(srcPos[2k], srcPos[2k + 1])`, for an
integer `k`: a pair of `undefined` outside the buffer. -/
def pairAt (ps : List (JSVal α × JSVal α)) (k : Int) : JSVal α × JSVal α :=
  if 0 ≤ k then ps.getD k.toNat (.undefined, .undefined) else (.undefined, .undefined)

/-- A pair that is not a point: `isNaN(x) || isNaN(y)`. -/
def invalidPair (p : JSVal α × JSVal α) : Bool :=
  isNaN p.1 || isNaN p.2

/-- A pair without defined `y`: `isNaN(y)`. -/
def undefinedY (p : JSVal α × JSVal α) : Bool :=
  isNaN p.2

/-- A pair without defined `x`: `isNaN(x)`. -/
def undefinedX (p : JSVal α × JSVal α) : Bool :=
  isNaN p.1

end Buffers

/-! ## Fill construction across traces -/

/-- The value of `trace.fill`; `nofill` is the value `'none'`. -/
inductive Fill where
  | nofill
  | tozeroy
  | tozerox
  | tonexty
  | tonextx
  | toself
  | tonext
deriving DecidableEq, Repr

/-- Line options of one trace (`scene.lineOptions[i]`). `positions` is `none` when the object
has no `positions` (`sceneOptions` adds them only for `positions.length > 1`); `rest` stands
for all other properties. -/
structure LineOpts (α O : Type) where
  positions : Option (List (JSVal α))
  rest : O
deriving DecidableEq, Repr

/-- Fill options of one trace (`scene.fillOptions[i]`): the properties that fill construction
writes (`none` while a property is not set) and `rest` for all others. -/
structure FillOpts (α O : Type) where
  fill : O
  hole : Option (List ℚ)
  fillmode : Option Fill
  opacity : Option O
  positions : Option (List (JSVal α))
  rest : O
deriving DecidableEq, Repr

/-- The attributes of `trace` that `plot` reads. `_nexttrace` is `trace._nexttrace.fillcolor`
and `_prevtrace` is `trace._prevtrace.fill`, each `none` when the linked trace is not set
(`linkTraces` sets them). `selectedpoints` is the result of `Lib.selIndices2selPoints(trace)`,
`none` when `trace.selectedpoints` is not set. -/
structure PlotTrace (O : Type) where
  fill : Fill
  _ownfill : Bool
  _nexttrace : Option O
  _prevtrace : Option Fill
  opacity : O
  selectedpoints : Option (List Nat)
  _length : Nat
deriving DecidableEq, Repr

/-- The stash of a calculated trace as `plot` uses it. -/
structure PlotStash (α : Type) where
  index : Nat
  positions : List (JSVal α)
  x : List (JSVal α)
  y : List (JSVal α)
  xpx : Option (List (JSVal α))
  ypx : Option (List (JSVal α))
deriving DecidableEq, Repr

/-- One entry of `cdata`: `cdata[i][0].trace` and `cdata[i][0].t`. -/
structure CdItem (α O : Type) where
  trace : PlotTrace O
  t : PlotStash α
deriving DecidableEq, Repr

section FillAcross

variable {α O : Type}

/-- One pass of the body of the loop `for(i = Math.floor(nextPos.length / 2); i--;)`. -/
def pushNextStep (nextPos : List (JSVal α)) (pos : List (JSVal α)) (i : Nat) :
    List (JSVal α) :=
  let xx := idx nextPos (((i * 2 : Nat) : Int))
  let yy := idx nextPos (((i * 2 + 1 : Nat) : Int))
  if isNaN xx || isNaN yy then pos else pos ++ [xx, yy]

/-- The loop `for(i = Math.floor(nextPos.length / 2); i--;) { ... pos.push(xx, yy) }`: the
index runs from `floor(nextPos.length / 2) - 1` down to 0. -/
def pushNextReversed (nextPos : List (JSVal α)) (pos : List (JSVal α)) : List (JSVal α) :=
  (List.range (nextPos.length / 2)).reverse.foldl (pushNextStep nextPos) pos

/-- The last `else` branch of the fill construction (the fill is none of `'tozeroy'`,
`'tozerox'`, `'toself'`, `'tonext'`). The result is `pos`, the value of `fillOptions.fill`
and the value of the variable `i` after the branch: the loop over `nextPos` uses `i` as its
counter and leaves it at `-1`. `none` is the `TypeError` of reading `nextPos.length` when the
next line options have no positions. -/
def fillNextBranch (lineOptions : List (Option (LineOpts α O))) (trace : PlotTrace O)
    (srcPos : List (JSVal α)) (fill : O) (i : Nat) : Option (List (JSVal α) × O × Int) :=
  match trace._nexttrace with
  | none => some ([], fill, (i : Int))
  | some nextFillcolor =>
    match jsGet lineOptions (i + 1) with
    | none => some ([], fill, (i : Int))
    | some nextOptions =>
      let nextPos := nextOptions.positions
      if trace.fill = Fill.tonexty then
        match nextPos with
        | none => none
        | some nextPos => some (pushNextReversed nextPos srcPos, nextFillcolor, -1)
      else some ([], fill, (i : Int))

/-- The branches on `trace.fill` of the fill construction: `pos`, the value of
`fillOptions.fill` and the value of `i` afterwards. -/
def fillOwnPositions [DecidableEq α] [Zero α] (lineOptions : List (Option (LineOpts α O)))
    (trace : PlotTrace O) (srcPos : List (JSVal α)) (fill : O) (i : Nat) :
    Option (List (JSVal α) × O × Int) :=
  match trace.fill with
  | Fill.tozeroy => (fillTozeroy srcPos).map (fun pos => (pos, fill, (i : Int)))
  | Fill.tozerox => (fillTozerox srcPos).map (fun pos => (pos, fill, (i : Int)))
  | Fill.toself => some (fillToself srcPos, fill, (i : Int))
  | Fill.tonext => some (fillToself srcPos, fill, (i : Int))
  | _ => fillNextBranch lineOptions trace srcPos fill i

/-- The array `hole` of the previous-trace step: it starts as `[offset]` and gets
`j / 2 + offset + 1` for every `j = 0, 2, 4, ...` below `prevLinePos.length` at which the
pair of `prevLinePos` is invalid. -/
def prevHoles (prevLinePos : List (JSVal α)) (offset : ℚ) : List ℚ :=
  ((List.range ((prevLinePos.length + 1) / 2)).map (fun k : Nat => 2 * k)).foldl
    (fun (hole : List ℚ) (j : Nat) =>
      if isNaN (idx prevLinePos (j : Int)) || isNaN (idx prevLinePos ((j : Int) + 1)) then
        hole ++ [(j : ℚ) / 2 + offset + 1]
      else hole)
    [offset]

/-- The step `if(trace._prevtrace && trace._prevtrace.fill === 'tonext') { ... }`: the new
`pos` and the new `fillOptions.hole`. `i` is the current value of the variable `i`. `none` is
the `TypeError` of `scene.lineOptions[i - 1].positions` on a missing slot or of
`prevLinePos.length` on missing positions. -/
def fillPrevHole (lineOptions : List (Option (LineOpts α O))) (trace : PlotTrace O)
    (pos : List (JSVal α)) (hole : Option (List ℚ)) (i : Int) :
    Option (List (JSVal α) × Option (List ℚ)) :=
  if trace._prevtrace = some Fill.tonext then
    match (if 0 ≤ i - 1 then jsGet lineOptions (i - 1).toNat else none) with
    | none => none
    | some prevOptions =>
      match prevOptions.positions with
      | none => none
      | some prevLinePos =>
        some (pos ++ prevLinePos, some (prevHoles prevLinePos ((pos.length : ℚ) / 2)))
  else some (pos, hole)

/-- The value of `fillData`: `i` when the trace has `_ownfill`, then `i + 1` when it has a
`_nexttrace`. -/
def fillData (trace : PlotTrace O) (i : Nat) : List Nat :=
  (if trace._ownfill then [i] else []) ++ (if trace._nexttrace.isSome then [i + 1] else [])

/-- The callback of `scene.fillOptions.map(function(fillOptions, i) { ... })`, for the scene's
line options (after trimming) and `cdata`. The result is the returned slot (`none` for the
early `return`) and the value written to `scene.fillOrder[i]`, if any; `none` is a
`TypeError`. -/
def buildFill [DecidableEq α] [Zero α] (lineOptions : List (Option (LineOpts α O)))
    (cdata : List (CdItem α O)) (fillOptions : Option (FillOpts α O)) (i : Nat) :
    Option (Option (FillOpts α O) × Option (List Nat)) :=
  match fillOptions, cdata[i]? with
  | some fillOptions, some cd =>
    let trace := cd.trace
    let stash := cd.t
    let order := if fillData trace i ≠ [] then some (fillData trace i) else none
    let srcPos := ((jsGet lineOptions i).bind (fun l => l.positions)).getD stash.positions
    (fillOwnPositions lineOptions trace srcPos fillOptions.fill i).bind fun own =>
    (fillPrevHole lineOptions trace own.1 fillOptions.hole own.2.2).bind fun prev =>
    some (some { fillOptions with
                  fill := own.2.1, hole := prev.2, fillmode := some trace.fill,
                  opacity := some trace.opacity, positions := some prev.1 },
          order)
  | _, _ => some (none, none)

/-- The statement `scene.fillOptions = scene.fillOptions.map(...)` from slot `i` on: the new
array and `scene.fillOrder` after the callbacks. -/
def buildFillsFrom [DecidableEq α] [Zero α] (lineOptions : List (Option (LineOpts α O)))
    (cdata : List (CdItem α O)) :
    Nat → List (Option (FillOpts α O)) → List (Option (List Nat)) →
    Option (List (Option (FillOpts α O)) × List (Option (List Nat)))
  | _, [], fillOrder => some ([], fillOrder)
  | i, f :: fs, fillOrder =>
    (buildFill lineOptions cdata f i).bind fun r =>
    (buildFillsFrom lineOptions cdata (i + 1) fs
      (match r.2 with
        | some d => jsSet fillOrder i (some d)
        | none => fillOrder)).bind fun rest =>
    some (r.1 :: rest.1, rest.2)

end FillAcross

/-! ## The scene and its lifecycle -/

/-- The object `opts` that `calc` pushes into the scene, one property per kind; `none` is a
kind the trace does not use. Objects other than line and fill options are opaque values. -/
structure TraceOpts (α O : Type) where
  line : Option (LineOpts α O)
  fill : Option (FillOpts α O)
  marker : Option O
  markerSel : Option O
  markerUnsel : Option O
  errorX : Option O
  errorY : Option O
  text : Option O
  textSel : Option O
  textUnsel : Option O
deriving DecidableEq, Repr

/-- The ten pending-option arrays, in the order of `resetOpts`. -/
structure OptionArrays (α O : Type) where
  lineOptions : List (Option (LineOpts α O))
  fillOptions : List (Option (FillOpts α O))
  markerOptions : List (Option O)
  markerSelectedOptions : List (Option O)
  markerUnselectedOptions : List (Option O)
  errorXOptions : List (Option O)
  errorYOptions : List (Option O)
  textOptions : List (Option O)
  textSelectedOptions : List (Option O)
  textUnselectedOptions : List (Option O)
deriving DecidableEq, Repr

/-- A renderer field such as `scene.line2d`: `false`, `true` (requested by `calc`) or the
renderer object that `plot` created. -/
inductive Renderer where
  | off
  | requested
  | created
deriving DecidableEq, Repr

/-- The field `scene.glText`: `false`, `true`, or an array of `n` text renderers. -/
inductive TextRenderers where
  | off
  | requested
  | created (n : Nat)
deriving DecidableEq, Repr

/-- The per-subplot scene. The ten arrays are the contents of the arrays that the scene's
fields currently point to. `scene.init` is the closure made when the scene was created: it
runs `Lib.extendFlat(scene, initOpts, resetOpts)` with the `resetOpts` object of that one
`sceneUpdate` call, and `Lib.extendFlat` assigns property values without copying them. The
ten arrays of that `resetOpts` object therefore live on; `initArrays` holds their contents.
`aliasLine`, `aliasFill` and `aliasRest` say whether `scene.lineOptions`,
`scene.fillOptions` and the eight other array fields currently are those very arrays, so
that a `push` through the scene field also changes `initArrays`. Between an `init` and the
next reset the line and fill option objects of the scene's arrays are the objects of
`initArrays` at the same index. -/
structure SceneState (α O : Type) extends OptionArrays α O where
  count : Nat
  dirty : Bool
  selectBatch : Option Batch
  unselectBatch : Option Batch
  fill2d : Renderer
  scatter2d : Renderer
  error2d : Renderer
  line2d : Renderer
  glText : TextRenderers
  select2d : Bool
  fillOrder : Option (List (Option (List Nat)))
  initArrays : OptionArrays α O
  aliasLine : Bool
  aliasFill : Bool
  aliasRest : Bool
deriving DecidableEq, Repr

/-- The attributes of a trace and its axes that `calc` reads: the calcdata `x` and `y`,
whether each axis is logarithmic, the result of `convert.style(gd, trace)` and the positions
of `convert.linePositions(gd, trace, positions)`. -/
structure CalcInput (α O : Type) where
  _length : Nat
  x : List (JSVal α)
  y : List (JSVal α)
  xLog : Bool
  yLog : Bool
  style : TraceOpts α O
  linePositions : List (JSVal α)
deriving DecidableEq, Repr

/-- The stash that `calc` returns: the spatial index or the identity index, and the fields
`plot` uses later. -/
structure CalcStash (α T : Type) where
  tree : Option T
  ids : Option (List (Option Nat))
  t : PlotStash α

section Lifecycle

variable {α O T : Type}

/-- Is the renderer field truthy. -/
def Renderer.truthy : Renderer → Bool
  | .off => false
  | _ => true

/-- Is `scene.glText` truthy. -/
def TextRenderers.truthy : TextRenderers → Bool
  | .off => false
  | _ => true

/-- Ten empty arrays, as in a new `resetOpts` object. -/
def OptionArrays.empty : OptionArrays α O :=
  { lineOptions := [], fillOptions := [], markerOptions := [], markerSelectedOptions := [],
    markerUnselectedOptions := [], errorXOptions := [], errorYOptions := [],
    textOptions := [], textSelectedOptions := [], textUnselectedOptions := [] }

/-- The value `xx === BADNUM ? NaN : xx`, where `BADNUM` is `undefined`. -/
def nanIfBad (v : JSVal α) : JSVal α :=
  match v with
  | .undefined => .nan
  | v => v

/-- The array `positions` of `calc`: `[x0, y0, x1, y1, ...]` with `NaN` for `BADNUM`, then
`c2l` applied to the `x` of every pair on a logarithmic x axis and to the `y` on a
logarithmic y axis. -/
def calcPositions (xc2l yc2l : JSVal α → JSVal α) (inp : CalcInput α O) : List (JSVal α) :=
  let pts := (List.range inp._length).map
    (fun i : Nat => (nanIfBad (idx inp.x (i : Int)), nanIfBad (idx inp.y (i : Int))))
  let pts := if inp.xLog then pts.map (fun p => (xc2l p.1, p.2)) else pts
  let pts := if inp.yLog then pts.map (fun p => (p.1, yc2l p.2)) else pts
  interleave pts

/-- The index that `calc` puts in the stash: `stash.tree = cluster(positions)` for at least
`TOO_MANY_POINTS` points on two non-logarithmic axes, otherwise `stash.ids`, a
`new Array(len)` filled by `ids[i] = i`. -/
def calcIndex (TOO_MANY_POINTS : Nat) (cluster : List (JSVal α) → T) (len : Nat)
    (xLog yLog : Bool) (positions : List (JSVal α)) : Option T × Option (List (Option Nat)) :=
  let hasTooManyPoints := decide (len ≥ TOO_MANY_POINTS)
  if hasTooManyPoints && (!xLog && !yLog) then
    (some (cluster positions), none)
  else
    (none, some ((List.range len).foldl (fun ids i => jsSet ids i (some i))
      (List.replicate len none)))

/-- The function `sceneOptions`, as far as it changes line options: the positions of
`convert.linePositions` are added to `opts.line` when `positions.length > 1`. -/
def sceneOptions (style : TraceOpts α O) (linePositions positions : List (JSVal α)) :
    TraceOpts α O :=
  { style with
      line := style.line.map
        (fun l => if positions.length > 1 then { l with positions := some linePositions }
                  else l) }

/-- The ten `push` statements of `calc` on ten arrays. -/
def OptionArrays.push (a : OptionArrays α O) (opts : TraceOpts α O) : OptionArrays α O :=
  { lineOptions := a.lineOptions ++ [opts.line],
    fillOptions := a.fillOptions ++ [opts.fill],
    markerOptions := a.markerOptions ++ [opts.marker],
    markerSelectedOptions := a.markerSelectedOptions ++ [opts.markerSel],
    markerUnselectedOptions := a.markerUnselectedOptions ++ [opts.markerUnsel],
    errorXOptions := a.errorXOptions ++ [opts.errorX],
    errorYOptions := a.errorYOptions ++ [opts.errorY],
    textOptions := a.textOptions ++ [opts.text],
    textSelectedOptions := a.textSelectedOptions ++ [opts.textSel],
    textUnselectedOptions := a.textUnselectedOptions ++ [opts.textUnsel] }

/-- The ten `push` statements as the arrays of the creation-time `resetOpts` see them: an
array gets the element when the scene field is that array. -/
def OptionArrays.pushAliased (a : OptionArrays α O) (opts : TraceOpts α O)
    (aliasLine aliasFill aliasRest : Bool) : OptionArrays α O :=
  { lineOptions := if aliasLine then a.lineOptions ++ [opts.line] else a.lineOptions,
    fillOptions := if aliasFill then a.fillOptions ++ [opts.fill] else a.fillOptions,
    markerOptions := if aliasRest then a.markerOptions ++ [opts.marker] else a.markerOptions,
    markerSelectedOptions :=
      if aliasRest then a.markerSelectedOptions ++ [opts.markerSel]
      else a.markerSelectedOptions,
    markerUnselectedOptions :=
      if aliasRest then a.markerUnselectedOptions ++ [opts.markerUnsel]
      else a.markerUnselectedOptions,
    errorXOptions := if aliasRest then a.errorXOptions ++ [opts.errorX] else a.errorXOptions,
    errorYOptions := if aliasRest then a.errorYOptions ++ [opts.errorY] else a.errorYOptions,
    textOptions := if aliasRest then a.textOptions ++ [opts.text] else a.textOptions,
    textSelectedOptions :=
      if aliasRest then a.textSelectedOptions ++ [opts.textSel] else a.textSelectedOptions,
    textUnselectedOptions :=
      if aliasRest then a.textUnselectedOptions ++ [opts.textUnsel]
      else a.textUnselectedOptions }

/-- The method `scene.init`: `Lib.extendFlat(scene, initOpts, resetOpts)` with the objects of
the `sceneUpdate` call that created the scene. Every array field becomes the array of that
`resetOpts` object again, with what has been pushed into it since; `scene.fillOrder` is not a
property of `initOpts` or `resetOpts` and keeps its value. -/
def SceneState.init (scene : SceneState α O) : SceneState α O :=
  { scene with
      toOptionArrays := scene.initArrays,
      count := 0, dirty := true,
      selectBatch := none, unselectBatch := none,
      fill2d := .off, scatter2d := .off, error2d := .off, line2d := .off, glText := .off,
      select2d := false,
      aliasLine := true, aliasFill := true, aliasRest := true }

/-- The scene that `sceneUpdate` creates for a subplot without scene: an empty object after
`scene.init()`, with the new empty arrays of `resetOpts`. -/
def SceneState.create : SceneState α O :=
  { toOptionArrays := OptionArrays.empty,
    count := 0, dirty := true,
    selectBatch := none, unselectBatch := none,
    fill2d := .off, scatter2d := .off, error2d := .off, line2d := .off, glText := .off,
    select2d := false, fillOrder := none,
    initArrays := OptionArrays.empty,
    aliasLine := true, aliasFill := true, aliasRest := true }

/-- The statement `Lib.extendFlat(scene, resetOpts)` of `sceneUpdate`, with the new
`resetOpts` object of the current call: ten new empty arrays. -/
def SceneState.reset (scene : SceneState α O) : SceneState α O :=
  { scene with
      toOptionArrays := OptionArrays.empty,
      count := 0, dirty := true,
      aliasLine := false, aliasFill := false, aliasRest := false }

/-- The function `sceneUpdate(gd, subplot)`, on `subplot._scene`. -/
def sceneUpdate (scene : Option (SceneState α O)) : SceneState α O :=
  match scene with
  | none => SceneState.create
  | some scene => if !scene.dirty then scene.reset else scene

/-- The function `calc(gd, trace)` (named `calcTrace` here), on `subplot._scene`: the scene
afterwards and the stash of the returned calcdata. -/
def calcTrace (TOO_MANY_POINTS : Nat) (cluster : List (JSVal α) → T)
    (xc2l yc2l : JSVal α → JSVal α) (inp : CalcInput α O) (scene : Option (SceneState α O)) :
    SceneState α O × CalcStash α T :=
  let len := inp._length
  let positions := calcPositions xc2l yc2l inp
  let index := calcIndex TOO_MANY_POINTS cluster len inp.xLog inp.yLog positions
  -- create scene options and scene
  let opts := sceneOptions inp.style inp.linePositions positions
  let scene := sceneUpdate scene
  -- set flags to create scene renderers
  let scene :=
    { scene with
        fill2d := if opts.fill.isSome && !scene.fill2d.truthy then .requested
                  else scene.fill2d,
        scatter2d := if opts.marker.isSome && !scene.scatter2d.truthy then .requested
                     else scene.scatter2d,
        line2d := if opts.line.isSome && !scene.line2d.truthy then .requested
                  else scene.line2d,
        error2d := if (opts.errorX.isSome || opts.errorY.isSome) && !scene.error2d.truthy
                   then .requested else scene.error2d,
        glText := if opts.text.isSome && !scene.glText.truthy then .requested
                  else scene.glText }
  -- save scene opts batch
  let scene :=
    { scene with
        toOptionArrays := scene.toOptionArrays.push opts,
        initArrays :=
          scene.initArrays.pushAliased opts scene.aliasLine scene.aliasFill scene.aliasRest }
  -- stash scene ref
  let stash : CalcStash α T :=
    { tree := index.1, ids := index.2,
      t := { index := scene.count, positions := positions, x := inp.x, y := inp.y,
             xpx := none, ypx := none } }
  ({ scene with count := scene.count + 1 }, stash)

/-- The method `scene.draw`: the draw calls change no scene field; then
`scene.dirty = false`. -/
def SceneState.draw (scene : SceneState α O) : SceneState α O :=
  { scene with dirty := false }

/-! ### The function `plot` -/

/-- The callback of `scene.lineOptions.map(function(lineOptions) { ... })`: line options with
positions get trimmed positions, every other slot is returned as it is. -/
def trimLineOpts (lineOptions : Option (LineOpts α O)) : Option (Option (LineOpts α O)) :=
  match lineOptions with
  | none => some none
  | some l =>
    match l.positions with
    | none => some (some l)
    | some srcPos =>
      (trimLinePositions srcPos).map (fun p => some { l with positions := some p })

/-- The statement `scene.lineOptions = scene.lineOptions.map(...)`. -/
def trimLines : List (Option (LineOpts α O)) → Option (List (Option (LineOpts α O)))
  | [] => some []
  | l :: ls =>
    (trimLineOpts l).bind fun l2 => (trimLines ls).bind fun ls2 => some (l2 :: ls2)

/-- What an array of the creation-time `resetOpts` holds after the callbacks of a `map` have
changed the option objects in place: at an index where the scene's array holds an object,
that object is also the element of the creation-time array. -/
def syncShared {β : Type} : List (Option β) → List (Option β) → List (Option β)
  | [], _ => []
  | c :: cs, [] => c :: cs
  | c :: cs, n :: ns =>
    (match n with
      | some v => some v
      | none => c) :: syncShared cs ns

/-- The line and fill part of the block `if(scene.dirty) { ... }` of `plot`, as a function of
the ten arrays, of whether `scene.line2d` and `scene.fill2d` are truthy, of `cdata` and of
`scene.count`: the arrays and `scene.fillOrder` afterwards. -/
def realizeArrays [DecidableEq α] [Zero α] (a : OptionArrays α O) (line2d fill2d : Bool)
    (cdata : List (CdItem α O)) (count : Nat) :
    Option (OptionArrays α O × List (Option (List Nat))) :=
  (if line2d then trimLines a.lineOptions else some a.lineOptions).bind fun lines =>
  -- fill requires linked traces, so we generate it's positions here
  (if fill2d then buildFillsFrom lines cdata 0 a.fillOptions (List.replicate count none)
    else some (a.fillOptions, List.replicate count none)).bind fun fills =>
  some ({ a with lineOptions := lines, fillOptions := fills.1 }, fills.2)

/-- The block `if(scene.dirty) { ... }` of `plot`: requested renderers are created,
`scene.glText` becomes an array of `scene.count` text renderers, the line options are
trimmed and the fill options built. The `update` calls on the renderers change no scene
field. `none` is a `TypeError` of the fill construction (or exhausted loop fuel). -/
def plotDirty [DecidableEq α] [Zero α] (scene : SceneState α O) (cdata : List (CdItem α O)) :
    Option (SceneState α O) :=
  let mk := fun r : Renderer => if r = Renderer.requested then Renderer.created else r
  -- make sure scenes are created
  let scene :=
    { scene with
        error2d := mk scene.error2d, line2d := mk scene.line2d,
        scatter2d := mk scene.scatter2d, fill2d := mk scene.fill2d,
        glText := if scene.glText.truthy then TextRenderers.created scene.count
                  else scene.glText }
  (realizeArrays scene.toOptionArrays scene.line2d.truthy scene.fill2d.truthy cdata
    scene.count).bind fun r =>
  some { scene with
          toOptionArrays := r.1,
          fillOrder := some r.2,
          initArrays :=
            if scene.aliasRest then
              { scene.initArrays with
                  lineOptions :=
                    if scene.line2d.truthy then
                      syncShared scene.initArrays.lineOptions r.1.lineOptions
                    else scene.initArrays.lineOptions,
                  fillOptions :=
                    if scene.fill2d.truthy then
                      syncShared scene.initArrays.fillOptions r.1.fillOptions
                    else scene.initArrays.fillOptions }
            else scene.initArrays,
          aliasLine := scene.aliasLine && !scene.line2d.truthy,
          aliasFill := scene.aliasFill && !scene.fill2d.truthy }

/-- The state of the loop `for(i = 0; i < cdata.length; i++)` that forms the batch arrays:
the two scene fields, the variable `selectMode` and the entries of `cdata` done so far. -/
structure BatchLoop (α O : Type) where
  selectBatch : Option Batch
  unselectBatch : Option Batch
  selectMode : Bool
  cdata : List (CdItem α O)

/-- One pass of the body of the batch loop for the entry `cd`. -/
def plotBatchStep (clickSelectEnabled : Bool) (xc2p yc2p : JSVal α → JSVal α)
    (st : BatchLoop α O) (cd : CdItem α O) : BatchLoop α O :=
  let trace := cd.trace
  let stash := cd.t
  let index := stash.index
  let len := trace._length
  if trace.selectedpoints.isSome || st.selectMode || clickSelectEnabled then
    let selectBatch := if st.selectBatch.isNone then [] else st.selectBatch.getD []
    let unselectBatch := if st.selectBatch.isNone then [] else st.unselectBatch.getD []
    -- regenerate scene batch, if traces number changed during selection
    let batches :=
      match trace.selectedpoints with
      | some selPts =>
        (jsSet selectBatch index (some selPts),
         jsSet unselectBatch index
           (some ((List.range len).filter (fun j => !selPts.contains j))))
      | none => (selectBatch, unselectBatch)
    -- precalculate px coords since we are not going to pan during select
    let xpx := (List.range len).map (fun j : Nat => xc2p (idx stash.x (j : Int)))
    let ypx := (List.range len).map (fun j : Nat => yc2p (idx stash.y (j : Int)))
    { selectBatch := some batches.1, unselectBatch := some batches.2, selectMode := true,
      cdata := st.cdata ++ [{ cd with t := { stash with xpx := some xpx, ypx := some ypx } }] }
  else
    { st with cdata := st.cdata ++ [{ cd with t := { stash with xpx := none, ypx := none } }] }

/-- The function `plot(gd, subplot, cdata)`, on `subplot._scene`. `success` is the result of
`prepareRegl`, `selectMode` is `dragmode === 'lasso' || dragmode === 'select'`,
`clickSelectEnabled` is `fullLayout.clickmode.indexOf('select') > -1`, `xc2p` and `yc2p` are
`xaxis.c2p` and `yaxis.c2p`; `cdata` carries the trace links that `linkTraces` sets. The
result is the scene and `cdata` (with the pixel caches of the stashes) afterwards; `none` is
a `TypeError`. Renderer `update` calls change no scene field and are left out. -/
def plot [DecidableEq α] [Zero α] (success selectMode clickSelectEnabled : Bool)
    (xc2p yc2p : JSVal α → JSVal α) (scene : Option (SceneState α O))
    (cdata : List (CdItem α O)) : Option (Option (SceneState α O) × List (CdItem α O)) :=
  if cdata.length = 0 then some (scene, cdata) else
  match scene with
  | none => some (none, cdata)
  | some scene =>
    if !success then some (some scene.init, cdata) else
    (if scene.dirty then plotDirty scene cdata else some scene).bind fun scene =>
    -- form batch arrays, and check for selected points
    let loop := cdata.foldl (plotBatchStep clickSelectEnabled xc2p yc2p)
      { selectBatch := none, unselectBatch := none, selectMode := selectMode, cdata := [] }
    some (some { scene with
                  selectBatch := loop.selectBatch, unselectBatch := loop.unselectBatch,
                  select2d := if loop.selectMode then true else scene.select2d },
          loop.cdata)

/-- A calculation pass: `calc` for every trace in order, each on the scene the previous one
left; the entry of `cdata` for a trace is its attributes for `plot` and its stash. -/
def calcPass (TOO_MANY_POINTS : Nat) (cluster : List (JSVal α) → T)
    (xc2l yc2l : JSVal α → JSVal α) (traces : List (CalcInput α O × PlotTrace O))
    (scene : Option (SceneState α O)) : Option (SceneState α O) × List (CdItem α O) :=
  traces.foldl
    (fun acc tr =>
      let r := calcTrace TOO_MANY_POINTS cluster xc2l yc2l tr.1 acc.1
      (some r.1, acc.2 ++ [{ trace := tr.2, t := r.2.t }]))
    (scene, [])

/-- A calculation pass followed by `plot` with successful `prepareRegl`. -/
def calcThenPlot [DecidableEq α] [Zero α] (TOO_MANY_POINTS : Nat)
    (cluster : List (JSVal α) → T) (xc2l yc2l xc2p yc2p : JSVal α → JSVal α)
    (selectMode clickSelectEnabled : Bool) (traces : List (CalcInput α O × PlotTrace O))
    (scene : Option (SceneState α O)) : Option (Option (SceneState α O) × List (CdItem α O)) :=
  let r := calcPass TOO_MANY_POINTS cluster xc2l yc2l traces scene
  plot true selectMode clickSelectEnabled xc2p yc2p r.1 r.2

end Lifecycle

/-! ## Hover -/

/-- The parts of an axis that `hoverPoints` reads: `c2p`, `p2c` and the range `_rl`. Numbers
are the elements of an ordered ring `K`. -/
structure Axis (K : Type) where
  c2p : K → K
  p2c : K → K
  _rl : K × K

/-- The fields of `pointData` that `hoverPoints` reads and writes. -/
structure PointData (K : Type) where
  index : Option Nat
  distance : K
  dxy : JSVal K
deriving DecidableEq, Repr

/-- The result of `hoverPoints`: the only element `pointData` of the returned array, and
whether `calcHover` has run on it and has added the point detail fields. -/
structure HoverResult (K : Type) where
  pointData : PointData K
  detail : Bool
deriving DecidableEq, Repr

/-- The variables `id`, `minDist` and `dxy` of the search loop of `hoverPoints`. -/
structure HoverScan (K : Type) where
  id : Option Nat
  minDist : K
  dxy : JSVal K
deriving DecidableEq, Repr

section Hover

variable {K T : Type} [LinearOrderedCommRing K]

/-- The number that a calcdata value is in arithmetic: `NaN` (here `none`) for `undefined`
and for `NaN`. -/
def toNum : JSVal K → Option K
  | .num v => some v
  | _ => none

/-- A computed number as a value: `NaN` for `none`. -/
def ofNum : Option K → JSVal K
  | some v => .num v
  | none => .nan

/-- The call `ax.c2p(v)` on a calcdata value: `NaN` for a value that is no number. -/
def Axis.c2pVal (ax : Axis K) (v : JSVal K) : Option K :=
  (toNum v).map ax.c2p

/-- The read `x[ids[i]]`: `undefined` when `ids[i]` is `undefined` or outside of `x`. -/
def hoverCoord (a : List (JSVal K)) (id : Option Nat) : JSVal K :=
  match id with
  | some i => idx a (i : Int)
  | none => .undefined

/-- The body of the loop of `hoverPoints` for `hovermode === 'x'`, for `ids[i] = id`. A
comparison with `NaN` is false. -/
def hoverStepX (sqrt : K → K) (xa ya : Axis K) (x y : List (JSVal K)) (xpx ypx : K)
    (st : HoverScan K) (id : Option Nat) : HoverScan K :=
  let ptx := hoverCoord x id
  match (xa.c2pVal ptx).map (fun p => |p - xpx|) with
  | none => st
  | some dx =>
    if dx < st.minDist then
      let dy := (ya.c2pVal (hoverCoord y id)).map (fun p => p - ypx)
      { minDist := dx, dxy := ofNum (dy.map (fun dy => sqrt (dx * dx + dy * dy))), id := id }
    else st

/-- The value `dist` of the loop of `hoverPoints` for the other hover modes. -/
def hoverDist (sqrt : K → K) (xa ya : Axis K) (x y : List (JSVal K)) (xpx ypx : K)
    (id : Option Nat) : Option K :=
  let ptx := hoverCoord x id
  let pty := hoverCoord y id
  ((xa.c2pVal ptx).map (fun p => p - xpx)).bind fun dx =>
  ((ya.c2pVal pty).map (fun p => p - ypx)).bind fun dy =>
  some (sqrt (dx * dx + dy * dy))

/-- The body of the loop of `hoverPoints` for a hover mode other than `'x'`. -/
def hoverStepXY (sqrt : K → K) (xa ya : Axis K) (x y : List (JSVal K)) (xpx ypx : K)
    (st : HoverScan K) (id : Option Nat) : HoverScan K :=
  match hoverDist sqrt xa ya x y xpx ypx id with
  | none => st
  | some dist =>
    if dist < st.minDist then { minDist := dist, dxy := .num dist, id := id }
    else st

/-- The array `ids` of `hoverPoints`: the result of `stash.tree.range` on the search
rectangle when the stash has a tree, `stash.ids` otherwise; `none` when the stash has
neither. `range` is the method `range` of the spatial index. -/
def hoverIds (range : T → K → K → K → K → List Nat) (xa ya : Axis K) (stash : CalcStash K T)
    (xpx ypx maxDistance : K) (xmode : Bool) : Option (List (Option Nat)) :=
  match stash.tree with
  | some tree =>
    let xl := xa.p2c (xpx - maxDistance)
    let xr := xa.p2c (xpx + maxDistance)
    let yl := ya.p2c (ypx - maxDistance)
    let yr := ya.p2c (ypx + maxDistance)
    if xmode then
      some ((range tree (min xl xr) (min ya._rl.1 ya._rl.2)
        (max xl xr) (max ya._rl.1 ya._rl.2)).map some)
    else
      some ((range tree (min xl xr) (min yl yr) (max xl xr) (max yl yr)).map some)
  | none =>
    match stash.ids with
    | some ids => some ids
    | none => none

/-- The search loop of `hoverPoints` over `ids`, from `id` undefined and
`minDist = maxDistance`. -/
def hoverScan (sqrt : K → K) (xa ya : Axis K) (x y : List (JSVal K)) (xpx ypx maxDistance : K)
    (xmode : Bool) (ids : List (Option Nat)) : HoverScan K :=
  if xmode then
    ids.foldl (hoverStepX sqrt xa ya x y xpx ypx)
      { id := none, minDist := maxDistance, dxy := .undefined }
  else
    ids.foldl (hoverStepXY sqrt xa ya x y xpx ypx)
      { id := none, minDist := maxDistance, dxy := .undefined }

/-- The function `hoverPoints(pointData, xval, yval, hovermode)`; `xmode` is
`hovermode === 'x'`, `sqrt` is `Math.sqrt`, the stash is `pointData.cd[0].t` and the axes are
`pointData.xa` and `pointData.ya`. -/
def hoverPoints (range : T → K → K → K → K → List Nat) (sqrt : K → K)
    (pointData : PointData K) (xa ya : Axis K) (stash : CalcStash K T) (xval yval : K)
    (xmode : Bool) : HoverResult K :=
  let x := stash.t.x
  let y := stash.t.y
  let xpx := xa.c2p xval
  let ypx := ya.c2p yval
  let maxDistance := pointData.distance
  match hoverIds range xa ya stash xpx ypx maxDistance xmode with
  | none => { pointData := pointData, detail := false }
  | some ids =>
    -- pick the id closest to the point
    -- note that point possibly may not be found
    let st := hoverScan sqrt xa ya x y xpx ypx maxDistance xmode ids
    { pointData := { index := st.id, distance := st.minDist, dxy := st.dxy },
      detail := st.id.isSome }

/-- The pixel distance of the point `id` that the loop of `hoverPoints` compares with
`minDist`: the horizontal distance for `hovermode === 'x'`, the distance in the plane
otherwise; `none` is `NaN`. -/
def hoverDistance (sqrt : K → K) (xa ya : Axis K) (x y : List (JSVal K)) (xpx ypx : K)
    (xmode : Bool) (id : Option Nat) : Option K :=
  if xmode then (xa.c2pVal (hoverCoord x id)).map (fun p => |p - xpx|)
  else hoverDist sqrt xa ya x y xpx ypx id

/-- Is point `i` of the stash inside the closed rectangle: both coordinates are numbers,
`xmin ≤ x[i] ≤ xmax` and `ymin ≤ y[i] ≤ ymax`. -/
def inRect (x y : List (JSVal K)) (xmin ymin xmax ymax : K) (i : Nat) : Bool :=
  match toNum (idx x (i : Int)), toNum (idx y (i : Int)) with
  | some px, some py =>
    decide (xmin ≤ px) && decide (px ≤ xmax) && decide (ymin ≤ py) && decide (py ≤ ymax)
  | _, _ => false

/-- A range query as the specification describes it: the indices of the points inside the
closed rectangle, in ascending order. -/
def rectQuery (x y : List (JSVal K)) (n : Nat) (xmin ymin xmax ymax : K) : List Nat :=
  (List.range n).filter (inRect x y xmin ymin xmax ymax)

end Hover


end Scattergl

namespace Scattergl

/-! ## Example data -/

/-- A stand-in for `Color.addOpacity`: the colour name with the alpha appended. -/
def exAddOpacity (c : Option String) (d : String) : String :=
  c.getD "undefined" ++ "@" ++ d

/-- A stand-in for the constant `DESELECTDIM`. -/
def exDim : String := "0.2"

/-- A visible trace with markers and text and three points. -/
def exTrace : Trace := ⟨true, true, true, 3⟩

/-- The stash of `exTrace`, trace index 0, with pixel caches. -/
def exStash : Stash Int Int := ⟨[10, 20, 30], [1, 2, 3], some [0, 5, 9], some [4, 4, 4], 0⟩

/-- A realized scene of two traces without active selection. -/
def exScene : Scene String Nat :=
  { count := 2, selectBatch := none, unselectBatch := none,
    markerUnselectedOptions := [some 7, some 8],
    textOptions := [some ⟨.scalar (some "blue")⟩, none],
    textSelectedOptions := [none, none],
    textUnselectedOptions := [none, none],
    scatter2d := some [], glText := some [[], []] }

/-- A visible trace with markers and two points. -/
def exTrace2 : Trace := ⟨true, true, false, 2⟩

/-- The stash of `exTrace2`, trace index 0, with pixel caches. -/
def exStash2 : Stash Int Int := ⟨[10, 20], [1, 2], some [0, 5], some [4, 4], 0⟩

/-- A box tester: contains the points whose pixel x is at least 5. -/
def exTester : Tester Int := ⟨false, fun pt _ => decide (∃ v, pt.1 = some v ∧ 5 ≤ v)⟩

/-- A zero-area tester. -/
def exDegenerate : Tester Int := ⟨true, fun _ _ => true⟩

/-- A non-degenerate tester that contains no point. -/
def exEmptyTester : Tester Int := ⟨false, fun _ _ => false⟩

/-- The scene `exScene` after a selection that chose point 0 of trace 0 and point 1 of
trace 1 (each trace has two points). -/
def exSelectedScene : Scene String Nat :=
  { exScene with selectBatch := some [some [0], some [1]],
                 unselectBatch := some [some [1], some [0]] }

/-- The scene `exScene` with an explicit selected-style text colour and a partition for
trace 0. -/
def exStyledScene : Scene String Nat :=
  { exScene with selectBatch := some [some [0, 2]], unselectBatch := some [some [1]],
                 textSelectedOptions := [some ⟨some "red"⟩, none] }

/-- A line position buffer of five pairs: an invalid pair, the point (1, 2), a pair without
`x`, the point (4, 5) and a pair without `y`. -/
def exLine : List (JSVal Int) :=
  [.nan, .nan, .num 1, .num 2, .nan, .num 3, .num 4, .num 5, .num 6, .nan]

/-- The buffer of the single run `[(1,2),(2,3),(3,0)]`. -/
def exRun : List (JSVal Int) :=
  [.num 1, .num 2, .num 2, .num 3, .num 3, .num 0]

/-- A trace attribute record for fill `'tonexty'` with a next trace of fill colour `green`
and no previous trace. -/
def exTonextyTrace : PlotTrace String :=
  { fill := Fill.tonexty, _ownfill := false, _nexttrace := some "green", _prevtrace := none,
    opacity := "0.5", selectedpoints := none, _length := 3 }

/-- The stash of a trace with the points (1, 1), an invalid pair and (2, 2). -/
def exStashGap : PlotStash Int :=
  { index := 0,
    positions := [.num 1, .num 1, .nan, .nan, .num 2, .num 2],
    x := [.num 1, .undefined, .num 2], y := [.num 1, .undefined, .num 2],
    xpx := none, ypx := none }

/-- Fill options as `calc` pushes them: fill colour `red`, nothing built yet. -/
def exFillOpts : FillOpts Int String :=
  { fill := "red", hole := none, fillmode := none, opacity := none, positions := none,
    rest := "fill" }

/-- Line options of two traces: the current one with an inner invalid pair, the next one with
the points (3, 3), an invalid pair and (4, 4). -/
def exLineOpts : List (Option (LineOpts Int String)) :=
  [some ⟨some [.num 1, .num 1, .nan, .nan, .num 2, .num 2], "line0"⟩,
   some ⟨some [.num 3, .num 3, .nan, .nan, .num 4, .num 4], "line1"⟩]

/-- Line options of three traces with one point each. -/
def exLineOpts3 : List (Option (LineOpts Int String)) :=
  [some ⟨some [.num 0, .num 0], "line0"⟩, some ⟨some [.num 1, .num 1], "line1"⟩,
   some ⟨some [.num 2, .num 2], "line2"⟩]

/-- A trace of fill `'tonexty'` between a previous trace of fill `'tonext'` and a next
trace of fill colour `c2`. -/
def exMiddleTrace : PlotTrace String :=
  { fill := Fill.tonexty, _ownfill := false, _nexttrace := some "c2",
    _prevtrace := some Fill.tonext, opacity := "1", selectedpoints := none, _length := 1 }

/-- Three traces with the fills `'tonext'`, `'tonexty'`, `'tonexty'`, linked as `linkTraces`
links them: the middle trace has the first as previous and the last as next trace. -/
def exCdata3 : List (CdItem Int String) :=
  [⟨{ fill := Fill.tonext, _ownfill := true, _nexttrace := some "c1", _prevtrace := none,
      opacity := "1", selectedpoints := none, _length := 1 },
    { index := 0, positions := [.num 0, .num 0], x := [.num 0], y := [.num 0],
      xpx := none, ypx := none }⟩,
   ⟨exMiddleTrace,
    { index := 1, positions := [.num 1, .num 1], x := [.num 1], y := [.num 1],
      xpx := none, ypx := none }⟩,
   ⟨{ fill := Fill.tonexty, _ownfill := false, _nexttrace := none,
      _prevtrace := some Fill.tonexty, opacity := "1", selectedpoints := none, _length := 1 },
    { index := 2, positions := [.num 2, .num 2], x := [.num 2], y := [.num 2],
      xpx := none, ypx := none }⟩]

/-- Line options of two traces where the second, a trace without points, has no positions. -/
def exLineOptsNoPos : List (Option (LineOpts Int String)) :=
  [some ⟨some [.num 1, .num 1, .num 2, .num 2], "line0"⟩, some ⟨none, "line1"⟩]

/-- The options of a trace with a line, a fill and markers. -/
def exStyle : TraceOpts Int String :=
  { line := some ⟨none, "line"⟩, fill := some exFillOpts, marker := some "marker",
    markerSel := some "markerSel", markerUnsel := some "markerUnsel",
    errorX := none, errorY := none, text := none, textSel := none, textUnsel := none }

/-- A trace with the two points (1, 2) and (3, 4) on linear axes, fill `'tozeroy'`. -/
def exCalcInput : CalcInput Int String :=
  { _length := 2, x := [.num 1, .num 3], y := [.num 2, .num 4], xLog := false, yLog := false,
    style := exStyle, linePositions := [.num 1, .num 2, .num 3, .num 4] }

/-- The attributes for `plot` of the trace of `exCalcInput`. -/
def exPlotTrace : PlotTrace String :=
  { fill := Fill.tozeroy, _ownfill := true, _nexttrace := none, _prevtrace := none,
    opacity := "1", selectedpoints := none, _length := 2 }

/-- The scene and the stash after `calc` of the example trace on a subplot without scene. -/
def exAfterCalc : SceneState Int String × CalcStash Int Unit :=
  calcTrace 100000 (fun _ => ()) id id exCalcInput none

/-- The entry of `cdata` of the example trace after its `calc`. -/
def exCdItem : CdItem Int String := ⟨exPlotTrace, exAfterCalc.2.t⟩

/-- The example scene after `calc`, a successful `plot` and `scene.draw`: a clean scene. -/
def exCleanScene : Option (SceneState Int String) :=
  ((plot true false false id id (some exAfterCalc.1) [exCdItem]).bind (fun r => r.1)).map
    (fun s => s.draw)

/-- The example scene after `calc` of one trace and a `plot` whose `prepareRegl` fails. -/
def exFailedScene : SceneState Int String := exAfterCalc.1.init

/-- The example scene after `calc`, a successful `plot`, `scene.draw`, and then a `plot`
whose `prepareRegl` fails. -/
def exFailedLater : Option (SceneState Int String) :=
  exCleanScene.bind fun s =>
    (plot false false false id id (some s) [exCdItem]).bind (fun r => r.1)

/-- The identity axis with range `[0, 1]`. -/
def exAxis : Axis Int := { c2p := id, p2c := id, _rl := (0, 1) }

/-- A stand-in for `Math.sqrt` on integers: the integer square root. -/
def exSqrt (v : Int) : Int := Int.sqrt v

/-- The stash of a trace with the single point (0, 3), with the identity index. -/
def exHoverIds : CalcStash Int Unit :=
  { tree := none, ids := some [some 0],
    t := { index := 0, positions := [.num 0, .num 3], x := [.num 0], y := [.num 3],
           xpx := none, ypx := none } }

/-- The stash of the same trace with a spatial index. -/
def exHoverTree : CalcStash Int Unit :=
  { exHoverIds with tree := some (), ids := none }

/-- The range query of the spatial index of `exHoverTree`: the points of the trace inside
the closed rectangle, in ascending order. -/
def exRange (_ : Unit) (xmin ymin xmax ymax : Int) : List Nat :=
  rectQuery exHoverIds.t.x exHoverIds.t.y 1 xmin ymin xmax ymax

/-- A hover request with `maxPixelDistance` 5. -/
def exPointData : PointData Int := { index := none, distance := 5, dxy := .undefined }

/-- The stash of a trace with the single point (0, 1), inside the range of `exAxis`. -/
def exHoverNear : CalcStash Int Unit :=
  { tree := none, ids := some [some 0],
    t := { index := 0, positions := [.num 0, .num 1], x := [.num 0], y := [.num 1],
           xpx := none, ypx := none } }

/-- The range query of a spatial index on the trace of `exHoverNear`. -/
def exRangeNear (_ : Unit) (xmin ymin xmax ymax : Int) : List Nat :=
  rectQuery exHoverNear.t.x exHoverNear.t.y 1 xmin ymin xmax ymax

/-- A hover request with `maxPixelDistance` 0: the point of `exHoverIds` is at exactly this
horizontal distance from the query point (0, 0). -/
def exPointDataZero : PointData Int := { index := none, distance := 0, dxy := .undefined }

/-- The stash of a trace with the points (0, 0) and (5, 1), with the identity index. -/
def exHoverTwo : CalcStash Int Unit :=
  { tree := none, ids := some [some 0, some 1],
    t := { index := 0, positions := [.num 0, .num 0, .num 5, .num 1],
           x := [.num 0, .num 5], y := [.num 0, .num 1], xpx := none, ypx := none } }

/-- A hover request with `maxPixelDistance` 2. -/
def exPointDataTwo : PointData Int := { index := none, distance := 2, dxy := .undefined }

/-- The attributes for `plot` of a trace without points and fill `'tozeroy'`. -/
def exEmptyTrace : PlotTrace String :=
  { fill := Fill.tozeroy, _ownfill := true, _nexttrace := none, _prevtrace := none,
    opacity := "1", selectedpoints := none, _length := 0 }

/-- The stash of a trace without points. -/
def exEmptyStash : PlotStash Int :=
  { index := 0, positions := [], x := [], y := [], xpx := none, ypx := none }

/-- The stash of a trace with two points, both without `x` and `y`. -/
def exInvalidStash : PlotStash Int :=
  { index := 0, positions := [.nan, .nan, .nan, .nan], x := [.undefined, .undefined],
    y := [.undefined, .undefined], xpx := none, ypx := none }

/-- Line options without positions, as `sceneOptions` leaves them for a trace without
points. -/
def exLineNoPos : List (Option (LineOpts Int String)) := [some ⟨none, "line"⟩]

/-- No line options: a trace without line. -/
def exNoLine : List (Option (LineOpts Int String)) := [none]

/-- A trace of two points without `selectedpoints`, first in `cdata`. -/
def exCdPlain : CdItem Int String :=
  ⟨{ fill := Fill.nofill, _ownfill := false, _nexttrace := none, _prevtrace := none,
     opacity := "1", selectedpoints := none, _length := 2 },
   { index := 0, positions := [.num 1, .num 2, .num 3, .num 4], x := [.num 1, .num 3],
     y := [.num 2, .num 4], xpx := none, ypx := none }⟩

/-- A trace of two points with `selectedpoints = [1]`, second in `cdata`. -/
def exCdSelected : CdItem Int String :=
  ⟨{ fill := Fill.nofill, _ownfill := false, _nexttrace := none, _prevtrace := none,
     opacity := "1", selectedpoints := some [1], _length := 2 },
   { index := 1, positions := [.num 5, .num 6, .num 7, .num 8], x := [.num 5, .num 7],
     y := [.num 6, .num 8], xpx := none, ypx := none }⟩

/-- Line options of three traces: the first with the points (0, 0), an invalid pair and
(2, 2), the other two with one point each. -/
def exLineOptsHole : List (Option (LineOpts Int String)) :=
  [some ⟨some [.num 0, .num 0, .nan, .nan, .num 2, .num 2], "line0"⟩,
   some ⟨some [.num 1, .num 1], "line1"⟩, some ⟨some [.num 2, .num 2], "line2"⟩]

/-- The middle trace of `exCdata3` with fill `'tozeroy'` instead of `'tonexty'`: its previous
trace has fill `'tonext'`. -/
def exCdata3Zeroy : List (CdItem Int String) :=
  [⟨{ fill := Fill.tonext, _ownfill := true, _nexttrace := some "c1", _prevtrace := none,
      opacity := "1", selectedpoints := none, _length := 3 },
    { index := 0, positions := [.num 0, .num 0, .nan, .nan, .num 2, .num 2],
      x := [.num 0, .undefined, .num 2], y := [.num 0, .undefined, .num 2],
      xpx := none, ypx := none }⟩,
   ⟨{ exMiddleTrace with fill := Fill.tozeroy },
    { index := 1, positions := [.num 1, .num 1], x := [.num 1], y := [.num 1],
      xpx := none, ypx := none }⟩]

/-- The line options of three traces without line: every slot is missing. -/
def exNoLines3 : List (Option (LineOpts Int String)) := [none, none, none]

/-- The line options of three traces of which only the first has a line, with the single
point (0, 0). -/
def exFirstLineOnly : List (Option (LineOpts Int String)) :=
  [some ⟨some [.num 0, .num 0], "line0"⟩, none, none]

end Scattergl

namespace Bar

/-! ## Bar plot: pixel rounding and text transforms

Functions of `src/traces/bar/plot.js`. Numbers are the elements of an ordered field `K` with
floor and ceiling (the rationals in the examples). -/

section BarPlot

variable {K : Type} [LinearOrderedField K] [FloorRing K]

/-- The function `Math.round`: the nearest integer, a half rounded up. -/
def mathRound (v : K) : ℤ := ⌊v + 1 / 2⌋

/-- The call `d3.round(x, 2)` of the d3 library: `Math.round(x * 100) / 100`. -/
def d3round (x : K) : K := (mathRound (x * 100) : K) / 100

/-- The remainder `x % 1`: it has the sign of `x`. -/
def jsMod1 (x : K) : K := if 0 ≤ x then x - (⌊x⌋ : K) else x - (⌈x⌉ : K)

/-- The variable `offset = d3.round((lw / 2) % 1, 2)`. -/
def lineOffset (lw : K) : K := d3round (jsMod1 (lw / 2))

/-- The function `roundWithLine(v)`; `noGaps` is `bargap === 0 && bargroupgap === 0`. -/
def roundWithLine (noGaps : Bool) (offset : K) (v : K) : K :=
  -- if there are explicit gaps, don't round,
  -- it can make the gaps look crappy
  if noGaps then d3round ((mathRound v : K) - offset) else v

/-- The function `expandToVisible(v, vc)`. -/
def expandToVisible (noGaps : Bool) (offset : K) (v vc : K) : K :=
  -- if it's not in danger of disappearing entirely,
  -- round more precisely
  if |v - vc| ≥ 2 then roundWithLine noGaps offset v
  -- but if it's very thin, expand it so it's
  -- necessarily visible, even if it might overlap
  -- its neighbor
  else if v > vc then (⌈v⌉ : K) else (⌊v⌋ : K)

/-- The variable `fixpx = (op < 1 || lw > 0.01) ? roundWithLine : expandToVisible`, as a
function of two arguments (`roundWithLine` uses only the first). -/
def fixpx (op lw : K) (noGaps : Bool) (v vc : K) : K :=
  if op < 1 ∨ lw > 1 / 100 then roundWithLine noGaps (lineOffset lw) v
  else expandToVisible noGaps (lineOffset lw) v vc

/-- The pixel edges of a bar. -/
structure Edges (K : Type) where
  x0 : K
  x1 : K
  y0 : K
  y1 : K
deriving DecidableEq, Repr

/-- The block `if(!gd._context.staticPlot) { ... }` of the bar loop: the edges after
`x0 = fixpx(x0, x1); x1 = fixpx(x1, x0); y0 = fixpx(y0, y1); y1 = fixpx(y1, y0)`. `op` is
`Color.opacity(mc)` and `lw` the line width. -/
def fixEdges (staticPlot : Bool) (op lw : K) (noGaps : Bool) (e : Edges K) : Edges K :=
  if !staticPlot then
    let x0 := fixpx op lw noGaps e.x0 e.x1
    let x1 := fixpx op lw noGaps e.x1 x0
    let y0 := fixpx op lw noGaps e.y0 e.y1
    let y1 := fixpx op lw noGaps e.y1 y0
    { x0 := x0, x1 := x1, y0 := y0, y1 := y1 }
  else e

end BarPlot

end Bar


namespace Bar

/-- A bar 0.2 pixels wide and 3.5 pixels high. -/
def exThinBar : Edges ℚ := { x0 := 3 / 10, x1 := 1 / 2, y0 := 0, y1 := 7 / 2 }

end Bar


namespace Bar

/-! ### Text inside a bar -/

/-- The bounding box `textBB` of the text of a bar. -/
structure TextBB (K : Type) where
  width : K
  height : K
  left : K
  right : K
  top : K
  bottom : K
deriving DecidableEq, Repr

/-- The local variables of `getTransformToMoveInsideBar` before the call of `getTransform`:
`barWidth` and `barHeight` are the values after the padding step, `rotate` is whether a 90
degree rotation is chosen. -/
structure InsideLayout (K : Type) where
  barWidth : K
  barHeight : K
  textpad : K
  rotate : Bool
  scale : K
  targetWidth : K
  targetHeight : K
  targetX : K
  targetY : K
deriving DecidableEq, Repr

/-- The parts of the transform string that `getTransform` returns: the translation, the
factor of `scale(...)` when there is one, and the angle and centre of `rotate(...)` when
there is one. -/
structure Transform (K : Type) where
  translateX : K
  translateY : K
  scale : Option K
  rotate : Option (Nat × K × K)
deriving DecidableEq, Repr

section BarText

variable {K : Type} [LinearOrderedField K]

/-- The constant `TEXTPAD`: padding in pixels around text. -/
def TEXTPAD : K := 3

/-- The padding step of `getTransformToMoveInsideBar`: `textpad` and the values of
`barWidth` and `barHeight` after it. -/
def barPadding (x0 x1 y0 y1 : K) : K × K × K :=
  let barWidth := |x1 - x0|
  let barHeight := |y1 - y0|
  -- apply text padding
  if barWidth > 2 * TEXTPAD ∧ barHeight > 2 * TEXTPAD then
    (TEXTPAD, barWidth - 2 * TEXTPAD, barHeight - 2 * TEXTPAD)
  else (0, barWidth, barHeight)

/-- The step `compute rotation and scale` of `getTransformToMoveInsideBar`: whether the text
is rotated, and the scale. -/
def rotateScale (textWidth textHeight barWidth barHeight : K) (constrained : Bool) :
    Bool × K :=
  if textWidth ≤ barWidth ∧ textHeight ≤ barHeight then
    -- no scale or rotation is required
    (false, 1)
  else if textWidth ≤ barHeight ∧ textHeight ≤ barWidth then
    -- only rotation is required
    (true, 1)
  else if decide (textWidth < textHeight) = decide (barWidth < barHeight) then
    -- only scale is required
    (false, if constrained then min (barWidth / textWidth) (barHeight / textHeight) else 1)
  else
    -- both scale and rotation are required
    (true, if constrained then min (barHeight / textWidth) (barWidth / textHeight) else 1)

/-- The body of `getTransformToMoveInsideBar` up to the call of `getTransform`; `horizontal`
is `orientation === 'h'`. -/
def insideBarLayout (x0 x1 y0 y1 : K) (textBB : TextBB K) (horizontal constrained : Bool) :
    InsideLayout K :=
  -- compute text and target positions
  let textWidth := textBB.width
  let textHeight := textBB.height
  let pad := barPadding x0 x1 y0 y1
  let textpad := pad.1
  let barWidth := pad.2.1
  let barHeight := pad.2.2
  let rs := rotateScale textWidth textHeight barWidth barHeight constrained
  let rotate := rs.1
  let scale := rs.2
  -- compute text and target positions
  let targetWidth := if rotate then scale * textHeight else scale * textWidth
  let targetHeight := if rotate then scale * textWidth else scale * textHeight
  let target : K × K :=
    if horizontal then
      if x1 < x0 then
        -- bar end is on the left hand side
        (x1 + textpad + targetWidth / 2, (y0 + y1) / 2)
      else (x1 - textpad - targetWidth / 2, (y0 + y1) / 2)
    else
      if y1 > y0 then
        -- bar end is on the bottom
        ((x0 + x1) / 2, y1 - textpad - targetHeight / 2)
      else ((x0 + x1) / 2, y1 + textpad + targetHeight / 2)
  { barWidth := barWidth, barHeight := barHeight, textpad := textpad, rotate := rotate,
    scale := scale, targetWidth := targetWidth, targetHeight := targetHeight,
    targetX := target.1, targetY := target.2 }

/-- The function `getTransform(textX, textY, targetX, targetY, scale, rotate)`; `rotate` is
`none` for a falsy argument. -/
def getTransform (textX textY targetX targetY scale : K) (rotate : Option Nat) :
    Transform K :=
  let transformScale := if scale < 1 then some scale else none
  let scale := if scale < 1 then scale else 1
  -- Note that scaling also affects the center of the text box
  { translateX := targetX - scale * textX,
    translateY := targetY - scale * textY,
    scale := transformScale,
    rotate := rotate.map (fun r => (r, textX, textY)) }

/-- The function `getTransformToMoveInsideBar`. -/
def getTransformToMoveInsideBar (x0 x1 y0 y1 : K) (textBB : TextBB K)
    (horizontal constrained : Bool) : Transform K :=
  let l := insideBarLayout x0 x1 y0 y1 textBB horizontal constrained
  let textX := (textBB.left + textBB.right) / 2
  let textY := (textBB.top + textBB.bottom) / 2
  getTransform textX textY l.targetX l.targetY l.scale (if l.rotate then some 90 else none)

end BarText

/-- A text box 40 pixels wide and 10 pixels high. -/
def exTextBB : TextBB ℚ :=
  { width := 40, height := 10, left := 0, right := 40, top := 0, bottom := 10 }

end Bar


namespace Parcoords

/-! ## Parallel coordinates: the callback `filterChanged`

The callback of `src/traces/parcoords/plot.js`, for one trace `i` and one dimension
`originalDimensionIndex`. Arrays carry an identity, so that a copy can be told from the array
it was copied from: `slice` and `map` return arrays with identities not used before. -/

/-- A JavaScript array of numbers (a range `[from, to]`): its identity and its elements. -/
structure JSArr (K : Type) where
  id : Nat
  vals : List K
deriving DecidableEq, Repr

/-- A value of `constraintrange`: one range, or an array (with its own identity) of
ranges. -/
inductive Constraint (K : Type) where
  | single (r : JSArr K)
  | multi (id : Nat) (rs : List (JSArr K))
deriving DecidableEq, Repr

/-- The entry `preGUI[aStr]`. -/
inductive PreGUI (K : Type) where
  | undefined
  | null
  | value (c : Constraint K)
deriving DecidableEq, Repr

/-- What `filterChanged` reads and writes for one dimension: the entry `preGUI[aStr]`,
`gdDimension.constraintrange` and `fullDimension.constraintrange` (`none` when the property
is absent), the values of `restyleData[aStr]` of the emitted `plotly_restyle` events (`none`
is `null`, `some c` is `[c]`), and `fresh`, a bound above every array identity in use. -/
structure DimState (K : Type) where
  preGUI : PreGUI K
  gdConstraint : Option (Constraint K)
  fullConstraint : Option (Constraint K)
  events : List (Option (Constraint K))
  fresh : Nat
deriving DecidableEq, Repr

section FilterChanged

variable {K : Type}

/-- The identities of the arrays of a constraint. -/
def Constraint.ids : Constraint K → List Nat
  | .single r => [r.id]
  | .multi id rs => id :: rs.map (fun r => r.id)

/-- The ranges of a constraint as lists of numbers. -/
def Constraint.values : Constraint K → List (List K)
  | .single r => [r.vals]
  | .multi _ rs => rs.map (fun r => r.vals)

/-- Is the constraint one range (not an array of ranges). -/
def Constraint.isSingle : Constraint K → Bool
  | .single _ => true
  | .multi _ _ => false

/-- The copies `r.slice()` of the ranges of a list, with the identities `k`, `k + 1`, ... -/
def copyFrom : Nat → List (JSArr K) → List (JSArr K)
  | _, [] => []
  | k, r :: rs => { id := k, vals := r.vals } :: copyFrom (k + 1) rs

/-- The statement `newRanges.map(function(r) { return r.slice(); })`: the elements of the new
array, each a copy with a new identity; the new array itself has identity `fresh`. -/
def copyRanges (fresh : Nat) (newRanges : List (JSArr K)) : List (JSArr K) :=
  copyFrom (fresh + 1) newRanges

/-- The entry that the first call stores in `preGUI`: `initialVal || null`. -/
def initialRecord (st : DimState K) : PreGUI K :=
  match st.gdConstraint with
  | some initialVal => PreGUI.value initialVal
  | none => PreGUI.null

/-- The statement `if(preGUI[aStr] === undefined) { preGUI[aStr] = initialVal || null; }`:
the entry afterwards. -/
def storePreGUI (st : DimState K) : PreGUI K :=
  match st.preGUI with
  | .undefined => initialRecord st
  | p => p

/-- The callback `filterChanged(i, originalDimensionIndex, newRanges)`. -/
def filterChanged (newRanges : List (JSArr K)) (st : DimState K) : DimState K :=
  let newConstraints := copyRanges st.fresh newRanges
  let fresh := st.fresh + 1 + newRanges.length
  -- Store constraint range in preGUI
  let preGUI := storePreGUI st
  match newConstraints with
  | [] =>
    { preGUI := preGUI, gdConstraint := none, fullConstraint := none,
      events := st.events ++ [none], fresh := fresh }
  | [r] =>
    { preGUI := preGUI, gdConstraint := some (.single r),
      fullConstraint := some (.single { id := fresh, vals := r.vals }),
      -- wrap in another array for restyle event data
      events := st.events ++ [some (.single r)], fresh := fresh + 1 }
  | rs =>
    { preGUI := preGUI, gdConstraint := some (.multi st.fresh rs),
      fullConstraint := some (.multi fresh rs),
      events := st.events ++ [some (.multi st.fresh rs)], fresh := fresh + 1 }

end FilterChanged

/-- A dimension with the constraint range `[1, 2]` and no `preGUI` entry. -/
def exDim : DimState Int :=
  { preGUI := .undefined, gdConstraint := some (.single ⟨0, [1, 2]⟩),
    fullConstraint := some (.single ⟨1, [1, 2]⟩), events := [], fresh := 4 }

/-- The caller's ranges `[3, 4]` and `[6, 8]`. -/
def exRanges : List (JSArr Int) := [⟨2, [3, 4]⟩, ⟨3, [6, 8]⟩]

end Parcoords


namespace Scattergl
section Theorems
variable {C M X P D : Type}

theorem jsGet_jsSet {β : Type} (a : List (Option β)) (i j : Nat) (v : Option β) :
    jsGet (jsSet a i v) j = if j = i then v else jsGet a j := by
  unfold jsGet jsSet
  by_cases hi : i < a.length
  · simp only [hi, if_true]
    by_cases hj : j = i
    · subst hj; simp [List.getD_eq_getElem?_getD, hi]
    · simp [List.getD_eq_getElem?_getD, hj, List.getElem?_set, Ne.symm hj]
  · simp only [hi, if_false]
    simp only [List.getD_eq_getElem?_getD, List.append_assoc]
    by_cases hj : j = i
    · subst hj
      have : a.length ≤ j := Nat.le_of_not_lt hi
      rw [List.getElem?_append_right this, List.getElem?_append_right (by simp)]
      simp
    · simp only [hj, if_false]
      by_cases hja : j < a.length
      · rw [List.getElem?_append_left hja]
      · have hja2 : a.length ≤ j := Nat.le_of_not_lt hja
        rw [List.getElem?_append_right hja2, List.getElem?_eq_none hja2]
        by_cases hjr : j - a.length < i - a.length
        · rw [List.getElem?_append_left (by simpa using hjr)]
          simp [List.getElem?_replicate, hjr]
        · rw [List.getElem?_append_right (by simpa using Nat.le_of_not_lt hjr)]
          have : j - a.length - (List.replicate (i - a.length) (none : Option β)).length ≠ 0 := by
            simp; omega
          cases hk : j - a.length - (List.replicate (i - a.length) (none : Option β)).length with
          | zero => exact absurd hk this
          | succ k => simp

theorem resetBatch_get (count : Nat) (b : Batch) (j : Nat) :
    jsGet (resetBatch count b) j = if j < count then some [] else jsGet b j := by
  unfold resetBatch
  induction count with
  | zero => simp
  | succ n ih =>
    rw [List.range_succ, List.foldl_append]
    simp only [List.foldl_cons, List.foldl_nil]
    rw [jsGet_jsSet, ih]
    by_cases h1 : j = n
    · subst h1; simp
    · simp only [h1, if_false]
      by_cases h2 : j < n
      · simp [h2, Nat.lt_succ_of_lt h2]
      · have : ¬ j < n + 1 := by omega
        simp [h2, this]

theorem selectLoop_eq (contains : Option P × Option P → Nat → Bool) (stash : Stash X P)
    (xpx ypx : List P) (hx : stash.xpx = some xpx) (hy : stash.ypx = some ypx) (n : Nat) :
    selectLoop contains stash n =
      some ((List.range n).filter (fun i => contains (xpx[i]?, ypx[i]?) i),
            (List.range n).filter (fun i => !contains (xpx[i]?, ypx[i]?) i),
            ((List.range n).filter (fun i => contains (xpx[i]?, ypx[i]?) i)).map
              (fun i => (⟨i, stash.x[i]?, stash.y[i]?⟩ : SelRecord X))) := by
  unfold selectLoop
  induction n with
  | zero => simp
  | succ n ih =>
    rw [List.range_succ, List.foldlM_append, ih]
    simp only [Option.bind_eq_bind, Option.some_bind, List.foldlM_cons, List.foldlM_nil,
      selectStep, hx, hy]
    by_cases hc : contains (xpx[n]?, ypx[n]?) n = true
    · simp [hc, List.filter_append]
    · simp [hc, List.filter_append]

theorem selectPoints_some_iff (addOpacity : Option C → D → C) (dim : D) (trace : Trace)
    (stash : Stash X P) (scene : Scene C M) (tester : Option (Tester P))
    (hvis : trace.visible = true) (hkind : trace.hasMarkers = true ∨ trace.hasText = true)
    (r : Option (Scene C M) × List (SelRecord X)) :
    selectPoints addOpacity dim trace stash (some scene) tester = some r ↔
      ∃ els unels selection s1 sb ub s2,
        selectTest trace stash tester = some (els, unels, selection) ∧
        enterSelectMode trace stash.index (ensureBatches scene) = some s1 ∧
        s1.selectBatch = some sb ∧ s1.unselectBatch = some ub ∧
        (if trace.hasText then
            styleTextSelection addOpacity dim trace stash.index
              { s1 with selectBatch := some (jsSet sb stash.index els),
                        unselectBatch := some (jsSet ub stash.index unels) }
          else some { s1 with selectBatch := some (jsSet sb stash.index els),
                              unselectBatch := some (jsSet ub stash.index unels) }) = some s2 ∧
        r = (some s2, selection) := by
  have hcond : (!trace.visible || (!trace.hasMarkers && !trace.hasText)) = false := by
    rcases hkind with h | h <;> simp [hvis, h]
  unfold selectPoints
  simp only [hcond, Bool.false_eq_true, if_false]
  cases ht : trace.hasText <;>
  · simp only [Bool.false_eq_true, if_false, if_true, Option.bind_eq_bind,
      Option.bind_eq_some, Option.pure_def, Option.some.injEq]
    constructor
    · rintro ⟨⟨els, unels, selection⟩, h1, s1, h2, sb, h3, ub, h4, s2, h5, h6⟩
      exact ⟨els, unels, selection, s1, sb, ub, s2, h1, h2, h3, h4, h5, h6.symm⟩
    · rintro ⟨els, unels, selection, s1, sb, ub, s2, h1, h2, h3, h4, h5, h6⟩
      exact ⟨(els, unels, selection), h1, s1, h2, sb, h3, ub, h4, s2, h5, h6.symm⟩

theorem styleTextSelection_frame (addOpacity : Option C → D → C) (dim : D) (trace : Trace)
    (index : Nat) (s s2 : Scene C M)
    (h : styleTextSelection addOpacity dim trace index s = some s2) :
    s2.selectBatch = s.selectBatch ∧ s2.unselectBatch = s.unselectBatch ∧ s2.count = s.count := by
  unfold styleTextSelection at h
  simp only [Option.bind_eq_bind, Option.bind_eq_some] at h
  obtain ⟨sb, _, ub, _, col, _, g, _, h5⟩ := h
  split at h5
  · simp only [Option.some.injEq] at h5
    subst h5
    exact ⟨rfl, rfl, rfl⟩
  · exact absurd h5 (by simp)

theorem styleTextSelection_isSome (addOpacity : Option C → D → C) (dim : D) (trace : Trace)
    (index : Nat) (s : Scene C M) (sb ub : Batch) (g : List (List (ColorAttr C)))
    (h1 : s.selectBatch = some sb) (h2 : s.unselectBatch = some ub)
    (h3 : (jsGet s.textOptions index).isSome = true) (h4 : s.glText = some g)
    (h5 : index < g.length) :
    ∃ s2, styleTextSelection addOpacity dim trace index s = some s2 := by
  obtain ⟨b, hb⟩ := Option.isSome_iff_exists.mp h3
  have hc : ∃ c, styledTextColor addOpacity dim trace index s (jsGet sb index)
      (jsGet ub index) = some c := by
    unfold styledTextColor
    cases jsGet sb index <;> cases jsGet ub index <;> simp [hb]
  obtain ⟨c, hc⟩ := hc
  unfold styleTextSelection
  simp [h1, h2, h4, hc, h5]

theorem enterSelectMode_ready (trace : Trace) (index : Nat) (scene : Scene C M)
    (hready : scene.readyFor trace index = true) :
    ∃ s1 sb ub, enterSelectMode trace index (ensureBatches scene) = some s1 ∧
      s1.selectBatch = some sb ∧ s1.unselectBatch = some ub ∧
      s1.textOptions = scene.textOptions ∧ s1.glText = scene.glText := by
  unfold Scene.readyFor at hready
  simp only [Bool.and_eq_true, Bool.or_eq_true, Bool.not_eq_true'] at hready
  obtain ⟨⟨hb, hm⟩, _⟩ := hready
  unfold enterSelectMode ensureBatches
  cases hsb : scene.selectBatch with
  | none =>
    cases hmk : trace.hasMarkers with
    | false => simp [jsGet]
    | true =>
      rcases hm with hm | hm
      · simp [hmk] at hm
      · obtain ⟨sc, hsc⟩ := Option.isSome_iff_exists.mp hm
        simp [jsGet, hsc]
  | some sb =>
    rcases hb with hb | hb
    · simp [hsb] at hb
    · obtain ⟨ub, hub⟩ := Option.isSome_iff_exists.mp hb
      cases hg : jsGet sb index with
      | some l => simp [hsb, hg, hub]
      | none =>
        cases hmk : trace.hasMarkers with
        | false => simp [hsb, hg, hub]
        | true =>
          rcases hm with hm | hm
          · simp [hmk] at hm
          · obtain ⟨sc, hsc⟩ := Option.isSome_iff_exists.mp hm
            simp [hsb, hg, hub, hsc]

theorem selectPoints_isSome (addOpacity : Option C → D → C) (dim : D) (trace : Trace)
    (stash : Stash X P) (scene : Scene C M) (tester : Option (Tester P))
    (hvis : trace.visible = true) (hkind : trace.hasMarkers = true ∨ trace.hasText = true)
    (hready : scene.readyFor trace stash.index = true)
    (htest : (selectTest trace stash tester).isSome = true) :
    (selectPoints (X := X) addOpacity dim trace stash (some scene) tester).isSome = true := by
  obtain ⟨⟨els, unels, selection⟩, ht⟩ := Option.isSome_iff_exists.mp htest
  obtain ⟨s1, sb, ub, he, hsb, hub, htx, hgl⟩ :=
    enterSelectMode_ready trace stash.index scene hready
  rw [Option.isSome_iff_exists]
  cases htext : trace.hasText with
  | false =>
    refine ⟨(some { s1 with selectBatch := some (jsSet sb stash.index els),
                            unselectBatch := some (jsSet ub stash.index unels) }, selection), ?_⟩
    rw [selectPoints_some_iff addOpacity dim trace stash scene tester hvis hkind]
    exact ⟨els, unels, selection, s1, sb, ub, _, ht, he, hsb, hub, by simp [htext], rfl⟩
  | true =>
    unfold Scene.readyFor at hready
    simp only [Bool.and_eq_true, Bool.or_eq_true, Bool.not_eq_true', htext] at hready
    obtain ⟨_, hr⟩ := hready
    rcases hr with hr | hr
    · simp at hr
    · obtain ⟨hr1, hr2⟩ := hr
      cases hg : scene.glText with
      | none => simp [hg] at hr2
      | some g =>
        simp only [hg, decide_eq_true_eq] at hr2
        obtain ⟨s2, hs2⟩ := styleTextSelection_isSome addOpacity dim trace stash.index
          { s1 with selectBatch := some (jsSet sb stash.index els),
                    unselectBatch := some (jsSet ub stash.index unels) }
          (jsSet sb stash.index els) (jsSet ub stash.index unels) g rfl rfl
          (by simpa [htx] using hr1) (by simpa [hg] using hgl) hr2
        refine ⟨(some s2, selection), ?_⟩
        rw [selectPoints_some_iff addOpacity dim trace stash scene tester hvis hkind]
        exact ⟨els, unels, selection, s1, sb, ub, s2, ht, he, hsb, hub, by simpa [htext] using hs2, rfl⟩

theorem foldl_jsSet_get {β : Type} (f : Nat → Option β) (l : List Nat) (init : List (Option β))
    (j : Nat) :
    jsGet (l.foldl (fun col k => jsSet col k (f k)) init) j =
      if j ∈ l then f j else jsGet init j := by
  induction l generalizing init with
  | nil => simp
  | cons k l ih =>
    rw [List.foldl_cons, ih, jsGet_jsSet]
    by_cases h1 : j ∈ l
    · simp [h1]
    · by_cases h2 : j = k
      · subst h2; simp [h1]
      · simp [h1, h2]

theorem textColors_get_unselected (addOpacity : Option C → D → C) (dim : D) (len : Nat)
    (base : ColorAttr C) (stc utc : Option C) (els unels : List Nat) (j : Nat)
    (hj : j ∈ unels) :
    jsGet (textColors addOpacity dim len base stc utc els unels) j =
      unselectedColor addOpacity dim stc utc (base.at j) := by
  unfold textColors
  simp only []
  rw [foldl_jsSet_get (fun k => unselectedColor addOpacity dim stc utc (base.at k))]
  simp [hj]

theorem selectTest_noSelection (trace : Trace) (stash : Stash X P) :
    selectTest trace stash none = some (none, some (List.range trace._length), []) := rfl

theorem selectTest_degenerate (trace : Trace) (stash : Stash X P) (t : Tester P)
    (hdeg : t.degenerate = true) :
    selectTest trace stash (some t) = selectTest trace stash none := by
  simp [selectTest, hdeg]

theorem selectTest_active (trace : Trace) (stash : Stash X P) (t : Tester P)
    (xpx ypx : List P) (hx : stash.xpx = some xpx) (hy : stash.ypx = some ypx)
    (hdeg : t.degenerate = false) :
    selectTest trace stash (some t) =
      some (some ((List.range trace._length).filter (fun i => t.contains (xpx[i]?, ypx[i]?) i)),
            some ((List.range trace._length).filter (fun i => !t.contains (xpx[i]?, ypx[i]?) i)),
            ((List.range trace._length).filter (fun i => t.contains (xpx[i]?, ypx[i]?) i)).map
              (fun i => (⟨i, stash.x[i]?, stash.y[i]?⟩ : SelRecord X))) := by
  simp [selectTest, hdeg, selectLoop_eq t.contains stash xpx ypx hx hy]

theorem enterSelectMode_count (trace : Trace) (index : Nat) (s s1 : Scene C M)
    (h : enterSelectMode trace index s = some s1) : s1.count = s.count := by
  unfold enterSelectMode at h
  simp only [Option.bind_eq_bind, Option.bind_eq_some] at h
  obtain ⟨sb, _, h⟩ := h
  split at h
  · simp only [Option.some.injEq] at h; subst h; rfl
  · simp only [Option.bind_eq_some] at h
    obtain ⟨ub, _, h⟩ := h
    split at h
    · simp only [Option.bind_eq_some, Option.pure_def, Option.some.injEq] at h
      obtain ⟨sc, _, h⟩ := h
      subst h; rfl
    · simp only [Option.pure_def, Option.some.injEq] at h; subst h; rfl

theorem enterSelectMode_fresh (trace : Trace) (index : Nat) (scene s1 : Scene C M)
    (hnone : scene.selectBatch = none)
    (h : enterSelectMode trace index (ensureBatches scene) = some s1) :
    s1.selectBatch = some (resetBatch scene.count []) ∧
      s1.unselectBatch = some (resetBatch scene.count []) := by
  unfold enterSelectMode ensureBatches at h
  simp only [hnone, Option.bind_eq_bind, Option.some_bind, jsGet, List.getD_nil] at h
  split at h
  · simp only [Option.bind_eq_some, Option.pure_def, Option.some.injEq] at h
    obtain ⟨sc, _, h⟩ := h
    subst h; exact ⟨rfl, rfl⟩
  · simp only [Option.pure_def, Option.some.injEq] at h; subst h; exact ⟨rfl, rfl⟩

theorem selectPoints_batches (addOpacity : Option C → D → C) (dim : D) (trace : Trace)
    (stash : Stash X P) (scene : Scene C M) (tester : Option (Tester P))
    (hvis : trace.visible = true) (hkind : trace.hasMarkers = true ∨ trace.hasText = true)
    (r : Option (Scene C M) × List (SelRecord X))
    (h : selectPoints addOpacity dim trace stash (some scene) tester = some r) :
    ∃ els unels selection s2 sb ub,
      selectTest trace stash tester = some (els, unels, selection) ∧
      r = (some s2, selection) ∧ s2.selectBatch = some sb ∧ s2.unselectBatch = some ub ∧
      s2.count = scene.count ∧
      jsGet sb stash.index = els ∧ jsGet ub stash.index = unels ∧
      (scene.selectBatch = none → ∀ j, j < scene.count → j ≠ stash.index →
        jsGet sb j = some [] ∧ jsGet ub j = some []) := by
  rw [selectPoints_some_iff addOpacity dim trace stash scene tester hvis hkind] at h
  obtain ⟨els, unels, selection, s1, sb, ub, s2, h1, h2, h3, h4, h5, h6⟩ := h
  have hcount : s1.count = scene.count := by
    rw [enterSelectMode_count trace stash.index _ s1 h2]
    unfold ensureBatches
    cases scene.selectBatch <;> rfl
  have hs2 : s2.selectBatch = some (jsSet sb stash.index els) ∧
      s2.unselectBatch = some (jsSet ub stash.index unels) ∧ s2.count = s1.count := by
    cases ht : trace.hasText with
    | false =>
      simp only [ht, Bool.false_eq_true, if_false, Option.some.injEq] at h5
      subst h5; exact ⟨rfl, rfl, rfl⟩
    | true =>
      simp only [ht, if_true] at h5
      exact styleTextSelection_frame addOpacity dim trace stash.index _ s2 h5
  refine ⟨els, unels, selection, s2, _, _, h1, h6, hs2.1, hs2.2.1, hs2.2.2.trans hcount, ?_, ?_, ?_⟩
  · simp [jsGet_jsSet]
  · simp [jsGet_jsSet]
  · intro hnone j hj hne
    obtain ⟨e1, e2⟩ := enterSelectMode_fresh trace stash.index scene s1 hnone h2
    rw [h3] at e1
    rw [h4] at e2
    simp only [Option.some.injEq] at e1 e2
    subst e1 e2
    simp [jsGet_jsSet, hne, resetBatch_get, hj]

/-! ## Selection: the claims -/

/-- **C1.** For a visible trace with markers or text, pixel caches `xpx`, `ypx` and a
non-degenerate tester, `selectPoints` completes on a scene that is ready for the trace, and
whenever it completes the slots `selectBatch[stash.index]` and `unselectBatch[stash.index]`
are both non-null, strictly ascending, share no index, contain together exactly the indices
below `trace._length`, and `selectBatch[stash.index]` holds exactly the indices the tester
contains. -/
theorem selectPoints_partition (addOpacity : Option C → D → C) (dim : D) (trace : Trace)
    (stash : Stash X P) (scene : Scene C M) (tester : Tester P) (xpx ypx : List P)
    (hvis : trace.visible = true) (hkind : trace.hasMarkers = true ∨ trace.hasText = true)
    (hx : stash.xpx = some xpx) (hy : stash.ypx = some ypx)
    (hxl : xpx.length = trace._length) (hyl : ypx.length = trace._length)
    (hdeg : tester.degenerate = false) :
    (scene.readyFor trace stash.index = true →
      (selectPoints (X := X) addOpacity dim trace stash (some scene) (some tester)).isSome
        = true) ∧
    ∀ r : Option (Scene C M) × List (SelRecord X),
      selectPoints addOpacity dim trace stash (some scene) (some tester) = some r →
      ∃ s2 sb ub els unels,
        r.1 = some s2 ∧ s2.selectBatch = some sb ∧ s2.unselectBatch = some ub ∧
        jsGet sb stash.index = some els ∧ jsGet ub stash.index = some unels ∧
        els.Pairwise (· < ·) ∧ unels.Pairwise (· < ·) ∧
        (∀ i, i ∈ els → i ∉ unels) ∧
        (∀ i, (i ∈ els ∨ i ∈ unels) ↔ i < trace._length) ∧
        (∀ i, i ∈ els ↔ (i < trace._length ∧ tester.contains (xpx[i]?, ypx[i]?) i = true)) := by
  have _ := hxl
  have _ := hyl
  have htest := selectTest_active trace stash tester xpx ypx hx hy hdeg
  refine ⟨fun hready => selectPoints_isSome addOpacity dim trace stash scene (some tester)
    hvis hkind hready (by rw [htest]; rfl), ?_⟩
  intro r h
  obtain ⟨els, unels, selection, s2, sb, ub, h1, h2, h3, h4, _, h6, h7, _⟩ :=
    selectPoints_batches addOpacity dim trace stash scene (some tester) hvis hkind r h
  rw [htest] at h1
  simp only [Option.some.injEq, Prod.mk.injEq] at h1
  obtain ⟨e1, e2, _⟩ := h1
  refine ⟨s2, sb, ub, _, _, by rw [h2], h3, h4, h6.trans e1.symm, h7.trans e2.symm,
    ?_, ?_, ?_, ?_, ?_⟩
  · exact List.Pairwise.sublist (List.filter_sublist _) (List.pairwise_lt_range _)
  · exact List.Pairwise.sublist (List.filter_sublist _) (List.pairwise_lt_range _)
  · intro i hi hi2
    simp only [List.mem_filter, List.mem_range, Bool.not_eq_true'] at hi hi2
    rw [hi.2] at hi2
    exact absurd hi2.2 (by simp)
  · intro i
    simp only [List.mem_filter, List.mem_range, Bool.not_eq_true']
    constructor
    · rintro (h | h) <;> exact h.1
    · intro hi
      cases hc : tester.contains (xpx[i]?, ypx[i]?) i
      · exact Or.inr ⟨hi, rfl⟩
      · exact Or.inl ⟨hi, rfl⟩
  · intro i
    simp only [List.mem_filter, List.mem_range]

/-- Witness of **C1** on the example trace, scene and box tester. -/
theorem selectPoints_partition_witness :
    (exTrace.visible = true ∧ (exTrace.hasMarkers = true ∨ exTrace.hasText = true) ∧
      exStash.xpx = some [0, 5, 9] ∧ exStash.ypx = some [4, 4, 4] ∧
      ([0, 5, 9] : List Int).length = exTrace._length ∧
      ([4, 4, 4] : List Int).length = exTrace._length ∧ exTester.degenerate = false) ∧
    ((exScene.readyFor exTrace exStash.index = true →
      (selectPoints exAddOpacity exDim exTrace exStash (some exScene) (some exTester)).isSome
        = true) ∧
    ∀ r : Option (Scene String Nat) × List (SelRecord Int),
      selectPoints exAddOpacity exDim exTrace exStash (some exScene) (some exTester) = some r →
      ∃ s2 sb ub els unels,
        r.1 = some s2 ∧ s2.selectBatch = some sb ∧ s2.unselectBatch = some ub ∧
        jsGet sb exStash.index = some els ∧ jsGet ub exStash.index = some unels ∧
        els.Pairwise (· < ·) ∧ unels.Pairwise (· < ·) ∧
        (∀ i, i ∈ els → i ∉ unels) ∧
        (∀ i, (i ∈ els ∨ i ∈ unels) ↔ i < exTrace._length) ∧
        (∀ i, i ∈ els ↔ (i < exTrace._length ∧
          exTester.contains (([0, 5, 9] : List Int)[i]?, ([4, 4, 4] : List Int)[i]?) i = true))) :=
  ⟨⟨rfl, Or.inl rfl, rfl, rfl, rfl, rfl, rfl⟩,
    selectPoints_partition exAddOpacity exDim exTrace exStash exScene exTester [0, 5, 9]
      [4, 4, 4] rfl (Or.inl rfl) rfl rfl rfl rfl rfl⟩

/-- Counterexample to **C2** as stated: on the example scene of two traces without active
selection, selecting in trace 0 leaves the slots of trace 1 as two empty arrays, so
`unselectBatch[1]` is empty and not the list of all point indices of a trace 1 with two
points. -/
theorem selectPoints_other_trace_not_all_unselected :
    ((selectPoints exAddOpacity exDim exTrace exStash (some exScene) (some exTester)).bind
        (fun r => r.1)).map
      (fun s => (jsGet (s.selectBatch.getD []) 1, jsGet (s.unselectBatch.getD []) 1))
      = some (some [], some []) ∧
    (some [] : Option (List Nat)) ≠ some (arrayRange 2) := by
  decide

/-- **C2, amended.** When `selectPoints` runs for one trace on a scene whose `selectBatch`
is `null`, it completes on a scene that is ready for the trace, and whenever it completes
every other trace slot `j < scene.count` holds an empty array in `selectBatch` and an empty
array in `unselectBatch`. -/
theorem selectPoints_enter_resets_other_traces (addOpacity : Option C → D → C) (dim : D)
    (trace : Trace) (stash : Stash X P) (scene : Scene C M) (tester : Tester P)
    (xpx ypx : List P)
    (hvis : trace.visible = true) (hkind : trace.hasMarkers = true ∨ trace.hasText = true)
    (hx : stash.xpx = some xpx) (hy : stash.ypx = some ypx)
    (hnone : scene.selectBatch = none) :
    (scene.readyFor trace stash.index = true →
      (selectPoints (X := X) addOpacity dim trace stash (some scene) (some tester)).isSome
        = true) ∧
    ∀ r : Option (Scene C M) × List (SelRecord X),
      selectPoints addOpacity dim trace stash (some scene) (some tester) = some r →
      ∃ s2 sb ub,
        r.1 = some s2 ∧ s2.selectBatch = some sb ∧ s2.unselectBatch = some ub ∧
        s2.count = scene.count ∧
        ∀ j, j < scene.count → j ≠ stash.index →
          jsGet sb j = some [] ∧ jsGet ub j = some [] := by
  constructor
  · intro hready
    refine selectPoints_isSome addOpacity dim trace stash scene (some tester) hvis hkind
      hready ?_
    cases hdeg : tester.degenerate with
    | true => rw [selectTest_degenerate trace stash tester hdeg]; rfl
    | false => rw [selectTest_active trace stash tester xpx ypx hx hy hdeg]; rfl
  · intro r h
    obtain ⟨els, unels, selection, s2, sb, ub, _, h2, h3, h4, h5, _, _, h8⟩ :=
      selectPoints_batches addOpacity dim trace stash scene (some tester) hvis hkind r h
    exact ⟨s2, sb, ub, by rw [h2], h3, h4, h5, h8 hnone⟩

/-- Witness of the amended **C2** on the example scene. -/
theorem selectPoints_enter_resets_other_traces_witness :
    (exTrace.visible = true ∧ (exTrace.hasMarkers = true ∨ exTrace.hasText = true) ∧
      exStash.xpx = some [0, 5, 9] ∧ exStash.ypx = some [4, 4, 4] ∧
      exScene.selectBatch = none) ∧
    ((exScene.readyFor exTrace exStash.index = true →
      (selectPoints exAddOpacity exDim exTrace exStash (some exScene) (some exTester)).isSome
        = true) ∧
    ∀ r : Option (Scene String Nat) × List (SelRecord Int),
      selectPoints exAddOpacity exDim exTrace exStash (some exScene) (some exTester) = some r →
      ∃ s2 sb ub,
        r.1 = some s2 ∧ s2.selectBatch = some sb ∧ s2.unselectBatch = some ub ∧
        s2.count = exScene.count ∧
        ∀ j, j < exScene.count → j ≠ exStash.index →
          jsGet sb j = some [] ∧ jsGet ub j = some []) :=
  ⟨⟨rfl, Or.inl rfl, rfl, rfl, rfl⟩,
    selectPoints_enter_resets_other_traces exAddOpacity exDim exTrace exStash exScene exTester
      [0, 5, 9] [4, 4, 4] rfl (Or.inl rfl) rfl rfl rfl⟩

/-- **C3.** For a visible trace with markers or text, pixel caches `xpx`, `ypx` and a
non-degenerate tester, `selectPoints` completes on a scene that is ready for the trace, and
whenever it completes it returns, in ascending index order, exactly the records
`{pointNumber: i, x: stash.x[i], y: stash.y[i]}` of the indices `i < trace._length` that the
tester contains; the returned point numbers are `selectBatch[stash.index]`. -/
theorem selectPoints_selection (addOpacity : Option C → D → C) (dim : D) (trace : Trace)
    (stash : Stash X P) (scene : Scene C M) (tester : Tester P) (xpx ypx : List P)
    (hvis : trace.visible = true) (hkind : trace.hasMarkers = true ∨ trace.hasText = true)
    (hx : stash.xpx = some xpx) (hy : stash.ypx = some ypx)
    (hdeg : tester.degenerate = false) :
    (scene.readyFor trace stash.index = true →
      (selectPoints (X := X) addOpacity dim trace stash (some scene) (some tester)).isSome
        = true) ∧
    ∀ r : Option (Scene C M) × List (SelRecord X),
      selectPoints addOpacity dim trace stash (some scene) (some tester) = some r →
      r.2 = ((List.range trace._length).filter
              (fun i => tester.contains (xpx[i]?, ypx[i]?) i)).map
              (fun i => (⟨i, stash.x[i]?, stash.y[i]?⟩ : SelRecord X)) ∧
      (r.2.map (·.pointNumber)).Pairwise (· < ·) ∧
      ∃ s2 sb, r.1 = some s2 ∧ s2.selectBatch = some sb ∧
        jsGet sb stash.index = some (r.2.map (·.pointNumber)) := by
  have htest := selectTest_active trace stash tester xpx ypx hx hy hdeg
  refine ⟨fun hready => selectPoints_isSome addOpacity dim trace stash scene (some tester)
    hvis hkind hready (by rw [htest]; rfl), ?_⟩
  intro r h
  obtain ⟨els, unels, selection, s2, sb, ub, h1, h2, h3, _, _, h6, _, _⟩ :=
    selectPoints_batches addOpacity dim trace stash scene (some tester) hvis hkind r h
  rw [htest] at h1
  simp only [Option.some.injEq, Prod.mk.injEq] at h1
  obtain ⟨e1, _, e3⟩ := h1
  have hmap : (r.2.map (·.pointNumber)) = (List.range trace._length).filter
      (fun i => tester.contains (xpx[i]?, ypx[i]?) i) := by
    rw [h2, ← e3]
    simp [List.map_map, Function.comp_def]
  refine ⟨by rw [h2, ← e3], ?_, s2, sb, by rw [h2], h3, ?_⟩
  · rw [hmap]
    exact List.Pairwise.sublist (List.filter_sublist _) (List.pairwise_lt_range _)
  · rw [hmap, h6, ← e1]

/-- Witness of **C3** on the example trace, scene and box tester. -/
theorem selectPoints_selection_witness :
    (exTrace.visible = true ∧ (exTrace.hasMarkers = true ∨ exTrace.hasText = true) ∧
      exStash.xpx = some [0, 5, 9] ∧ exStash.ypx = some [4, 4, 4] ∧
      exTester.degenerate = false) ∧
    ((exScene.readyFor exTrace exStash.index = true →
      (selectPoints exAddOpacity exDim exTrace exStash (some exScene) (some exTester)).isSome
        = true) ∧
    ∀ r : Option (Scene String Nat) × List (SelRecord Int),
      selectPoints exAddOpacity exDim exTrace exStash (some exScene) (some exTester) = some r →
      r.2 = ((List.range exTrace._length).filter
              (fun i => exTester.contains (([0, 5, 9] : List Int)[i]?,
                ([4, 4, 4] : List Int)[i]?) i)).map
              (fun i => (⟨i, exStash.x[i]?, exStash.y[i]?⟩ : SelRecord Int)) ∧
      (r.2.map (·.pointNumber)).Pairwise (· < ·) ∧
      ∃ s2 sb, r.1 = some s2 ∧ s2.selectBatch = some sb ∧
        jsGet sb exStash.index = some (r.2.map (·.pointNumber))) :=
  ⟨⟨rfl, Or.inl rfl, rfl, rfl, rfl⟩,
    selectPoints_selection exAddOpacity exDim exTrace exStash exScene exTester [0, 5, 9]
      [4, 4, 4] rfl (Or.inl rfl) rfl rfl rfl⟩

/-- **C4, the code at the failing input.** The scene holds a selection in two traces
(point 0 of trace 0, point 1 of trace 1). `selectPoints` with the value `false` for trace 0
returns an empty selection and empties only the slot of trace 0: `selectBatch[1]` still holds
point 1. -/
theorem selectPoints_noSelection_keeps_other_trace :
    (selectPoints exAddOpacity exDim exTrace2 exStash2 (some exSelectedScene) none).map
        (fun r => r.2) = some [] ∧
    ((selectPoints exAddOpacity exDim exTrace2 exStash2 (some exSelectedScene) none).bind
        (fun r => r.1)).map (fun s => s.selectBatch) = some (some [none, some [1]]) ∧
    ((selectPoints exAddOpacity exDim exTrace2 exStash2 (some exSelectedScene) none).bind
        (fun r => r.1)).map (fun s => s.unselectBatch)
      = some (some [some [0, 1], some [0]]) := by
  decide

/-- **C5.** A degenerate tester gives exactly the result of the value `false`: the same scene
and the same returned selection, whatever its `contains` is. For a visible trace with markers
or text the call completes on a ready scene, returns the empty selection and leaves
`selectBatch[stash.index]` empty (`null`) with `unselectBatch[stash.index] = [0..n-1]`. A
non-degenerate tester that contains no point also returns the empty selection with
`unselectBatch[stash.index] = [0..n-1]`, but leaves an empty array in
`selectBatch[stash.index]`. -/
theorem selectPoints_degenerate (addOpacity : Option C → D → C) (dim : D) (trace : Trace)
    (stash : Stash X P) (scene : Option (Scene C M)) (t : Tester P)
    (hdeg : t.degenerate = true) :
    selectPoints (X := X) addOpacity dim trace stash scene (some t) =
      selectPoints addOpacity dim trace stash scene none ∧
    (∀ sc, scene = some sc → trace.visible = true →
      (trace.hasMarkers = true ∨ trace.hasText = true) →
      (sc.readyFor trace stash.index = true →
        (selectPoints (X := X) addOpacity dim trace stash scene (some t)).isSome = true) ∧
      ∀ r : Option (Scene C M) × List (SelRecord X),
        selectPoints addOpacity dim trace stash scene (some t) = some r →
        r.2 = [] ∧ ∃ s2 sb ub, r.1 = some s2 ∧ s2.selectBatch = some sb ∧
          s2.unselectBatch = some ub ∧ jsGet sb stash.index = none ∧
          jsGet ub stash.index = some (arrayRange trace._length)) ∧
    (∀ sc (t2 : Tester P) (xpx ypx : List P), scene = some sc → trace.visible = true →
      (trace.hasMarkers = true ∨ trace.hasText = true) →
      stash.xpx = some xpx → stash.ypx = some ypx → t2.degenerate = false →
      (∀ pt i, t2.contains pt i = false) →
      (sc.readyFor trace stash.index = true →
        (selectPoints (X := X) addOpacity dim trace stash scene (some t2)).isSome = true) ∧
      ∀ r : Option (Scene C M) × List (SelRecord X),
        selectPoints addOpacity dim trace stash scene (some t2) = some r →
        r.2 = [] ∧ ∃ s2 sb ub, r.1 = some s2 ∧ s2.selectBatch = some sb ∧
          s2.unselectBatch = some ub ∧ jsGet sb stash.index = some [] ∧
          jsGet ub stash.index = some (arrayRange trace._length)) := by
  have heq : selectPoints (X := X) addOpacity dim trace stash scene (some t) =
      selectPoints addOpacity dim trace stash scene none := by
    unfold selectPoints
    rw [selectTest_degenerate trace stash t hdeg]
  refine ⟨heq, ?_, ?_⟩
  · intro sc hsc hvis hkind
    subst hsc
    rw [heq]
    refine ⟨fun hready => selectPoints_isSome addOpacity dim trace stash sc none hvis hkind
      hready (by rw [selectTest_noSelection]; rfl), ?_⟩
    intro r h
    obtain ⟨els, unels, selection, s2, sb, ub, h1, h2, h3, h4, _, h6, h7, _⟩ :=
      selectPoints_batches addOpacity dim trace stash sc none hvis hkind r h
    rw [selectTest_noSelection] at h1
    simp only [Option.some.injEq, Prod.mk.injEq] at h1
    obtain ⟨e1, e2, e3⟩ := h1
    exact ⟨by rw [h2, ← e3], s2, sb, ub, by rw [h2], h3, h4, h6.trans e1.symm,
      h7.trans e2.symm⟩
  · intro sc t2 xpx ypx hsc hvis hkind hx hy hdeg2 hcont
    subst hsc
    have htest := selectTest_active trace stash t2 xpx ypx hx hy hdeg2
    simp only [hcont, Bool.false_eq_true, decide_False, List.filter_false, List.map_nil,
      Bool.not_false, decide_True, List.filter_true] at htest
    refine ⟨fun hready => selectPoints_isSome addOpacity dim trace stash sc (some t2) hvis
      hkind hready (by rw [htest]; rfl), ?_⟩
    intro r h
    obtain ⟨els, unels, selection, s2, sb, ub, h1, h2, h3, h4, _, h6, h7, _⟩ :=
      selectPoints_batches addOpacity dim trace stash sc (some t2) hvis hkind r h
    rw [htest] at h1
    simp only [Option.some.injEq, Prod.mk.injEq] at h1
    obtain ⟨e1, e2, e3⟩ := h1
    exact ⟨by rw [h2, ← e3], s2, sb, ub, by rw [h2], h3, h4, h6.trans e1.symm,
      h7.trans e2.symm⟩

/-- Witness of **C5** on the example trace and scene with the zero-area tester. -/
theorem selectPoints_degenerate_witness :
    exDegenerate.degenerate = true ∧
    selectPoints exAddOpacity exDim exTrace exStash (some exScene) (some exDegenerate) =
      selectPoints exAddOpacity exDim exTrace exStash (some exScene) none ∧
    ((selectPoints exAddOpacity exDim exTrace exStash (some exScene) none).bind
        (fun r => r.1)).map (fun s => s.selectBatch) = some (some [none, some []]) ∧
    ((selectPoints exAddOpacity exDim exTrace exStash (some exScene) (some exEmptyTester)).bind
        (fun r => r.1)).map (fun s => s.selectBatch) = some (some [some [], some []]) :=
  ⟨rfl,
    (selectPoints_degenerate exAddOpacity exDim exTrace exStash (some exScene) exDegenerate
      rfl).1, by decide, by decide⟩

/-- Counterexample to **C6** as stated: the trace has an explicit selected-style text colour
`red`, no unselected-style colour and the base colour `blue`; the unselected point 1 gets the
colour `blue` itself, not `blue` with the dimming alpha. -/
theorem styleTextSelection_unselected_not_dimmed :
    (styleTextSelection exAddOpacity exDim exTrace 0 exStyledScene).bind (·.glText) =
      some [[.array [some "red", some "blue", some "red"]], []] ∧
    (some "blue" : Option String) ≠ some (exAddOpacity (some "blue") exDim) := by
  decide

/-- **C6, amended.** For a trace with both batches, base text options and a text renderer,
and no explicit unselected-style colour, `styleTextSelection` completes and passes a colour
array to the text renderer in which every unselected point `j` has the base colour with the
dimming alpha, `addOpacity(basej, DESELECTDIM)`, when the trace has no explicit selected-style
colour either, and the base colour itself when it has one. -/
theorem styleTextSelection_unselected_color (addOpacity : Option C → D → C) (dim : D)
    (trace : Trace) (index : Nat) (scene : Scene C M) (sb ub : Batch) (els unels : List Nat)
    (b : TextOpts C) (g : List (List (ColorAttr C)))
    (h1 : scene.selectBatch = some sb) (h2 : scene.unselectBatch = some ub)
    (h3 : jsGet sb index = some els) (h4 : jsGet ub index = some unels)
    (h5 : jsGet scene.textOptions index = some b) (h6 : scene.glText = some g)
    (h7 : index < g.length)
    (hutc : ((jsGet scene.textUnselectedOptions index).getD ⟨none⟩).color = none) :
    ∃ colors,
      styleTextSelection addOpacity dim trace index scene =
        some { scene with glText := some (g.set index (g[index] ++ [.array colors])) } ∧
      ∀ j, j ∈ unels →
        jsGet colors j =
          match ((jsGet scene.textSelectedOptions index).getD ⟨none⟩).color with
          | none => some (addOpacity (b.color.at j) dim)
          | some _ => b.color.at j := by
  refine ⟨textColors addOpacity dim trace._length b.color
    ((jsGet scene.textSelectedOptions index).getD ⟨none⟩).color none els unels, ?_, ?_⟩
  · unfold styleTextSelection styledTextColor
    simp [h1, h2, h3, h4, h5, h6, h7, hutc]
  · intro j hj
    rw [textColors_get_unselected addOpacity dim _ _ _ _ _ _ j hj]
    unfold unselectedColor
    cases ((jsGet scene.textSelectedOptions index).getD ⟨none⟩).color <;> rfl

/-- Witness of the amended **C6** on the example scene with a selection partition. -/
theorem styleTextSelection_unselected_color_witness :
    (exStyledScene.selectBatch = some [some [0, 2]] ∧
      exStyledScene.unselectBatch = some [some [1]] ∧
      jsGet [some [0, 2]] 0 = some [0, 2] ∧ jsGet [some [1]] 0 = some [1] ∧
      jsGet exStyledScene.textOptions 0 = some ⟨.scalar (some "blue")⟩ ∧
      exStyledScene.glText = some [[], []] ∧ 0 < ([[], []] : List (List (ColorAttr String))).length ∧
      ((jsGet exStyledScene.textUnselectedOptions 0).getD ⟨none⟩).color = none) ∧
    ∃ colors,
      styleTextSelection exAddOpacity exDim exTrace 0 exStyledScene =
        some { exStyledScene with
          glText := some (([[], []] : List (List (ColorAttr String))).set 0
            (([[], []] : List (List (ColorAttr String)))[0] ++ [.array colors])) } ∧
      ∀ j, j ∈ [1] →
        jsGet colors j =
          match ((jsGet exStyledScene.textSelectedOptions 0).getD ⟨none⟩).color with
          | none => some (exAddOpacity ((ColorAttr.scalar (some "blue")).at j) exDim)
          | some _ => (ColorAttr.scalar (some "blue")).at j :=
  ⟨⟨rfl, rfl, rfl, rfl, rfl, rfl, by decide, rfl⟩,
    styleTextSelection_unselected_color exAddOpacity exDim exTrace 0 exStyledScene
      [some [0, 2]] [some [1]] [0, 2] [1] ⟨.scalar (some "blue")⟩ [[], []]
      rfl rfl rfl rfl rfl rfl (by decide) rfl⟩


/-! ## Position buffers: lemmas -/

theorem interleave_length {β : Type} (ps : List (β × β)) :
    (interleave ps).length = 2 * ps.length := by
  induction ps with
  | nil => rfl
  | cons p ps ih => simp [interleave, ih]; omega

theorem interleave_append {β : Type} (A B : List (β × β)) :
    interleave (A ++ B) = interleave A ++ interleave B := by
  induction A with
  | nil => rfl
  | cons p A ih => simp [interleave, ih]

theorem interleave_take {β : Type} (ps : List (β × β)) (n : Nat) :
    (interleave ps).take (2 * n) = interleave (ps.take n) := by
  induction ps generalizing n with
  | nil => simp [interleave]
  | cons p ps ih =>
    cases n with
    | zero => simp [interleave]
    | succ n =>
      have : 2 * (n + 1) = 2 * n + 1 + 1 := by omega
      rw [this]
      simp [interleave, ih]

theorem interleave_drop {β : Type} (ps : List (β × β)) (n : Nat) :
    (interleave ps).drop (2 * n) = interleave (ps.drop n) := by
  induction ps generalizing n with
  | nil => simp [interleave]
  | cons p ps ih =>
    cases n with
    | zero => simp [interleave]
    | succ n =>
      have : 2 * (n + 1) = 2 * n + 1 + 1 := by omega
      rw [this]
      simp [interleave, ih]

theorem pairs_interleave {β : Type} (ps : List (β × β)) : pairs (interleave ps) = ps := by
  induction ps with
  | nil => rfl
  | cons p ps ih => simp [interleave, pairs, ih]

theorem interleave_pairs {β : Type} (src : List β) (h : src.length % 2 = 0) :
    interleave (pairs src) = src := by
  induction src using pairs.induct with
  | case1 a b rest ih =>
    simp only [List.length_cons] at h
    simp [pairs, interleave, ih (by omega)]
  | case2 l hl =>
    match l, hl with
    | [], _ => rfl
    | [a], _ => simp at h
    | a :: b :: rest, hl => exact absurd rfl (hl a b rest)

theorem interleave_getD_even {β : Type} (ps : List (β × β)) (n : Nat) (d : β) :
    (interleave ps).getD (2 * n) d = (ps.getD n (d, d)).1 := by
  induction ps generalizing n with
  | nil => simp [interleave]
  | cons p ps ih =>
    cases n with
    | zero => simp [interleave]
    | succ n =>
      have : 2 * (n + 1) = 2 * n + 1 + 1 := by omega
      rw [this]
      simp only [interleave, List.getD_cons_succ]
      exact ih n

theorem interleave_getD_odd {β : Type} (ps : List (β × β)) (n : Nat) (d : β) :
    (interleave ps).getD (2 * n + 1) d = (ps.getD n (d, d)).2 := by
  induction ps generalizing n with
  | nil => simp [interleave]
  | cons p ps ih =>
    cases n with
    | zero => simp [interleave]
    | succ n =>
      have : 2 * (n + 1) + 1 = (2 * n + 1) + 1 + 1 := by omega
      rw [this]
      simp only [interleave, List.getD_cons_succ]
      exact ih n

theorem idx_interleave_even {α : Type} (ps : List (JSVal α × JSVal α)) (k : Int) :
    idx (interleave ps) (2 * k) = (pairAt ps k).1 := by
  unfold idx pairAt
  by_cases hk : 0 ≤ k
  · have h2 : (0 : Int) ≤ 2 * k := by omega
    obtain ⟨n, rfl⟩ := Int.eq_ofNat_of_zero_le hk
    have : (2 * (n : Int)).toNat = 2 * n := by omega
    simp only [h2, hk, if_true, this, Int.toNat_ofNat]
    exact interleave_getD_even ps n .undefined
  · have h2 : ¬ (0 : Int) ≤ 2 * k := by omega
    simp [h2, hk]

theorem idx_interleave_odd {α : Type} (ps : List (JSVal α × JSVal α)) (k : Int) :
    idx (interleave ps) (2 * k + 1) = (pairAt ps k).2 := by
  unfold idx pairAt
  by_cases hk : 0 ≤ k
  · have h2 : (0 : Int) ≤ 2 * k + 1 := by omega
    obtain ⟨n, rfl⟩ := Int.eq_ofNat_of_zero_le hk
    have : (2 * (n : Int) + 1).toNat = 2 * n + 1 := by omega
    simp only [h2, hk, if_true, this, Int.toNat_ofNat]
    exact interleave_getD_odd ps n .undefined
  · have h2 : ¬ (0 : Int) ≤ 2 * k + 1 := by omega
    simp [h2, hk]

theorem jsSlice_interleave {β : Type} (ps : List (β × β)) (a b : Nat) :
    jsSlice (interleave ps) (2 * (a : Int)) (2 * (b : Int)) =
      interleave ((ps.take b).drop a) := by
  unfold jsSlice
  have ha : ¬ (2 * (a : Int) < 0) := by omega
  have hb : ¬ (2 * (b : Int) < 0) := by omega
  simp only [ha, hb, if_false, interleave_length]
  have e1 : (min (2 * (b : Int)) ((2 * ps.length : Nat) : Int)).toNat = 2 * min b ps.length := by
    omega
  have e2 : (min (2 * (a : Int)) ((2 * ps.length : Nat) : Int)).toNat = 2 * min a ps.length := by
    omega
  rw [e1, e2, interleave_take, interleave_drop]
  congr 1
  rw [List.take_eq_take.mpr (by simp : min (min b ps.length) ps.length = min b ps.length)]
  by_cases h : a ≤ ps.length
  · rw [Nat.min_eq_left h]
  · have h1 : ps.length ≤ a := by omega
    rw [Nat.min_eq_right h1]
    rw [List.drop_eq_nil_of_le (by simp), List.drop_eq_nil_of_le (by simp; omega)]

theorem whileUp_spec (bad : Int → Bool) (len : Int) (fuel k n : Nat) (hkn : k ≤ n)
    (hbad : ∀ j : Nat, k ≤ j → j < n → (2 * (j : Int) < len ∧ bad (2 * (j : Int)) = true))
    (hstop : ¬ (2 * (n : Int) < len ∧ bad (2 * (n : Int)) = true))
    (hfuel : n - k < fuel) :
    whileUp bad len fuel (2 * (k : Int)) = some (2 * (n : Int)) := by
  induction fuel generalizing k with
  | zero => omega
  | succ fuel ih =>
    unfold whileUp
    by_cases hk : k = n
    · subst hk
      have : (decide (2 * (k : Int) < len) && bad (2 * (k : Int))) = false := by
        cases h1 : decide (2 * (k : Int) < len) <;> cases h2 : bad (2 * (k : Int)) <;> simp
        exact hstop ⟨by simpa using h1, h2⟩
      simp [this]
    · have hlt : k < n := by omega
      obtain ⟨h1, h2⟩ := hbad k (Nat.le_refl k) hlt
      simp only [h1, h2, decide_True, Bool.and_self, if_true]
      have e : 2 * (k : Int) + 2 = 2 * ((k + 1 : Nat) : Int) := by push_cast; ring
      rw [e]
      exact ih (k + 1) (by omega) (fun j hj1 hj2 => hbad j (by omega) hj2) (by omega)

theorem whileDown_spec (bad : Int → Bool) (first : Int) (fuel : Nat) (m n : Int) (hnm : n ≤ m)
    (hbad : ∀ j : Int, n < j → j ≤ m → (2 * j > first ∧ bad (2 * j) = true))
    (hstop : ¬ (2 * n > first ∧ bad (2 * n) = true))
    (hfuel : (m - n).toNat < fuel) :
    whileDown bad first fuel (2 * m) = some (2 * n) := by
  induction fuel generalizing m with
  | zero => omega
  | succ fuel ih =>
    unfold whileDown
    by_cases hm : m = n
    · subst hm
      have : (decide (2 * m > first) && bad (2 * m)) = false := by
        cases h1 : decide (2 * m > first) <;> cases h2 : bad (2 * m) <;> simp
        exact hstop ⟨by simpa using h1, h2⟩
      simp [this]
    · have hlt : n < m := by omega
      obtain ⟨h1, h2⟩ := hbad m hlt (Int.le_refl m)
      simp only [h1, h2, decide_True, Bool.and_self, if_true]
      have e : 2 * m - 2 = 2 * (m - 1) := by ring
      rw [e]
      exact ih (m - 1) (by omega) (fun j hj1 hj2 => hbad j hj1 (by omega)) (by omega)

theorem pairAt_append_left {α : Type} (A X : List (JSVal α × JSVal α)) (j : Nat)
    (h : j < A.length) : pairAt (A ++ X) (j : Int) ∈ A := by
  unfold pairAt
  simp only [Int.natCast_nonneg, if_true, Int.toNat_ofNat, List.getD_eq_getElem?_getD]
  rw [List.getElem?_append_left h, List.getElem?_eq_getElem h]
  exact List.getElem_mem h

theorem pairAt_append_right {α : Type} (A X : List (JSVal α × JSVal α)) (j : Nat) :
    pairAt (A ++ X) ((A.length + j : Nat) : Int) = pairAt X (j : Int) := by
  unfold pairAt
  simp only [Int.natCast_nonneg, if_true, Int.toNat_ofNat, List.getD_eq_getElem?_getD]
  rw [List.getElem?_append_right (by omega)]
  simp

theorem pairAt_mem {α : Type} (ps : List (JSVal α × JSVal α)) (j : Nat) (h : j < ps.length) :
    pairAt ps (j : Int) ∈ ps := by
  have := pairAt_append_left ps [] j h
  simpa using this

theorem pairAt_length_head {α : Type} (A t X : List (JSVal α × JSVal α)) (f : JSVal α × JSVal α) :
    pairAt (A ++ (f :: t) ++ X) (A.length : Int) = f := by
  have := pairAt_append_right A ((f :: t) ++ X) 0
  simp only [Nat.add_zero, List.append_assoc] at this ⊢
  rw [this]
  simp [pairAt]

theorem pairAt_length_last {α : Type} (A i X : List (JSVal α × JSVal α)) (l : JSVal α × JSVal α) :
    pairAt (A ++ (i ++ [l]) ++ X) ((A.length + i.length : Nat) : Int) = l := by
  have e : A ++ (i ++ [l]) ++ X = (A ++ i) ++ (l :: X) := by simp
  rw [e]
  have := pairAt_append_right (A ++ i) (l :: X) 0
  simp only [Nat.add_zero, List.length_append] at this
  rw [this]
  simp [pairAt]

theorem pairAt_tail_mem {α : Type} (A B : List (JSVal α × JSVal α)) (j : Nat)
    (h1 : A.length ≤ j) (h2 : j < (A ++ B).length) : pairAt (A ++ B) (j : Int) ∈ B := by
  have e : j = A.length + (j - A.length) := by omega
  rw [e, pairAt_append_right]
  apply pairAt_mem
  simp only [List.length_append] at h2
  omega

theorem split_first {β : Type} (bp : β → Bool) (ps : List β) (h : ∃ p ∈ ps, bp p = false) :
    ∃ A f R, ps = A ++ f :: R ∧ (∀ p ∈ A, bp p = true) ∧ bp f = false := by
  induction ps with
  | nil => obtain ⟨p, hp, _⟩ := h; simp at hp
  | cons a ps ih =>
    cases ha : bp a with
    | false => exact ⟨[], a, ps, rfl, by simp, ha⟩
    | true =>
      obtain ⟨p, hp, hpf⟩ := h
      have hp2 : p ∈ ps := by
        rcases List.mem_cons.mp hp with h1 | h1
        · subst h1; rw [ha] at hpf; exact absurd hpf (by simp)
        · exact h1
      obtain ⟨A, f, R, e, hA, hf⟩ := ih ⟨p, hp2, hpf⟩
      refine ⟨a :: A, f, R, by simp [e], ?_, hf⟩
      intro q hq
      rcases List.mem_cons.mp hq with h1 | h1
      · subst h1; exact ha
      · exact hA q h1

theorem split_last {β : Type} (bp : β → Bool) (ps : List β) (h : ∃ p ∈ ps, bp p = false) :
    ∃ R l B, ps = R ++ l :: B ∧ (∀ p ∈ B, bp p = true) ∧ bp l = false := by
  obtain ⟨A, f, R, e, hA, hf⟩ := split_first bp ps.reverse
    (by obtain ⟨p, hp, hpf⟩ := h; exact ⟨p, List.mem_reverse.mpr hp, hpf⟩)
  refine ⟨R.reverse, f, A.reverse, ?_, ?_, hf⟩
  · have := congrArg List.reverse e
    simpa using this
  · intro p hp
    exact hA p (List.mem_reverse.mp hp)

theorem exists_trim_decomp {β : Type} (bp : β → Bool) (ps : List β)
    (h : ∃ p ∈ ps, bp p = false) :
    ∃ A mid B f l, ps = A ++ mid ++ B ∧ (∀ p ∈ A, bp p = true) ∧ (∀ p ∈ B, bp p = true) ∧
      mid.head? = some f ∧ mid.getLast? = some l ∧ bp f = false ∧ bp l = false := by
  obtain ⟨A, f, R, e, hA, hf⟩ := split_first bp ps h
  obtain ⟨R2, l, B, e2, hB, hl⟩ := split_last bp (f :: R) ⟨f, by simp, hf⟩
  refine ⟨A, R2 ++ [l], B, f, l, ?_, hA, hB, ?_, by simp, hf, hl⟩
  · rw [e, e2]; simp
  · cases R2 with
    | nil =>
      simp only [List.nil_append, List.cons.injEq] at e2
      simp [e2.1]
    | cons r R2 =>
      simp only [List.cons_append, List.cons.injEq] at e2
      simp [e2.1]

theorem scan_decomp {α : Type} (bad : Int → Bool) (bp : JSVal α × JSVal α → Bool)
    (A mid B : List (JSVal α × JSVal α)) (f l : JSVal α × JSVal α)
    (hbp : ∀ k : Int, bad (2 * k) = bp (pairAt (A ++ mid ++ B) k))
    (hA : ∀ p ∈ A, bp p = true) (hB : ∀ p ∈ B, bp p = true)
    (hf : mid.head? = some f) (hl : mid.getLast? = some l)
    (hfv : bp f = false) (hlv : bp l = false)
    (fuel : Nat) (hfuel : (A ++ mid ++ B).length < fuel) :
    whileUp bad (2 * (((A ++ mid ++ B).length : Nat) : Int)) fuel 0 =
        some (2 * (A.length : Int)) ∧
    whileDown bad (2 * (A.length : Int)) fuel (2 * (((A ++ mid ++ B).length : Nat) : Int) - 2) =
        some (2 * ((A.length + mid.length : Nat) : Int) - 2) := by
  obtain ⟨t, ht⟩ := List.head?_eq_some_iff.mp hf
  obtain ⟨i, hi⟩ := List.getLast?_eq_some_iff.mp hl
  have hlen : (A ++ mid ++ B).length = A.length + mid.length + B.length := by
    simp only [List.length_append]
  have hmid : mid.length = i.length + 1 := by rw [hi]; simp
  constructor
  · have e : (0 : Int) = 2 * ((0 : Nat) : Int) := by simp
    rw [e]
    apply whileUp_spec bad _ fuel 0 A.length (Nat.zero_le _)
    · intro j _ hj
      refine ⟨by rw [hlen]; push_cast; omega, ?_⟩
      rw [hbp, List.append_assoc]
      exact hA _ (pairAt_append_left A (mid ++ B) j hj)
    · rintro ⟨_, h2⟩
      rw [hbp, ht, pairAt_length_head, hfv] at h2
      exact absurd h2 (by simp)
    · omega
  · have e1 : 2 * (((A ++ mid ++ B).length : Nat) : Int) - 2 =
        2 * ((((A ++ mid ++ B).length : Nat) : Int) - 1) := by ring
    have e2 : 2 * ((A.length + mid.length : Nat) : Int) - 2 =
        2 * (((A.length + i.length : Nat) : Int)) := by rw [hmid]; push_cast; ring
    rw [e1, e2]
    apply whileDown_spec
    · rw [hlen, hmid]; push_cast; omega
    · intro j hj1 hj2
      have hj0 : 0 ≤ j := by omega
      obtain ⟨n, rfl⟩ := Int.eq_ofNat_of_zero_le hj0
      refine ⟨by omega, ?_⟩
      rw [hbp]
      apply hB
      apply pairAt_tail_mem (A ++ mid) B n
      · rw [List.length_append, hmid]; omega
      · rw [hlen]; rw [hlen] at hj2; omega
    · rintro ⟨_, h2⟩
      rw [hbp, hi, pairAt_length_last, hlv] at h2
      exact absurd h2 (by simp)
    · rw [hlen, hmid]; rw [hlen] at hfuel; push_cast; omega

theorem scan_allbad {α : Type} (bad : Int → Bool) (bp : JSVal α × JSVal α → Bool)
    (ps : List (JSVal α × JSVal α))
    (hbp : ∀ k : Int, bad (2 * k) = bp (pairAt ps k))
    (hall : ∀ p ∈ ps, bp p = true)
    (fuel : Nat) (hfuel : ps.length < fuel) :
    whileUp bad (2 * ((ps.length : Nat) : Int)) fuel 0 = some (2 * (ps.length : Int)) ∧
    whileDown bad (2 * (ps.length : Int)) fuel (2 * ((ps.length : Nat) : Int) - 2) =
        some (2 * ((ps.length : Nat) : Int) - 2) := by
  constructor
  · have e : (0 : Int) = 2 * ((0 : Nat) : Int) := by simp
    rw [e]
    apply whileUp_spec bad _ fuel 0 ps.length (Nat.zero_le _)
    · intro j _ hj
      refine ⟨by omega, ?_⟩
      rw [hbp]
      exact hall _ (pairAt_mem ps j hj)
    · rintro ⟨h1, _⟩
      omega
    · omega
  · have e1 : 2 * ((ps.length : Nat) : Int) - 2 = 2 * (((ps.length : Nat) : Int) - 1) := by
      ring
    rw [e1]
    apply whileDown_spec
    · exact Int.le_refl _
    · intro j hj1 hj2
      omega
    · rintro ⟨h1, _⟩
      omega
    · have : (((ps.length : Nat) : Int) - 1 - (((ps.length : Nat) : Int) - 1)).toNat = 0 := by
        omega
      omega

theorem invalid_at_even {α : Type} (ps : List (JSVal α × JSVal α)) (k : Int) :
    (isNaN (idx (interleave ps) (2 * k)) || isNaN (idx (interleave ps) (2 * k + 1))) =
      invalidPair (pairAt ps k) := by
  rw [idx_interleave_even, idx_interleave_odd]
  rfl

theorem undefinedY_at_even {α : Type} (ps : List (JSVal α × JSVal α)) (k : Int) :
    isNaN (idx (interleave ps) (2 * k + 1)) = undefinedY (pairAt ps k) := by
  rw [idx_interleave_odd]
  rfl

theorem jsSlice_decomp {α : Type} (A mid B : List (JSVal α × JSVal α)) :
    jsSlice (interleave (A ++ mid ++ B)) (2 * (A.length : Int))
      (2 * ((A.length + mid.length : Nat) : Int) - 2 + 2) = interleave mid := by
  have e : 2 * ((A.length + mid.length : Nat) : Int) - 2 + 2 =
      2 * ((A.length + mid.length : Nat) : Int) := by ring
  rw [e, jsSlice_interleave]
  congr 1
  rw [List.append_assoc, ← List.append_assoc A mid B, List.take_append_of_le_length (by simp),
    List.take_of_length_le (by simp), List.drop_left]

theorem idx_first {α : Type} (A mid B : List (JSVal α × JSVal α)) (f : JSVal α × JSVal α)
    (hf : mid.head? = some f) :
    idx (interleave (A ++ mid ++ B)) (2 * (A.length : Int)) = f.1 ∧
    idx (interleave (A ++ mid ++ B)) (2 * (A.length : Int) + 1) = f.2 := by
  obtain ⟨t, ht⟩ := List.head?_eq_some_iff.mp hf
  rw [idx_interleave_even, idx_interleave_odd, ht, pairAt_length_head]
  exact ⟨rfl, rfl⟩

theorem idx_last {α : Type} (A mid B : List (JSVal α × JSVal α)) (l : JSVal α × JSVal α)
    (hl : mid.getLast? = some l) :
    idx (interleave (A ++ mid ++ B)) (2 * ((A.length + mid.length : Nat) : Int) - 2) = l.1 ∧
    idx (interleave (A ++ mid ++ B)) (2 * ((A.length + mid.length : Nat) : Int) - 2 + 1)
      = l.2 := by
  obtain ⟨i, hi⟩ := List.getLast?_eq_some_iff.mp hl
  have e2 : 2 * ((A.length + mid.length : Nat) : Int) - 2 =
      2 * (((A.length + i.length : Nat) : Int)) := by rw [hi]; simp; ring
  rw [e2, idx_interleave_even, idx_interleave_odd, hi, pairAt_length_last]
  exact ⟨rfl, rfl⟩

theorem undefinedX_at_even {α : Type} (ps : List (JSVal α × JSVal α)) (k : Int) :
    isNaN (idx (interleave ps) (2 * k)) = undefinedX (pairAt ps k) := by
  rw [idx_interleave_even]
  rfl

theorem pairAt_mem_or_undefined {α : Type} (ps : List (JSVal α × JSVal α)) (k : Int) :
    pairAt ps k ∈ ps ∨ pairAt ps k = (.undefined, .undefined) := by
  by_cases hk : 0 ≤ k
  · obtain ⟨n, rfl⟩ := Int.eq_ofNat_of_zero_le hk
    by_cases hn : n < ps.length
    · exact Or.inl (pairAt_mem ps n hn)
    · right
      unfold pairAt
      simp only [Int.natCast_nonneg, if_true, Int.toNat_ofNat]
      rw [List.getD_eq_default _ _ (by omega)]
  · right
    unfold pairAt
    simp [hk]

theorem isNaN_ne_zero {α : Type} [Zero α] (v : JSVal α) (h : isNaN v = true) :
    v ≠ JSVal.num 0 := by
  intro e
  rw [e] at h
  simp [isNaN] at h

theorem fillTozeroy_decomp {α : Type} [DecidableEq α] [Zero α]
    (A mid B : List (JSVal α × JSVal α)) (f l : JSVal α × JSVal α)
    (hA : ∀ p ∈ A, undefinedY p = true) (hB : ∀ p ∈ B, undefinedY p = true)
    (hf : mid.head? = some f) (hl : mid.getLast? = some l)
    (hfv : undefinedY f = false) (hlv : undefinedY l = false) :
    fillTozeroy (interleave (A ++ mid ++ B)) =
      some (interleave ((if f.2 ≠ .num 0 then [(f.1, JSVal.num 0)] else []) ++ mid ++
              (if l.2 ≠ .num 0 then [(l.1, JSVal.num 0)] else []))) := by
  obtain ⟨h1, h2⟩ := scan_decomp
    (fun i : Int => isNaN (idx (interleave (A ++ mid ++ B)) (i + 1)))
    undefinedY A mid B f l (fun k => undefinedY_at_even _ k) hA hB hf hl hfv hlv
    (2 * (A ++ mid ++ B).length + 1) (by omega)
  obtain ⟨f1, f2⟩ := idx_first A mid B f hf
  obtain ⟨l1, l2⟩ := idx_last A mid B l hl
  unfold fillTozeroy
  simp only [interleave_length, Nat.cast_mul, Nat.cast_ofNat] at h1 h2 ⊢
  rw [h1]
  simp only [Option.bind_eq_bind, Option.some_bind]
  rw [h2]
  simp only [Option.some_bind, Option.pure_def, Option.some.injEq]
  rw [jsSlice_decomp A mid B, f1, f2, l1, l2]
  by_cases c1 : f.2 = .num 0 <;> by_cases c2 : l.2 = .num 0 <;>
    simp [c1, c2, interleave_append, interleave]

theorem fillTozerox_decomp {α : Type} [DecidableEq α] [Zero α]
    (A mid B : List (JSVal α × JSVal α)) (f l : JSVal α × JSVal α)
    (hA : ∀ p ∈ A, undefinedX p = true) (hB : ∀ p ∈ B, undefinedX p = true)
    (hf : mid.head? = some f) (hl : mid.getLast? = some l)
    (hfv : undefinedX f = false) (hlv : undefinedX l = false) :
    fillTozerox (interleave (A ++ mid ++ B)) =
      some (interleave ((if f.1 ≠ .num 0 then [(JSVal.num 0, f.2)] else []) ++ mid ++
              (if l.1 ≠ .num 0 then [(JSVal.num 0, l.2)] else []))) := by
  obtain ⟨h1, h2⟩ := scan_decomp
    (fun i : Int => isNaN (idx (interleave (A ++ mid ++ B)) i))
    undefinedX A mid B f l (fun k => undefinedX_at_even _ k) hA hB hf hl hfv hlv
    (2 * (A ++ mid ++ B).length + 1) (by omega)
  obtain ⟨f1, f2⟩ := idx_first A mid B f hf
  obtain ⟨l1, l2⟩ := idx_last A mid B l hl
  unfold fillTozerox
  simp only [interleave_length, Nat.cast_mul, Nat.cast_ofNat] at h1 h2 ⊢
  rw [h1]
  simp only [Option.bind_eq_bind, Option.some_bind]
  rw [h2]
  simp only [Option.some_bind, Option.pure_def, Option.some.injEq]
  rw [jsSlice_decomp A mid B, f1, f2, l1, l2]
  by_cases c1 : f.1 = .num 0 <;> by_cases c2 : l.1 = .num 0 <;>
    simp [c1, c2, interleave_append, interleave]

theorem idx_allbad {α : Type} (ps : List (JSVal α × JSVal α)) :
    idx (interleave ps) (2 * (ps.length : Int)) = .undefined ∧
    idx (interleave ps) (2 * (ps.length : Int) + 1) = .undefined ∧
    idx (interleave ps) (2 * (ps.length : Int) - 2) = (pairAt ps ((ps.length : Int) - 1)).1 ∧
    idx (interleave ps) (2 * (ps.length : Int) - 2 + 1) = (pairAt ps ((ps.length : Int) - 1)).2 ∧
    jsSlice (interleave ps) (2 * (ps.length : Int)) (2 * (ps.length : Int) - 2 + 2) = [] := by
  have e : 2 * (ps.length : Int) - 2 = 2 * ((ps.length : Int) - 1) := by ring
  have hout : pairAt ps (ps.length : Int) = (.undefined, .undefined) := by
    unfold pairAt
    simp only [Int.natCast_nonneg, if_true, Int.toNat_ofNat]
    rw [List.getD_eq_default _ _ (Nat.le_refl _)]
  refine ⟨?_, ?_, ?_, ?_, ?_⟩
  · rw [idx_interleave_even, hout]
  · rw [idx_interleave_odd, hout]
  · rw [e, idx_interleave_even]
  · rw [e, idx_interleave_odd]
  · have e2 : 2 * (ps.length : Int) - 2 + 2 = 2 * (ps.length : Int) := by ring
    rw [e2, jsSlice_interleave]
    simp [interleave]

theorem fillTozeroy_allbad {α : Type} [DecidableEq α] [Zero α]
    (ps : List (JSVal α × JSVal α)) (hall : ∀ p ∈ ps, undefinedY p = true) :
    fillTozeroy (interleave ps) =
      some [.undefined, .num 0, (pairAt ps ((ps.length : Int) - 1)).1, .num 0] := by
  obtain ⟨h1, h2⟩ := scan_allbad
    (fun i : Int => isNaN (idx (interleave ps) (i + 1)))
    undefinedY ps (fun k => undefinedY_at_even _ k) hall (2 * ps.length + 1) (by omega)
  obtain ⟨i1, i2, i3, i4, i5⟩ := idx_allbad ps
  have hbad : (pairAt ps ((ps.length : Int) - 1)).2 ≠ JSVal.num 0 := by
    apply isNaN_ne_zero
    rcases pairAt_mem_or_undefined ps ((ps.length : Int) - 1) with h | h
    · exact hall _ h
    · rw [h]; rfl
  unfold fillTozeroy
  simp only [interleave_length, Nat.cast_mul, Nat.cast_ofNat] at h1 h2 ⊢
  rw [h1]
  simp only [Option.bind_eq_bind, Option.some_bind]
  rw [h2]
  simp only [Option.some_bind, Option.pure_def, Option.some.injEq]
  rw [i1, i2, i3, i4, i5]
  simp [hbad]

theorem fillTozerox_allbad {α : Type} [DecidableEq α] [Zero α]
    (ps : List (JSVal α × JSVal α)) (hall : ∀ p ∈ ps, undefinedX p = true) :
    fillTozerox (interleave ps) =
      some [.num 0, .undefined, .num 0, (pairAt ps ((ps.length : Int) - 1)).2] := by
  obtain ⟨h1, h2⟩ := scan_allbad
    (fun i : Int => isNaN (idx (interleave ps) i))
    undefinedX ps (fun k => undefinedX_at_even _ k) hall (2 * ps.length + 1) (by omega)
  obtain ⟨i1, i2, i3, i4, i5⟩ := idx_allbad ps
  have hbad : (pairAt ps ((ps.length : Int) - 1)).1 ≠ JSVal.num 0 := by
    apply isNaN_ne_zero
    rcases pairAt_mem_or_undefined ps ((ps.length : Int) - 1) with h | h
    · exact hall _ h
    · rw [h]; rfl
  unfold fillTozerox
  simp only [interleave_length, Nat.cast_mul, Nat.cast_ofNat] at h1 h2 ⊢
  rw [h1]
  simp only [Option.bind_eq_bind, Option.some_bind]
  rw [h2]
  simp only [Option.some_bind, Option.pure_def, Option.some.injEq]
  rw [i1, i2, i3, i4, i5]
  simp [hbad]

theorem swapXY_interleave {β : Type} (ps : List (β × β)) :
    swapXY (interleave ps) = interleave (ps.map Prod.swap) := by
  induction ps with
  | nil => rfl
  | cons p ps ih => simp [interleave, swapXY, ih]

theorem pairAt_map_swap {α : Type} (ps : List (JSVal α × JSVal α)) (k : Int) :
    pairAt (ps.map Prod.swap) k = (pairAt ps k).swap := by
  unfold pairAt
  by_cases hk : 0 ≤ k
  · simp only [hk, if_true, List.getD_eq_getElem?_getD, List.getElem?_map]
    cases ps[k.toNat]? <;> rfl
  · simp [hk]

theorem jsSlice_mid {α : Type} (A mid B : List (JSVal α × JSVal α)) :
    jsSlice (interleave (A ++ mid ++ B)) (2 * (A.length : Int))
      (2 * ((A.length + mid.length : Nat) : Int)) = interleave mid := by
  have := jsSlice_decomp A mid B
  have e : 2 * ((A.length + mid.length : Nat) : Int) - 2 + 2 =
      2 * ((A.length + mid.length : Nat) : Int) := by ring
  rw [e] at this
  exact this

theorem splitOnP_run_valid {β : Type} (p : β → Bool) (xs : List β) :
    ∀ r ∈ xs.splitOnP p, ∀ x ∈ r, p x = false := by
  induction xs with
  | nil => simp [List.splitOnP_nil]
  | cons a xs ih =>
    rw [List.splitOnP_cons]
    cases ha : p a with
    | true =>
      simp only [if_true, List.mem_cons]
      rintro r (rfl | hr) x hx
      · simp at hx
      · exact ih r hr x hx
    | false =>
      simp only [Bool.false_eq_true, if_false]
      cases hs : xs.splitOnP p with
      | nil => exact absurd hs (List.splitOnP_ne_nil p xs)
      | cons r0 rs =>
        rw [hs] at ih
        simp only [List.modifyHead_cons, List.mem_cons]
        rintro r (rfl | hr) x hx
        · rcases List.mem_cons.mp hx with h | h
          · rw [h]; exact ha
          · exact ih r0 (by simp) x h
        · exact ih r (by simp [hr]) x hx

theorem toself_loop {α : Type} (X : List (JSVal α × JSVal α)) :
    ∀ (A R : List (JSVal α × JSVal α)) (pos src : List (JSVal α)),
      src = interleave (A ++ R ++ X) →
      (∀ p ∈ R, invalidPair p = false) →
      (∀ r ∈ (R ++ X).splitOnP invalidPair, r ≠ []) →
      toselfFinish src
        (((List.range' (A.length + R.length) X.length).map (fun k : Nat => 2 * (k : Int))).foldl
          (toselfStep src) (pos, 2 * (A.length : Int))) =
      pos ++ (if A.length = 0 ∧ ∀ p ∈ X, invalidPair p = false then interleave (R ++ X)
              else interleave (((R ++ X).splitOnP invalidPair).flatMap
                (fun r => r ++ r.take 1))) := by
  induction X with
  | nil =>
    intro A R pos src hsrc hR hruns
    have hsingle : (R ++ []).splitOnP invalidPair = [R ++ []] :=
      List.splitOnP_eq_single invalidPair _ (by
        intro p hp
        rw [hR p (by simpa using hp)]
        simp)
    have hlen : ((src.length : Nat) : Int) = 2 * ((A.length + R.length : Nat) : Int) := by
      rw [hsrc, interleave_length]; simp
    have hslice : jsSlice src (2 * (A.length : Int)) (src.length : Int) = interleave R := by
      rw [hlen, hsrc]; exact jsSlice_mid A R []
    simp only [List.length_nil, List.range'_zero, List.map_nil, List.foldl_nil, toselfFinish,
      hslice]
    by_cases hA : A.length = 0
    · have hA2 : 2 * (A.length : Int) = 0 := by omega
      simp [hA, hA2]
    · have hne : R ++ [] ≠ [] := hruns _ (by rw [hsingle]; simp)
      have hA2 : ¬ (2 * (A.length : Int) = 0) := by omega
      obtain ⟨f, t, hft⟩ := List.exists_cons_of_ne_nil (by simpa using hne : R ≠ [])
      obtain ⟨f1, f2⟩ := idx_first A R [] f (by rw [hft]; rfl)
      rw [← hsrc] at f1 f2
      simp only [ne_eq, hA2, not_false_eq_true, if_true, f1, f2, hA, false_and, if_false,
        hsingle]
      simp [hft, interleave_append, interleave]
  | cons x X ih =>
    intro A R pos src hsrc hR hruns
    have hx1 : idx src (2 * ((A.length + R.length : Nat) : Int)) = x.1 := by
      have := (idx_first (A ++ R) (x :: X) [] x rfl).1
      simp only [List.append_nil, List.length_append] at this
      rw [hsrc]; exact this
    have hx2 : idx src (2 * ((A.length + R.length : Nat) : Int) + 1) = x.2 := by
      have := (idx_first (A ++ R) (x :: X) [] x rfl).2
      simp only [List.append_nil, List.length_append] at this
      rw [hsrc]; exact this
    simp only [List.length_cons, List.range'_succ, List.map_cons, List.foldl_cons]
    cases hx : invalidPair x with
    | true =>
      have hfirst : (R ++ x :: X).splitOnP invalidPair = R :: X.splitOnP invalidPair :=
        List.splitOnP_first invalidPair R (by
          intro p hp
          rw [hR p hp]
          simp) x hx X
      have hne : R ≠ [] := hruns R (by rw [hfirst]; simp)
      obtain ⟨f, t, hft⟩ := List.exists_cons_of_ne_nil hne
      obtain ⟨f1, f2⟩ := idx_first A R (x :: X) f (by rw [hft]; rfl)
      rw [← hsrc] at f1 f2
      have hslice : jsSlice src (2 * (A.length : Int)) (2 * ((A.length + R.length : Nat) : Int))
          = interleave R := by
        rw [hsrc]; exact jsSlice_mid A R (x :: X)
      have hstep : toselfStep src (pos, 2 * (A.length : Int))
          (2 * ((A.length + R.length : Nat) : Int)) =
          (pos ++ interleave R ++ [f.1, f.2],
            2 * (((A ++ R ++ [x]).length : Nat) : Int)) := by
        unfold toselfStep
        have hinv : (isNaN x.1 || isNaN x.2) = true := hx
        simp only [hx1, hx2, hinv, if_true, hslice, f1, f2]
        congr 1
        simp only [List.length_append, List.length_singleton]
        push_cast
        ring
      rw [hstep]
      have hidx : A.length + R.length + 1 =
          (A ++ R ++ [x]).length + ([] : List (JSVal α × JSVal α)).length := by
        simp only [List.length_append, List.length_singleton, List.length_nil, Nat.add_zero]
      rw [hidx]
      rw [ih (A ++ R ++ [x]) [] (pos ++ interleave R ++ [f.1, f.2]) src (by rw [hsrc]; simp)
        (by simp) (by
          intro r hr
          apply hruns r
          rw [hfirst]
          simp only [List.nil_append] at hr
          exact List.mem_cons_of_mem _ hr)]
      have hc1 : ¬ ((A ++ R ++ [x]).length = 0 ∧ ∀ p ∈ X, invalidPair p = false) := by
        simp
      have hc2 : ¬ (A.length = 0 ∧ ∀ p ∈ x :: X, invalidPair p = false) := by
        simp [hx]
      rw [if_neg hc1, if_neg hc2, hfirst]
      simp only [List.nil_append, List.flatMap_cons, interleave_append, List.append_assoc]
      rw [hft]
      simp [interleave]
    | false =>
      have hstep : toselfStep src (pos, 2 * (A.length : Int))
          (2 * ((A.length + R.length : Nat) : Int)) = (pos, 2 * (A.length : Int)) := by
        unfold toselfStep
        have hinv : (isNaN x.1 || isNaN x.2) = false := hx
        simp only [hx1, hx2, hinv, Bool.false_eq_true, if_false]
      rw [hstep]
      have hidx : A.length + R.length + 1 = A.length + (R ++ [x]).length := by
        simp only [List.length_append, List.length_singleton]
        omega
      rw [hidx]
      rw [ih A (R ++ [x]) pos src (by rw [hsrc]; simp)
        (by
          intro p hp
          rcases List.mem_append.mp hp with h | h
          · exact hR p h
          · simp only [List.mem_singleton] at h; rw [h]; exact hx)
        (by simpa using hruns)]
      have hcond : (A.length = 0 ∧ ∀ p ∈ X, invalidPair p = false) ↔
          (A.length = 0 ∧ ∀ p ∈ x :: X, invalidPair p = false) := by
        simp [hx]
      simp only [hcond, List.append_assoc, List.singleton_append]

theorem fillToself_closed_form {α : Type} (ps : List (JSVal α × JSVal α))
    (hruns : ∀ r ∈ ps.splitOnP invalidPair, r ≠ []) :
    fillToself (interleave ps) =
      if ∀ p ∈ ps, invalidPair p = false then interleave ps
      else interleave ((ps.splitOnP invalidPair).flatMap (fun r => r ++ r.take 1)) := by
  have h := toself_loop ps [] [] [] (interleave ps) (by simp) (by simp) (by simpa using hruns)
  have e : ((interleave ps).length + 1) / 2 = ps.length := by
    rw [interleave_length]; omega
  unfold fillToself
  rw [e, List.range_eq_range']
  by_cases hall : ∀ p ∈ ps, invalidPair p = false
  · rw [if_pos hall]
    rw [if_pos ⟨rfl, hall⟩] at h
    simpa using h
  · rw [if_neg hall]
    rw [if_neg (fun hc => hall hc.2)] at h
    simpa using h

/-! ## Position buffers: the claims -/

/-- **C7.** For an even-length position buffer the trimming always returns: when no pair of
the buffer has two numbers (also for the empty buffer) the result is empty; otherwise the
buffer is `A ++ mid ++ B` with every pair of `A` and of `B` invalid, `mid` starting with the
valid pair `f` and ending with the valid pair `l`, and the result is exactly `mid`. -/
theorem trimLinePositions_spec {α : Type} (srcPos : List (JSVal α))
    (heven : srcPos.length % 2 = 0) :
    ((∀ p ∈ pairs srcPos, invalidPair p = true) → trimLinePositions srcPos = some []) ∧
    ((∃ p ∈ pairs srcPos, invalidPair p = false) →
      ∃ A mid B f l, pairs srcPos = A ++ mid ++ B ∧
        (∀ p ∈ A, invalidPair p = true) ∧ (∀ p ∈ B, invalidPair p = true) ∧
        mid.head? = some f ∧ mid.getLast? = some l ∧
        invalidPair f = false ∧ invalidPair l = false ∧
        trimLinePositions srcPos = some (interleave mid)) := by
  have hsrc := interleave_pairs srcPos heven
  generalize pairs srcPos = ps at hsrc
  subst hsrc
  constructor
  · intro hall
    obtain ⟨h1, h2⟩ := scan_allbad
      (fun i : Int => isNaN (idx (interleave ps) i) || isNaN (idx (interleave ps) (i + 1)))
      invalidPair ps (fun k => invalid_at_even ps k) hall (2 * ps.length + 1) (by omega)
    unfold trimLinePositions
    simp only [interleave_length, Nat.cast_mul, Nat.cast_ofNat] at h1 h2 ⊢
    rw [h1]
    simp only [Option.bind_eq_bind, Option.some_bind]
    rw [h2]
    simp only [Option.some_bind, Option.pure_def, Option.some.injEq]
    have e : 2 * (ps.length : Int) - 2 + 2 = 2 * (ps.length : Int) := by ring
    rw [e, jsSlice_interleave]
    simp [interleave]
  · intro hex
    obtain ⟨A, mid, B, f, l, e, hA, hB, hf, hl, hfv, hlv⟩ := exists_trim_decomp invalidPair ps hex
    refine ⟨A, mid, B, f, l, e, hA, hB, hf, hl, hfv, hlv, ?_⟩
    subst e
    obtain ⟨h1, h2⟩ := scan_decomp
      (fun i : Int => isNaN (idx (interleave (A ++ mid ++ B)) i) ||
        isNaN (idx (interleave (A ++ mid ++ B)) (i + 1)))
      invalidPair A mid B f l (fun k => invalid_at_even _ k) hA hB hf hl hfv hlv
      (2 * (A ++ mid ++ B).length + 1) (by omega)
    unfold trimLinePositions
    simp only [interleave_length, Nat.cast_mul, Nat.cast_ofNat] at h1 h2 ⊢
    rw [h1]
    simp only [Option.bind_eq_bind, Option.some_bind]
    rw [h2]
    simp only [Option.some_bind, Option.pure_def, Option.some.injEq]
    exact jsSlice_decomp A mid B

/-- Witness of **C7** on the example line buffer: the result is the run from the point (1, 2)
through the point (4, 5), the pair without `x` between them kept. -/
theorem trimLinePositions_spec_witness :
    exLine.length % 2 = 0 ∧
    (((∀ p ∈ pairs exLine, invalidPair p = true) → trimLinePositions exLine = some []) ∧
    ((∃ p ∈ pairs exLine, invalidPair p = false) →
      ∃ A mid B f l, pairs exLine = A ++ mid ++ B ∧
        (∀ p ∈ A, invalidPair p = true) ∧ (∀ p ∈ B, invalidPair p = true) ∧
        mid.head? = some f ∧ mid.getLast? = some l ∧
        invalidPair f = false ∧ invalidPair l = false ∧
        trimLinePositions exLine = some (interleave mid))) ∧
    trimLinePositions exLine = some [.num 1, .num 2, .nan, .num 3, .num 4, .num 5] :=
  ⟨by decide, trimLinePositions_spec exLine (by decide), by decide⟩

/-- **C8.** For an even-length source buffer with at least one pair with defined `y`, the
buffer is `A ++ mid ++ B` with no `y` defined in `A` and in `B`, `mid` starting with the pair
`f` and ending with the pair `l`, both with defined `y`, and the `'tozeroy'` polygon is
`(f.x, 0)` when `f.y` is not 0, then `mid`, then `(l.x, 0)` when `l.y` is not 0; its first and
its last vertex have `y = 0`. On `[(1,2),(2,3),(3,0)]` it is `[(1,0),(1,2),(2,3),(3,0)]`. -/
theorem fillTozeroy_spec {α : Type} [DecidableEq α] [Zero α] (srcPos : List (JSVal α))
    (heven : srcPos.length % 2 = 0)
    (hex : ∃ p ∈ pairs srcPos, undefinedY p = false) :
    (∃ A mid B f l poly, pairs srcPos = A ++ mid ++ B ∧
      (∀ p ∈ A, undefinedY p = true) ∧ (∀ p ∈ B, undefinedY p = true) ∧
      mid.head? = some f ∧ mid.getLast? = some l ∧
      undefinedY f = false ∧ undefinedY l = false ∧
      poly = (if f.2 ≠ .num 0 then [(f.1, JSVal.num 0)] else []) ++ mid ++
              (if l.2 ≠ .num 0 then [(l.1, JSVal.num 0)] else []) ∧
      fillTozeroy srcPos = some (interleave poly) ∧
      poly.head?.map (·.2) = some (.num 0) ∧ poly.getLast?.map (·.2) = some (.num 0)) ∧
    fillTozeroy exRun =
      some [.num 1, .num 0, .num 1, .num 2, .num 2, .num 3, .num 3, .num 0] := by
  refine ⟨?_, by decide⟩
  have hsrc := interleave_pairs srcPos heven
  generalize pairs srcPos = ps at hsrc hex
  subst hsrc
  obtain ⟨A, mid, B, f, l, e, hA, hB, hf, hl, hfv, hlv⟩ := exists_trim_decomp undefinedY ps hex
  refine ⟨A, mid, B, f, l, _, e, hA, hB, hf, hl, hfv, hlv, rfl, ?_, ?_, ?_⟩
  · subst e
    exact fillTozeroy_decomp A mid B f l hA hB hf hl hfv hlv
  · obtain ⟨t, ht⟩ := List.head?_eq_some_iff.mp hf
    by_cases c1 : f.2 = .num 0
    · simp [c1, ht]
    · simp [c1]
  · obtain ⟨i, hi⟩ := List.getLast?_eq_some_iff.mp hl
    by_cases c2 : l.2 = .num 0
    · simp [c2, hi]
    · simp [c2]

/-- Witness of **C8** on the buffer of the run `[(1,2),(2,3),(3,0)]`. -/
theorem fillTozeroy_spec_witness :
    (exRun.length % 2 = 0 ∧ ∃ p ∈ pairs exRun, undefinedY p = false) ∧
    ((∃ A mid B f l poly, pairs exRun = A ++ mid ++ B ∧
      (∀ p ∈ A, undefinedY p = true) ∧ (∀ p ∈ B, undefinedY p = true) ∧
      mid.head? = some f ∧ mid.getLast? = some l ∧
      undefinedY f = false ∧ undefinedY l = false ∧
      poly = (if f.2 ≠ .num 0 then [(f.1, JSVal.num 0)] else []) ++ mid ++
              (if l.2 ≠ .num 0 then [(l.1, JSVal.num 0)] else []) ∧
      fillTozeroy exRun = some (interleave poly) ∧
      poly.head?.map (·.2) = some (.num 0) ∧ poly.getLast?.map (·.2) = some (.num 0)) ∧
    fillTozeroy exRun =
      some [.num 1, .num 0, .num 1, .num 2, .num 2, .num 3, .num 3, .num 0]) :=
  ⟨⟨by decide, ⟨(.num 1, .num 2), by decide, by decide⟩⟩,
    fillTozeroy_spec exRun (by decide) ⟨(.num 1, .num 2), by decide, by decide⟩⟩

/-- **C9.** For every even-length source buffer the `'tozerox'` polygon is the `'tozeroy'`
polygon of the buffer with `x` and `y` exchanged, with `x` and `y` exchanged back; both are
always computed. -/
theorem fillTozerox_mirror {α : Type} [DecidableEq α] [Zero α] (srcPos : List (JSVal α))
    (heven : srcPos.length % 2 = 0) :
    fillTozerox srcPos = (fillTozeroy (swapXY srcPos)).map swapXY ∧
    (fillTozerox srcPos).isSome = true := by
  have hsrc := interleave_pairs srcPos heven
  generalize pairs srcPos = ps at hsrc
  subst hsrc
  rw [swapXY_interleave]
  by_cases hall : ∀ p ∈ ps, undefinedX p = true
  · have hall2 : ∀ p ∈ ps.map Prod.swap, undefinedY p = true := by
      intro p hp
      obtain ⟨q, hq, rfl⟩ := List.mem_map.mp hp
      exact hall q hq
    rw [fillTozerox_allbad ps hall, fillTozeroy_allbad _ hall2, pairAt_map_swap]
    simp [swapXY]
  · have hex : ∃ p ∈ ps, undefinedX p = false := by
      by_contra hne
      apply hall
      intro p hp
      cases hb : undefinedX p with
      | true => rfl
      | false => exact absurd ⟨p, hp, hb⟩ hne
    obtain ⟨A, mid, B, f, l, e, hA, hB, hf, hl, hfv, hlv⟩ := exists_trim_decomp undefinedX ps hex
    subst e
    have hA2 : ∀ p ∈ A.map Prod.swap, undefinedY p = true := by
      intro p hp
      obtain ⟨q, hq, rfl⟩ := List.mem_map.mp hp
      exact hA q hq
    have hB2 : ∀ p ∈ B.map Prod.swap, undefinedY p = true := by
      intro p hp
      obtain ⟨q, hq, rfl⟩ := List.mem_map.mp hp
      exact hB q hq
    have hf2 : (mid.map Prod.swap).head? = some f.swap := by simp [hf]
    have hl2 : (mid.map Prod.swap).getLast? = some l.swap := by simp [hl]
    rw [fillTozerox_decomp A mid B f l hA hB hf hl hfv hlv]
    rw [List.map_append, List.map_append,
      fillTozeroy_decomp (A.map Prod.swap) (mid.map Prod.swap) (B.map Prod.swap) f.swap l.swap
        hA2 hB2 hf2 hl2 hfv hlv]
    refine ⟨?_, rfl⟩
    simp only [Option.map_some', Option.some.injEq, swapXY_interleave, List.map_append,
      Prod.fst_swap, Prod.snd_swap, List.map_map, Prod.swap_swap_eq, List.map_id]
    by_cases c1 : f.1 = .num 0 <;> by_cases c2 : l.1 = .num 0 <;> simp [c1, c2]

/-- Witness of **C9** on the example line buffer, with both polygons evaluated. -/
theorem fillTozerox_mirror_witness :
    exLine.length % 2 = 0 ∧
    (fillTozerox exLine = (fillTozeroy (swapXY exLine)).map swapXY ∧
      (fillTozerox exLine).isSome = true) ∧
    fillTozerox exLine =
      some [.num 0, .num 2, .num 1, .num 2, .nan, .num 3, .num 4, .num 5, .num 6, .nan,
        .num 0, .nan] :=
  ⟨by decide, fillTozerox_mirror exLine (by decide), by decide⟩

/-- Counterexample to **C10** as stated: a buffer that is one run without invalid pair comes
back unchanged, without the copy of its first vertex `(1, 2)`; and a buffer that starts with
an invalid pair gives a polygon that contains that invalid pair. -/
theorem fillToself_single_run_not_closed :
    fillToself exRun = exRun ∧
    fillToself exRun ≠ exRun ++ [.num 1, .num 2] ∧
    fillToself ([.nan, .nan, .num 2, .num 2] : List (JSVal Int)) =
      [.nan, .nan, .num 2, .num 2, .num 2, .num 2] := by
  decide

/-- **C10, amended.** For an even-length source buffer: when no pair is invalid the
`'toself'` / `'tonext'` polygon is the buffer itself (the single run is not closed); when some
pair is invalid and every maximal run of valid pairs is non-empty (no invalid pair at the
start, at the end or next to another one), the polygon is every maximal run in order, each
one followed by a copy of its first vertex, and contains no invalid pair. -/
theorem fillToself_runs {α : Type} (srcPos : List (JSVal α))
    (heven : srcPos.length % 2 = 0) :
    ((∀ p ∈ pairs srcPos, invalidPair p = false) → fillToself srcPos = srcPos) ∧
    ((∃ p ∈ pairs srcPos, invalidPair p = true) →
      (∀ r ∈ (pairs srcPos).splitOnP invalidPair, r ≠ []) →
      fillToself srcPos =
        interleave (((pairs srcPos).splitOnP invalidPair).flatMap (fun r => r ++ r.take 1)) ∧
      ∀ p ∈ pairs (fillToself srcPos), invalidPair p = false) := by
  have hsrc := interleave_pairs srcPos heven
  generalize pairs srcPos = ps at hsrc
  subst hsrc
  constructor
  · intro hall
    cases ps with
    | nil => simp [fillToself, interleave, toselfFinish, jsSlice]
    | cons q qs =>
      have hsingle : (q :: qs).splitOnP invalidPair = [q :: qs] :=
        List.splitOnP_eq_single invalidPair _ (by
          intro p hp
          rw [hall p hp]
          simp)
      rw [fillToself_closed_form (q :: qs) (by rw [hsingle]; simp), if_pos hall]
  · rintro ⟨p, hp, hpi⟩ hruns
    have hnot : ¬ ∀ p ∈ ps, invalidPair p = false := by
      intro hall
      rw [hall p hp] at hpi
      exact absurd hpi (by simp)
    have hform := fillToself_closed_form ps hruns
    rw [if_neg hnot] at hform
    refine ⟨hform, ?_⟩
    rw [hform, pairs_interleave]
    intro v hv
    obtain ⟨r, hr, hvr⟩ := List.mem_flatMap.mp hv
    have hvalid := splitOnP_run_valid invalidPair ps r hr
    rcases List.mem_append.mp hvr with h | h
    · exact hvalid v h
    · exact hvalid v (List.mem_of_mem_take h)

/-- Witness of the amended **C10**: a buffer of two runs separated by one invalid pair. -/
theorem fillToself_runs_witness :
    ([.num 1, .num 1, .num 2, .num 2, .nan, .nan, .num 3, .num 3] : List (JSVal Int)).length % 2
      = 0 ∧
    (((∀ p ∈ pairs ([.num 1, .num 1, .num 2, .num 2, .nan, .nan, .num 3, .num 3] :
          List (JSVal Int)), invalidPair p = false) →
      fillToself ([.num 1, .num 1, .num 2, .num 2, .nan, .nan, .num 3, .num 3] :
          List (JSVal Int)) = [.num 1, .num 1, .num 2, .num 2, .nan, .nan, .num 3, .num 3]) ∧
    ((∃ p ∈ pairs ([.num 1, .num 1, .num 2, .num 2, .nan, .nan, .num 3, .num 3] :
          List (JSVal Int)), invalidPair p = true) →
      (∀ r ∈ (pairs ([.num 1, .num 1, .num 2, .num 2, .nan, .nan, .num 3, .num 3] :
          List (JSVal Int))).splitOnP invalidPair, r ≠ []) →
      fillToself ([.num 1, .num 1, .num 2, .num 2, .nan, .nan, .num 3, .num 3] :
          List (JSVal Int)) =
        interleave (((pairs ([.num 1, .num 1, .num 2, .num 2, .nan, .nan, .num 3, .num 3] :
          List (JSVal Int))).splitOnP invalidPair).flatMap (fun r => r ++ r.take 1)) ∧
      ∀ p ∈ pairs (fillToself ([.num 1, .num 1, .num 2, .num 2, .nan, .nan, .num 3, .num 3] :
          List (JSVal Int))), invalidPair p = false)) ∧
    fillToself ([.num 1, .num 1, .num 2, .num 2, .nan, .nan, .num 3, .num 3] :
        List (JSVal Int)) =
      [.num 1, .num 1, .num 2, .num 2, .num 1, .num 1, .num 3, .num 3, .num 3, .num 3] :=
  ⟨by decide,
    fillToself_runs ([.num 1, .num 1, .num 2, .num 2, .nan, .nan, .num 3, .num 3] :
      List (JSVal Int)) (by decide),
    by decide⟩


/-! ## Fill construction across traces: lemmas -/

theorem pairs_length {β : Type} (l : List β) : (pairs l).length = l.length / 2 := by
  induction l using pairs.induct with
  | case1 a b rest ih =>
    simp only [pairs, List.length_cons, ih]
    omega
  | case2 l hl =>
    match l, hl with
    | [], _ => simp [pairs]
    | [a], _ => simp [pairs]
    | a :: b :: rest, hl => exact absurd rfl (hl a b rest)

theorem pairs_prefix {β : Type} (l : List β) :
    ∃ rest, l = interleave (pairs l) ++ rest ∧ rest.length ≤ 1 := by
  induction l using pairs.induct with
  | case1 a b rest ih =>
    obtain ⟨r, hr, hlen⟩ := ih
    refine ⟨r, ?_, hlen⟩
    simp only [pairs, interleave, List.cons_append]
    rw [← hr]
  | case2 l hl =>
    match l, hl with
    | [], _ => exact ⟨[], rfl, by simp⟩
    | [a], _ => exact ⟨[a], rfl, by simp⟩
    | a :: b :: rest, hl => exact absurd rfl (hl a b rest)

theorem idx_append_left {α : Type} (A B : List (JSVal α)) (i : Nat) (h : i < A.length) :
    idx (A ++ B) (i : Int) = idx A (i : Int) := by
  unfold idx
  simp only [Int.natCast_nonneg, if_true, Int.toNat_ofNat, List.getD_eq_getElem?_getD]
  rw [List.getElem?_append_left h]

theorem idx_pairs {α : Type} (l : List (JSVal α)) (i : Nat) (h : i < l.length / 2) :
    idx l (((i * 2 : Nat) : Int)) = (pairAt (pairs l) (i : Int)).1 ∧
    idx l (((i * 2 + 1 : Nat) : Int)) = (pairAt (pairs l) (i : Int)).2 := by
  obtain ⟨rest, hr, _⟩ := pairs_prefix l
  have hlen : (interleave (pairs l)).length = 2 * (l.length / 2) := by
    rw [interleave_length, pairs_length]
  have h1 := idx_append_left (interleave (pairs l)) rest (i * 2) (by omega)
  have h2 := idx_append_left (interleave (pairs l)) rest (i * 2 + 1) (by omega)
  rw [← hr] at h1 h2
  rw [h1, h2]
  have e1 : ((i * 2 : Nat) : Int) = 2 * (i : Int) := by push_cast; ring
  have e2 : ((i * 2 + 1 : Nat) : Int) = 2 * (i : Int) + 1 := by push_cast; ring
  rw [e1, e2, idx_interleave_even, idx_interleave_odd]
  exact ⟨rfl, rfl⟩

theorem pairAt_eq_getElem {α : Type} (ps : List (JSVal α × JSVal α)) (i : Nat)
    (h : i < ps.length) : pairAt ps (i : Int) = ps[i] := by
  unfold pairAt
  simp only [Int.natCast_nonneg, if_true, Int.toNat_ofNat, List.getD_eq_getElem?_getD]
  rw [List.getElem?_eq_getElem h]
  rfl

theorem pushNext_fold {α : Type} (nextPos : List (JSVal α)) (k : Nat)
    (hk : k ≤ nextPos.length / 2) (pos : List (JSVal α)) :
    (List.range k).reverse.foldl (pushNextStep nextPos) pos =
      pos ++ interleave ((((pairs nextPos).take k).filter
        (fun p => !invalidPair p)).reverse) := by
  induction k generalizing pos with
  | zero => simp [interleave]
  | succ k ih =>
    have hlt : k < (pairs nextPos).length := by rw [pairs_length]; omega
    obtain ⟨h1, h2⟩ := idx_pairs nextPos k (by omega)
    rw [List.range_succ, List.reverse_append, List.reverse_singleton, List.singleton_append,
      List.foldl_cons, ih (by omega)]
    rw [List.take_succ, List.getElem?_eq_getElem hlt]
    simp only [Option.toList_some, List.filter_append, List.reverse_append]
    unfold pushNextStep
    simp only [h1, h2, pairAt_eq_getElem _ k hlt]
    cases hv : invalidPair (pairs nextPos)[k] with
    | true =>
      have hv2 : (isNaN (pairs nextPos)[k].1 || isNaN (pairs nextPos)[k].2) = true := hv
      simp [hv2, hv]
    | false =>
      have hv2 : (isNaN (pairs nextPos)[k].1 || isNaN (pairs nextPos)[k].2) = false := hv
      simp [hv2, hv, interleave_append, interleave]

theorem pushNextReversed_eq {α : Type} (nextPos pos : List (JSVal α)) :
    pushNextReversed nextPos pos =
      pos ++ interleave (((pairs nextPos).filter (fun p => !invalidPair p)).reverse) := by
  unfold pushNextReversed
  rw [pushNext_fold nextPos _ (Nat.le_refl _) pos]
  rw [List.take_of_length_le (by rw [pairs_length])]

theorem pairs_append_interleave {β : Type} (ps qs : List (β × β)) :
    pairs (interleave ps ++ interleave qs) = ps ++ qs := by
  rw [← interleave_append, pairs_interleave]

/-! ## Fill construction across traces: the claims -/

/-- Counterexample to **C11** as stated: the current trace has the points (1, 1), an invalid
pair and (2, 2), the next trace (3, 3), an invalid pair and (4, 4). The `'tonexty'` polygon
keeps the invalid pair of the current trace; only the one of the next trace is dropped. -/
theorem buildFill_tonexty_keeps_invalid :
    ((buildFill exLineOpts [⟨exTonextyTrace, exStashGap⟩] (some exFillOpts) 0).bind
        (fun r => r.1)).bind (fun f => f.positions) =
      some [.num 1, .num 1, .nan, .nan, .num 2, .num 2, .num 4, .num 4, .num 3, .num 3] ∧
    (JSVal.nan, JSVal.nan) ∈ pairs ([.num 1, .num 1, .nan, .nan, .num 2, .num 2, .num 4,
      .num 4, .num 3, .num 3] : List (JSVal Int)) := by
  decide

/-- **C11, amended.** For a trace with fill `'tonexty'`, a next trace whose line options
exist and have positions, and no previous trace of fill `'tonext'`, the fill construction
completes; the polygon is the whole source buffer of the current trace, unchanged, followed
by the valid pairs of the next trace in reverse order, and `fillOptions.fill` is the next
trace's colour. When the source buffer has no invalid pair, the polygon has none. -/
theorem buildFill_tonexty {α O : Type} [DecidableEq α] [Zero α]
    (lineOptions : List (Option (LineOpts α O))) (cdata : List (CdItem α O))
    (f : FillOpts α O) (i : Nat) (cd : CdItem α O) (c : O) (nextOptions : LineOpts α O)
    (nextPos : List (JSVal α))
    (hcd : cdata[i]? = some cd) (hfill : cd.trace.fill = Fill.tonexty)
    (hnext : cd.trace._nexttrace = some c)
    (hopt : jsGet lineOptions (i + 1) = some nextOptions)
    (hpos : nextOptions.positions = some nextPos)
    (hprev : cd.trace._prevtrace ≠ some Fill.tonext) :
    ∃ srcPos poly,
      srcPos = ((jsGet lineOptions i).bind (fun l => l.positions)).getD cd.t.positions ∧
      poly = srcPos ++
        interleave (((pairs nextPos).filter (fun p => !invalidPair p)).reverse) ∧
      buildFill lineOptions cdata (some f) i =
        some (some { f with fill := c, fillmode := some Fill.tonexty,
                            opacity := some cd.trace.opacity, positions := some poly },
              if fillData cd.trace i ≠ [] then some (fillData cd.trace i) else none) ∧
      (srcPos.length % 2 = 0 → (∀ p ∈ pairs srcPos, invalidPair p = false) →
        ∀ p ∈ pairs poly, invalidPair p = false) := by
  refine ⟨_, _, rfl, rfl, ?_, ?_⟩
  · unfold buildFill
    simp only [hcd, fillOwnPositions, hfill, fillNextBranch, hnext, hopt, hpos, if_true,
      Option.some_bind, fillPrevHole, hprev, if_false, pushNextReversed_eq]
  · intro heven hvalid p hp
    have hsrc := interleave_pairs _ heven
    rw [← hsrc, pairs_append_interleave] at hp
    rcases List.mem_append.mp hp with h | h
    · exact hvalid p h
    · have := (List.mem_filter.mp (List.mem_reverse.mp h)).2
      simpa using this

/-- Witness of the amended **C11** on the example of two traces. -/
theorem buildFill_tonexty_witness :
    (([⟨exTonextyTrace, exStashGap⟩] : List (CdItem Int String))[0]? =
        some ⟨exTonextyTrace, exStashGap⟩ ∧
      exTonextyTrace.fill = Fill.tonexty ∧ exTonextyTrace._nexttrace = some "green" ∧
      jsGet exLineOpts (0 + 1) =
        some ⟨some [.num 3, .num 3, .nan, .nan, .num 4, .num 4], "line1"⟩ ∧
      exTonextyTrace._prevtrace ≠ some Fill.tonext) ∧
    ∃ srcPos poly,
      srcPos = ((jsGet exLineOpts 0).bind (fun l => l.positions)).getD exStashGap.positions ∧
      poly = srcPos ++
        interleave (((pairs ([.num 3, .num 3, .nan, .nan, .num 4, .num 4] :
          List (JSVal Int))).filter (fun p => !invalidPair p)).reverse) ∧
      buildFill exLineOpts [⟨exTonextyTrace, exStashGap⟩] (some exFillOpts) 0 =
        some (some { exFillOpts with
                      fill := "green", fillmode := some Fill.tonexty,
                      opacity := some exTonextyTrace.opacity, positions := some poly },
              if fillData exTonextyTrace 0 ≠ [] then some (fillData exTonextyTrace 0)
              else none) ∧
      (srcPos.length % 2 = 0 → (∀ p ∈ pairs srcPos, invalidPair p = false) →
        ∀ p ∈ pairs poly, invalidPair p = false) :=
  ⟨⟨rfl, rfl, rfl, rfl, by decide⟩,
    buildFill_tonexty exLineOpts [⟨exTonextyTrace, exStashGap⟩] exFillOpts 0
      ⟨exTonextyTrace, exStashGap⟩ "green"
      ⟨some [.num 3, .num 3, .nan, .nan, .num 4, .num 4], "line1"⟩
      [.num 3, .num 3, .nan, .nan, .num 4, .num 4] rfl rfl rfl rfl rfl (by decide)⟩

/-- The guarded next-trace branch: for a trace with an adjacent-trace fill (`'tonexty'` or
`'tonextx'`) that has a next trace while `scene.lineOptions[i + 1]` does not exist, the
branch completes with an empty `pos`, the fill colour and `i` untouched. The whole fill
construction then completes when the previous-trace step does not apply, with empty
positions, and when it applies to existing previous line positions, with exactly those
positions; in both cases `fillOptions.fill` keeps its value. With a previous trace of fill
`'tonext'` and no previous line options the construction throws. -/
theorem buildFill_next_missing {α O : Type} [DecidableEq α] [Zero α]
    (lineOptions : List (Option (LineOpts α O))) (cdata : List (CdItem α O))
    (f : FillOpts α O) (i : Nat) (cd : CdItem α O) (c : O)
    (hcd : cdata[i]? = some cd)
    (hfill : cd.trace.fill = Fill.tonexty ∨ cd.trace.fill = Fill.tonextx)
    (hnext : cd.trace._nexttrace = some c)
    (hopt : jsGet lineOptions (i + 1) = none) :
    (∀ srcPos : List (JSVal α),
      fillNextBranch lineOptions cd.trace srcPos f.fill i = some ([], f.fill, (i : Int))) ∧
    (cd.trace._prevtrace ≠ some Fill.tonext →
      buildFill lineOptions cdata (some f) i =
        some (some { f with fillmode := some cd.trace.fill,
                            opacity := some cd.trace.opacity, positions := some [] },
              some (fillData cd.trace i))) ∧
    (∀ (prevOptions : LineOpts α O) (prevLinePos : List (JSVal α)),
      cd.trace._prevtrace = some Fill.tonext → 0 < i →
      jsGet lineOptions (i - 1) = some prevOptions →
      prevOptions.positions = some prevLinePos →
      buildFill lineOptions cdata (some f) i =
        some (some { f with hole := some (prevHoles prevLinePos 0),
                            fillmode := some cd.trace.fill,
                            opacity := some cd.trace.opacity,
                            positions := some prevLinePos },
              some (fillData cd.trace i))) := by
  have hbranch : ∀ srcPos : List (JSVal α),
      fillNextBranch lineOptions cd.trace srcPos f.fill i = some ([], f.fill, (i : Int)) := by
    intro srcPos
    simp [fillNextBranch, hnext, hopt]
  have hown : ∀ srcPos : List (JSVal α),
      fillOwnPositions lineOptions cd.trace srcPos f.fill i = some ([], f.fill, (i : Int)) := by
    intro srcPos
    rcases hfill with h | h <;> simp [fillOwnPositions, h, hbranch]
  have hdata : fillData cd.trace i ≠ [] := by
    simp [fillData, hnext]
  refine ⟨hbranch, ?_, ?_⟩
  · intro hprev
    unfold buildFill
    simp only [hcd, hown, Option.some_bind, fillPrevHole, hprev, if_false, hdata, ne_eq,
      not_false_eq_true, if_true]
  · intro prevOptions prevLinePos hprev hi hpo hpp
    have hidx : (0 : Int) ≤ (i : Int) - 1 := by omega
    have htn : ((i : Int) - 1).toNat = i - 1 := by omega
    unfold buildFill
    simp only [hcd, hown, Option.some_bind, fillPrevHole, hprev, if_true, hidx, htn, hpo, hpp,
      hdata, ne_eq, not_false_eq_true, List.nil_append, List.length_nil, Nat.cast_zero,
      zero_div]

/-- **C12.** Evaluation of the fill construction at three traces without line options, with
the fills `'tonext'`, `'tonexty'`, `'tonexty'`. For the middle trace (`i = 1`)
`scene.lineOptions[2]` does not exist: the guarded next-trace branch completes with no vertex
of the next trace, the fill colour and `i` untouched. The previous-trace step has no such
guard: it reads `scene.lineOptions[0].positions` on the missing slot and throws, so the fill
of the trace and the whole `map` throw. When the previous line options exist, the same trace
gets the previous positions and keeps its fill colour. -/
theorem buildFill_next_missing_prev_throws :
    exCdata3[1]?.map (fun cd => cd.trace.fill) = some Fill.tonexty ∧
    exCdata3[1]?.map (fun cd => cd.trace._nexttrace) = some (some "c2") ∧
    exCdata3[1]?.map (fun cd => cd.trace._prevtrace) = some (some Fill.tonext) ∧
    jsGet exNoLines3 (1 + 1) = none ∧
    jsGet exNoLines3 (1 - 1) = none ∧
    fillNextBranch exNoLines3 exMiddleTrace ([.num 1, .num 1] : List (JSVal Int)) "red" 1 =
      some ([], "red", 1) ∧
    (buildFill exNoLines3 exCdata3 (some exFillOpts) 1).isSome = false ∧
    (buildFillsFrom exNoLines3 exCdata3 0 [some exFillOpts, some exFillOpts, some exFillOpts]
        (List.replicate 3 none)).isSome = false ∧
    jsGet exFirstLineOnly (1 + 1) = none ∧
    ((buildFill exFirstLineOnly exCdata3 (some exFillOpts) 1).bind
        (fun r => r.1)).bind (fun f => f.positions) = some [.num 0, .num 0] ∧
    ((buildFill exFirstLineOnly exCdata3 (some exFillOpts) 1).bind
        (fun r => r.1)).map (fun f => f.fill) = some "red" := by
  decide

/-- **C13, the code at two failing inputs.** (1) Three traces with the fills `'tonext'`,
`'tonexty'`, `'tonexty'` and line positions for all: for the middle trace the loop over the
next positions leaves `i = -1`, so the previous-trace step reads
`scene.lineOptions[-2].positions` and throws, and the whole `map` throws. (2) A `'tonexty'`
trace whose next trace has line options without positions: reading `nextPos.length`
throws. -/
theorem buildFill_throws :
    (fillOwnPositions exLineOpts3 exMiddleTrace
        ([.num 1, .num 1] : List (JSVal Int)) "red" 1).map (fun r => r.2.2) = some (-1) ∧
    (buildFill exLineOpts3 exCdata3 (some exFillOpts) 1).isSome = false ∧
    (buildFillsFrom exLineOpts3 exCdata3 0 [some exFillOpts, some exFillOpts, some exFillOpts]
        (List.replicate 3 none)).isSome = false ∧
    (buildFill exLineOptsNoPos [⟨exTonextyTrace, exStashGap⟩] (some exFillOpts) 0).isSome
      = false := by
  decide


/-! ## The scene and its lifecycle: lemmas and claims -/

theorem identityIds_fold (len k : Nat) (hk : k ≤ len) :
    (List.range k).foldl (fun ids i => jsSet ids i (some i)) (List.replicate len none) =
      (List.range k).map some ++ List.replicate (len - k) none := by
  induction k with
  | zero => simp
  | succ k ih =>
    rw [List.range_succ, List.foldl_append, ih (by omega)]
    simp only [List.foldl_cons, List.foldl_nil, List.map_append, List.map_cons, List.map_nil]
    unfold jsSet
    have hlt : k < ((List.range k).map some ++
        List.replicate (len - k) (none : Option Nat)).length := by
      simp; omega
    rw [if_pos hlt]
    have hrep : List.replicate (len - k) (none : Option Nat) =
        none :: List.replicate (len - (k + 1)) none := by
      have : len - k = (len - (k + 1)) + 1 := by omega
      rw [this, List.replicate_succ]
    rw [hrep, List.set_append_right _ _ (by simp)]
    simp

/-- **C14.** The stash that `calc` returns carries the spatial index `cluster(positions)` and
no `ids` exactly when the trace has at least `TOO_MANY_POINTS` points and neither axis is
logarithmic; in every other case it carries no tree and `ids = [0, 1, ..., n - 1]`. -/
theorem calc_index {α O T : Type} (TOO_MANY_POINTS : Nat) (cluster : List (JSVal α) → T)
    (xc2l yc2l : JSVal α → JSVal α) (inp : CalcInput α O) (scene : Option (SceneState α O)) :
    ((calcTrace TOO_MANY_POINTS cluster xc2l yc2l inp scene).2.tree.isSome = true ↔
      (TOO_MANY_POINTS ≤ inp._length ∧ inp.xLog = false ∧ inp.yLog = false)) ∧
    ((TOO_MANY_POINTS ≤ inp._length ∧ inp.xLog = false ∧ inp.yLog = false) →
      (calcTrace TOO_MANY_POINTS cluster xc2l yc2l inp scene).2.tree =
        some (cluster (calcPositions xc2l yc2l inp)) ∧
      (calcTrace TOO_MANY_POINTS cluster xc2l yc2l inp scene).2.ids = none) ∧
    (¬ (TOO_MANY_POINTS ≤ inp._length ∧ inp.xLog = false ∧ inp.yLog = false) →
      (calcTrace TOO_MANY_POINTS cluster xc2l yc2l inp scene).2.tree = none ∧
      (calcTrace TOO_MANY_POINTS cluster xc2l yc2l inp scene).2.ids =
        some ((List.range inp._length).map some)) := by
  have hids : (List.range inp._length).foldl (fun ids i => jsSet ids i (some i))
      (List.replicate inp._length none) = (List.range inp._length).map some := by
    rw [identityIds_fold inp._length inp._length (Nat.le_refl _)]
    simp
  by_cases hc : TOO_MANY_POINTS ≤ inp._length ∧ inp.xLog = false ∧ inp.yLog = false
  · obtain ⟨h1, h2, h3⟩ := hc
    simp [calcTrace, calcIndex, h1, h2, h3]
  · have hcond : (decide (inp._length ≥ TOO_MANY_POINTS) && (!inp.xLog && !inp.yLog)) = false := by
      by_contra hne
      simp only [Bool.not_eq_false, Bool.and_eq_true, decide_eq_true_eq,
        Bool.not_eq_true'] at hne
      exact hc ⟨hne.1, hne.2.1, hne.2.2⟩
    simp [calcTrace, calcIndex, hcond, hc, hids]

/-- Evaluation of **C14** on the example trace of two points and on the same trace with
threshold 2 and with a logarithmic axis. -/
theorem calc_index_witness :
    (calcTrace 100000 (fun _ => ()) id id exCalcInput none).2.ids = some [some 0, some 1] ∧
    (calcTrace 2 (fun _ => ()) id id exCalcInput none).2.tree = some () ∧
    (calcTrace 2 (fun _ => ()) id id { exCalcInput with xLog := true } none).2.ids =
      some [some 0, some 1] :=
  ⟨((calc_index 100000 (fun _ => ()) id id exCalcInput none).2.2 (by decide)).2,
    ((calc_index 2 (fun _ => ()) id id exCalcInput none).2.1 (by decide)).1,
    ((calc_index 2 (fun _ => ()) id id { exCalcInput with xLog := true } none).2.2
      (by decide)).2⟩

/-- **C16.** On an existing clean scene `sceneUpdate` sets `count` to 0 and `dirty` to true
and replaces each of the ten arrays by an empty array, leaving the renderer fields, the
batches and `fillOrder` as they are; on an existing dirty scene it changes nothing. -/
theorem sceneUpdate_existing {α O : Type} (scene : SceneState α O) :
    (scene.dirty = false →
      (sceneUpdate (some scene)).count = 0 ∧ (sceneUpdate (some scene)).dirty = true ∧
      (sceneUpdate (some scene)).lineOptions = [] ∧
      (sceneUpdate (some scene)).fillOptions = [] ∧
      (sceneUpdate (some scene)).markerOptions = [] ∧
      (sceneUpdate (some scene)).markerSelectedOptions = [] ∧
      (sceneUpdate (some scene)).markerUnselectedOptions = [] ∧
      (sceneUpdate (some scene)).errorXOptions = [] ∧
      (sceneUpdate (some scene)).errorYOptions = [] ∧
      (sceneUpdate (some scene)).textOptions = [] ∧
      (sceneUpdate (some scene)).textSelectedOptions = [] ∧
      (sceneUpdate (some scene)).textUnselectedOptions = [] ∧
      (sceneUpdate (some scene)).fill2d = scene.fill2d ∧
      (sceneUpdate (some scene)).scatter2d = scene.scatter2d ∧
      (sceneUpdate (some scene)).error2d = scene.error2d ∧
      (sceneUpdate (some scene)).line2d = scene.line2d ∧
      (sceneUpdate (some scene)).glText = scene.glText ∧
      (sceneUpdate (some scene)).select2d = scene.select2d ∧
      (sceneUpdate (some scene)).selectBatch = scene.selectBatch ∧
      (sceneUpdate (some scene)).unselectBatch = scene.unselectBatch ∧
      (sceneUpdate (some scene)).fillOrder = scene.fillOrder) ∧
    (scene.dirty = true → sceneUpdate (some scene) = scene) := by
  constructor
  · intro h
    simp [sceneUpdate, h, SceneState.reset, OptionArrays.empty]
  · intro h
    simp [sceneUpdate, h]

/-- Witness of **C16**: the clean example scene is reset, the dirty scene after `calc` is
kept. -/
theorem sceneUpdate_existing_witness :
    exAfterCalc.1.dirty = true ∧ sceneUpdate (some exAfterCalc.1) = exAfterCalc.1 ∧
    (exCleanScene.map (fun s => s.dirty)) = some false ∧
    (exCleanScene.map (fun s => ((sceneUpdate (some s)).count,
      (sceneUpdate (some s)).lineOptions.length, (sceneUpdate (some s)).line2d))) =
      some (0, 0, Renderer.created) :=
  ⟨by decide, (sceneUpdate_existing exAfterCalc.1).2 (by decide), by decide, by decide⟩

theorem plot_failure {α O : Type} [DecidableEq α] [Zero α] (selectMode clickSelectEnabled : Bool)
    (xc2p yc2p : JSVal α → JSVal α) (scene : SceneState α O) (cd : CdItem α O)
    (cdata : List (CdItem α O)) :
    plot false selectMode clickSelectEnabled xc2p yc2p (some scene) (cd :: cdata) =
      some (some scene.init, cd :: cdata) := by
  simp [plot]

/-- **C17.** Evaluation at a reachable state that breaks the invariant: a scene is created by
`calc` of one trace, then `plot` runs with a failing `prepareRegl` and calls `scene.init`.
Afterwards `scene.count` is 0 while each of the ten arrays still has length 1; `calc` of the
next trace then returns `stash.index = 0` while the slot it pushed is at position 1 of arrays
of length 2, with `scene.count = 1`. -/
theorem init_keeps_pushed_slots :
    plot false false false id id (some exAfterCalc.1) [exCdItem] =
      some (some exFailedScene, [exCdItem]) ∧
    exFailedScene.count = 0 ∧
    exFailedScene.lineOptions.length = 1 ∧ exFailedScene.fillOptions.length = 1 ∧
    exFailedScene.markerOptions.length = 1 ∧
    exFailedScene.markerSelectedOptions.length = 1 ∧
    exFailedScene.markerUnselectedOptions.length = 1 ∧
    exFailedScene.errorXOptions.length = 1 ∧ exFailedScene.errorYOptions.length = 1 ∧
    exFailedScene.textOptions.length = 1 ∧ exFailedScene.textSelectedOptions.length = 1 ∧
    exFailedScene.textUnselectedOptions.length = 1 ∧
    (calcTrace 100000 (fun _ => ()) id id exCalcInput (some exFailedScene)).2.t.index = 0 ∧
    (calcTrace 100000 (fun _ => ()) id id exCalcInput (some exFailedScene)).1.count = 1 ∧
    (calcTrace 100000 (fun _ => ()) id id exCalcInput
      (some exFailedScene)).1.lineOptions.length = 2 ∧
    (calcTrace 100000 (fun _ => ()) id id exCalcInput
      (some exFailedScene)).1.markerOptions.length = 2 := by
  refine ⟨plot_failure _ _ _ _ _ _ _, ?_⟩
  decide

/-- **C18.** Evaluation of `plot` with a failing `prepareRegl` on the scene that `calc` of one
trace created: `count` is 0, `dirty` is true, the batches are null and the renderer fields
false, and `cdata` is returned as it was, but the option arrays are not empty: they hold the
slot that `calc` pushed. After a successful pass, `scene.draw` and a failing `plot`,
`scene.fillOrder` keeps the value of the successful pass, while it is undefined on a new
scene. -/
theorem plot_failure_keeps_arrays :
    plot false false false id id (some exAfterCalc.1) [exCdItem] =
      some (some exAfterCalc.1.init, [exCdItem]) ∧
    exAfterCalc.1.init.count = 0 ∧ exAfterCalc.1.init.dirty = true ∧
    exAfterCalc.1.init.selectBatch = none ∧ exAfterCalc.1.init.unselectBatch = none ∧
    exAfterCalc.1.init.line2d = Renderer.off ∧ exAfterCalc.1.init.select2d = false ∧
    exAfterCalc.1.init.markerOptions = [some "marker"] ∧
    exAfterCalc.1.init.markerSelectedOptions = [some "markerSel"] ∧
    exAfterCalc.1.init.lineOptions.length = 1 ∧
    exAfterCalc.1.init.fillOptions.length = 1 ∧
    (SceneState.create : SceneState Int String).markerOptions = [] ∧
    (SceneState.create : SceneState Int String).fillOrder = none ∧
    exFailedLater.map (fun s => s.fillOrder) = some (some [some [0]]) ∧
    exFailedLater.map (fun s => s.count) = some 0 := by
  refine ⟨plot_failure _ _ _ _ _ _ _, ?_⟩
  decide


/-! ### Two passes of `calc` and `plot` -/

theorem sceneUpdate_dirty {α O : Type} (scene : Option (SceneState α O)) :
    (sceneUpdate scene).dirty = true := by
  cases scene with
  | none => rfl
  | some s =>
    cases h : s.dirty <;> simp [sceneUpdate, h, SceneState.reset]

theorem sceneUpdate_clean {α O : Type} (scene : Option (SceneState α O))
    (hclean : ∀ s, scene = some s → s.dirty = false) :
    (sceneUpdate scene).count = 0 ∧
    (sceneUpdate scene).toOptionArrays = OptionArrays.empty := by
  cases scene with
  | none => exact ⟨rfl, rfl⟩
  | some s => simp [sceneUpdate, hclean s rfl, SceneState.reset]

theorem sceneUpdate_renderers {α O : Type} (s : SceneState α O) :
    (sceneUpdate (some s)).line2d = s.line2d ∧ (sceneUpdate (some s)).fill2d = s.fill2d := by
  cases h : s.dirty <;> simp [sceneUpdate, h, SceneState.reset]

theorem truthy_request (c : Bool) (r : Renderer) :
    (if (c && !r.truthy) = true then Renderer.requested else r).truthy = (r.truthy || c) := by
  cases c <;> cases r <;> rfl

theorem truthy_create (r : Renderer) :
    (if r = Renderer.requested then Renderer.created else r).truthy = r.truthy := by
  cases r <;> rfl

theorem calcTrace_fields {α O T : Type} (TOO_MANY_POINTS : Nat) (cluster : List (JSVal α) → T)
    (xc2l yc2l : JSVal α → JSVal α) (inp : CalcInput α O) (scene : Option (SceneState α O)) :
    (calcTrace TOO_MANY_POINTS cluster xc2l yc2l inp scene).1.count =
      (sceneUpdate scene).count + 1 ∧
    (calcTrace TOO_MANY_POINTS cluster xc2l yc2l inp scene).1.toOptionArrays =
      (sceneUpdate scene).toOptionArrays.push
        (sceneOptions inp.style inp.linePositions (calcPositions xc2l yc2l inp)) ∧
    (calcTrace TOO_MANY_POINTS cluster xc2l yc2l inp scene).1.dirty = true ∧
    (calcTrace TOO_MANY_POINTS cluster xc2l yc2l inp scene).1.line2d.truthy =
      ((sceneUpdate scene).line2d.truthy ||
        (sceneOptions inp.style inp.linePositions (calcPositions xc2l yc2l inp)).line.isSome) ∧
    (calcTrace TOO_MANY_POINTS cluster xc2l yc2l inp scene).1.fill2d.truthy =
      ((sceneUpdate scene).fill2d.truthy ||
        (sceneOptions inp.style inp.linePositions (calcPositions xc2l yc2l inp)).fill.isSome) ∧
    (calcTrace TOO_MANY_POINTS cluster xc2l yc2l inp scene).2.t =
      { index := (sceneUpdate scene).count, positions := calcPositions xc2l yc2l inp,
        x := inp.x, y := inp.y, xpx := none, ypx := none } := by
  refine ⟨rfl, rfl, ?_, ?_, ?_, rfl⟩
  · exact sceneUpdate_dirty scene
  · exact truthy_request _ _
  · exact truthy_request _ _

theorem calcPass_acc {α O T : Type} (TOO_MANY_POINTS : Nat) (cluster : List (JSVal α) → T)
    (xc2l yc2l : JSVal α → JSVal α) (traces : List (CalcInput α O × PlotTrace O))
    (scene : Option (SceneState α O)) (cd : List (CdItem α O)) :
    traces.foldl
      (fun (acc : Option (SceneState α O) × List (CdItem α O)) tr =>
        (some (calcTrace TOO_MANY_POINTS cluster xc2l yc2l tr.1 acc.1).1,
          acc.2 ++ [{ trace := tr.2,
                      t := (calcTrace TOO_MANY_POINTS cluster xc2l yc2l tr.1 acc.1).2.t }]))
      (scene, cd) =
    ((calcPass TOO_MANY_POINTS cluster xc2l yc2l traces scene).1,
      cd ++ (calcPass TOO_MANY_POINTS cluster xc2l yc2l traces scene).2) := by
  induction traces generalizing scene cd with
  | nil => simp [calcPass]
  | cons tr rest ih =>
    unfold calcPass
    simp only [List.foldl_cons, List.nil_append]
    rw [ih, ih _ [_]]
    simp

theorem calcPass_cons {α O T : Type} (TOO_MANY_POINTS : Nat) (cluster : List (JSVal α) → T)
    (xc2l yc2l : JSVal α → JSVal α) (tr : CalcInput α O × PlotTrace O)
    (rest : List (CalcInput α O × PlotTrace O)) (scene : Option (SceneState α O)) :
    calcPass TOO_MANY_POINTS cluster xc2l yc2l (tr :: rest) scene =
      ((calcPass TOO_MANY_POINTS cluster xc2l yc2l rest
          (some (calcTrace TOO_MANY_POINTS cluster xc2l yc2l tr.1 scene).1)).1,
        { trace := tr.2, t := (calcTrace TOO_MANY_POINTS cluster xc2l yc2l tr.1 scene).2.t } ::
          (calcPass TOO_MANY_POINTS cluster xc2l yc2l rest
            (some (calcTrace TOO_MANY_POINTS cluster xc2l yc2l tr.1 scene).1)).2) := by
  conv_lhs => unfold calcPass
  simp only [List.foldl_cons, List.nil_append]
  rw [calcPass_acc]
  simp


theorem calcPass_sim {α O T : Type} (TOO_MANY_POINTS : Nat) (cluster : List (JSVal α) → T)
    (xc2l yc2l : JSVal α → JSVal α) (b bf : Bool)
    (traces : List (CalcInput α O × PlotTrace O)) (s s2 : SceneState α O)
    (hd : s.dirty = true) (hd2 : s2.dirty = true) (hc : s.count = s2.count)
    (ha : s.toOptionArrays = s2.toOptionArrays)
    (hl : s2.line2d.truthy = (b || s.line2d.truthy))
    (hf : s2.fill2d.truthy = (bf || s.fill2d.truthy)) :
    ∃ e e2 : SceneState α O,
      (calcPass TOO_MANY_POINTS cluster xc2l yc2l traces (some s)).1 = some e ∧
      (calcPass TOO_MANY_POINTS cluster xc2l yc2l traces (some s2)).1 = some e2 ∧
      (calcPass TOO_MANY_POINTS cluster xc2l yc2l traces (some s)).2 =
        (calcPass TOO_MANY_POINTS cluster xc2l yc2l traces (some s2)).2 ∧
      e.dirty = true ∧ e2.dirty = true ∧ e.count = e2.count ∧
      e.toOptionArrays = e2.toOptionArrays ∧
      e2.line2d.truthy = (b || e.line2d.truthy) ∧
      e2.fill2d.truthy = (bf || e.fill2d.truthy) ∧
      (s.line2d.truthy = true → e.line2d.truthy = true) ∧
      (s.fill2d.truthy = true → e.fill2d.truthy = true) := by
  induction traces generalizing s s2 with
  | nil => exact ⟨s, s2, rfl, rfl, rfl, hd, hd2, hc, ha, hl, hf, id, id⟩
  | cons tr rest ih =>
    obtain ⟨c1, a1, d1, l1, f1, t1⟩ :=
      calcTrace_fields TOO_MANY_POINTS cluster xc2l yc2l tr.1 (some s)
    obtain ⟨c2, a2, d2, l2, f2, t2⟩ :=
      calcTrace_fields TOO_MANY_POINTS cluster xc2l yc2l tr.1 (some s2)
    have hs : sceneUpdate (some s) = s := by simp [sceneUpdate, hd]
    have hs2 : sceneUpdate (some s2) = s2 := by simp [sceneUpdate, hd2]
    rw [hs] at c1 a1 l1 f1 t1
    rw [hs2] at c2 a2 l2 f2 t2
    obtain ⟨e, e2, h1, h2, hcd, r1, r2, r3, r4, r5, r6, r7, r8⟩ :=
      ih (calcTrace TOO_MANY_POINTS cluster xc2l yc2l tr.1 (some s)).1
        (calcTrace TOO_MANY_POINTS cluster xc2l yc2l tr.1 (some s2)).1 d1 d2
        (by rw [c1, c2, hc]) (by rw [a1, a2, ha])
        (by rw [l1, l2, hl, Bool.or_assoc]) (by rw [f1, f2, hf, Bool.or_assoc])
    refine ⟨e, e2, ?_, ?_, ?_, r1, r2, r3, r4, r5, r6, ?_, ?_⟩
    · rw [calcPass_cons]; exact h1
    · rw [calcPass_cons]; exact h2
    · rw [calcPass_cons, calcPass_cons]
      simp only [hcd, t1, t2, hc]
    · intro h; apply r7; rw [l1, h]; rfl
    · intro h; apply r8; rw [f1, h]; rfl

theorem plotDirty_some {α O : Type} [DecidableEq α] [Zero α] (s : SceneState α O)
    (cdata : List (CdItem α O)) (sP : SceneState α O) (h : plotDirty s cdata = some sP) :
    ∃ r, realizeArrays s.toOptionArrays s.line2d.truthy s.fill2d.truthy cdata s.count =
        some r ∧
      sP.count = s.count ∧ sP.toOptionArrays = r.1 ∧
      sP.line2d.truthy = s.line2d.truthy ∧ sP.fill2d.truthy = s.fill2d.truthy := by
  unfold plotDirty at h
  simp only [truthy_create, Option.bind_eq_some] at h
  obtain ⟨r, hr, hsP⟩ := h
  refine ⟨r, hr, ?_⟩
  simp only [Option.some.injEq] at hsP
  subst hsP
  exact ⟨rfl, rfl, truthy_create _, truthy_create _⟩

theorem plotDirty_of_realize {α O : Type} [DecidableEq α] [Zero α] (s : SceneState α O)
    (cdata : List (CdItem α O)) (r : OptionArrays α O × List (Option (List Nat)))
    (h : realizeArrays s.toOptionArrays s.line2d.truthy s.fill2d.truthy cdata s.count =
      some r) :
    ∃ sP, plotDirty s cdata = some sP ∧ sP.count = s.count ∧ sP.toOptionArrays = r.1 := by
  unfold plotDirty
  simp only [truthy_create, h, Option.some_bind]
  exact ⟨_, rfl, rfl, rfl⟩

theorem plot_dirty_scene {α O : Type} [DecidableEq α] [Zero α]
    (selectMode clickSelectEnabled : Bool) (xc2p yc2p : JSVal α → JSVal α)
    (s : SceneState α O) (cd : CdItem α O) (cdata : List (CdItem α O))
    (hd : s.dirty = true) :
    plot true selectMode clickSelectEnabled xc2p yc2p (some s) (cd :: cdata) =
      (plotDirty s (cd :: cdata)).bind fun sP =>
        some (some { sP with
                selectBatch := ((cd :: cdata).foldl
                  (plotBatchStep clickSelectEnabled xc2p yc2p)
                  { selectBatch := none, unselectBatch := none, selectMode := selectMode,
                    cdata := [] }).selectBatch,
                unselectBatch := ((cd :: cdata).foldl
                  (plotBatchStep clickSelectEnabled xc2p yc2p)
                  { selectBatch := none, unselectBatch := none, selectMode := selectMode,
                    cdata := [] }).unselectBatch,
                select2d := if ((cd :: cdata).foldl
                  (plotBatchStep clickSelectEnabled xc2p yc2p)
                  { selectBatch := none, unselectBatch := none, selectMode := selectMode,
                    cdata := [] }).selectMode then true else sP.select2d },
          ((cd :: cdata).foldl (plotBatchStep clickSelectEnabled xc2p yc2p)
            { selectBatch := none, unselectBatch := none, selectMode := selectMode,
              cdata := [] }).cdata) := by
  simp [plot, hd]

/-- **C19.** Counterexample: `calc` of one trace and `plot` on a subplot without scene, then
`calc` of the same trace and `plot` again, with no `scene.draw` between the passes: the second
`calc` finds the scene dirty and does not reset it, so `count` is 2 and the option arrays
have two slots, against 1 and one slot after the first pass. -/
theorem calcThenPlot_twice_not_idempotent :
    ((calcThenPlot 100000 (fun _ => ()) id id id id false false [(exCalcInput, exPlotTrace)]
        (none : Option (SceneState Int String))).bind (fun r => r.1)).map
      (fun s => (s.count, s.markerOptions)) = some (1, [some "marker"]) ∧
    (((calcThenPlot 100000 (fun _ => ()) id id id id false false [(exCalcInput, exPlotTrace)]
        (none : Option (SceneState Int String))).bind (fun r => r.1)).bind
      (fun s => (calcThenPlot 100000 (fun _ => ()) id id id id false false
        [(exCalcInput, exPlotTrace)] (some s)).bind (fun r => r.1))).map
      (fun s => (s.count, s.markerOptions)) = some (2, [some "marker", some "marker"]) := by
  decide


/-- **C19 (amended).** A pass of `calc` on every trace followed by a successful `plot`, then
`scene.draw`, then the same pass again: when the first pass starts on a subplot without scene
or with a clean scene and completes, the second pass completes too and leaves the scene with
the same `count` and the same ten option arrays, and `cdata` with the same stashes. -/
theorem calcThenPlot_draw_idempotent {α O T : Type} [DecidableEq α] [Zero α]
    (TOO_MANY_POINTS : Nat) (cluster : List (JSVal α) → T)
    (xc2l yc2l xc2p yc2p : JSVal α → JSVal α) (selectMode clickSelectEnabled : Bool)
    (traces : List (CalcInput α O × PlotTrace O)) (scene : Option (SceneState α O))
    (hclean : ∀ s, scene = some s → s.dirty = false)
    (r1 : Option (SceneState α O) × List (CdItem α O))
    (h1 : calcThenPlot TOO_MANY_POINTS cluster xc2l yc2l xc2p yc2p selectMode
      clickSelectEnabled traces scene = some r1) :
    ∃ r2, calcThenPlot TOO_MANY_POINTS cluster xc2l yc2l xc2p yc2p selectMode
        clickSelectEnabled traces (r1.1.map SceneState.draw) = some r2 ∧
      r2.1.map (fun s => s.count) = r1.1.map (fun s => s.count) ∧
      r2.1.map (fun s => s.toOptionArrays) = r1.1.map (fun s => s.toOptionArrays) ∧
      r2.2 = r1.2 := by
  cases traces with
  | nil =>
    simp only [calcThenPlot, calcPass, List.foldl_nil, plot, List.length_nil, if_true,
      Option.some.injEq] at h1
    subst h1
    refine ⟨(scene.map SceneState.draw, []), ?_, ?_, ?_, rfl⟩
    · simp [calcThenPlot, calcPass, plot]
    · cases scene <;> rfl
    · cases scene <;> rfl
  | cons tr rest =>
    obtain ⟨c1, a1, d1, l1, f1, t1⟩ :=
      calcTrace_fields TOO_MANY_POINTS cluster xc2l yc2l tr.1 scene
    obtain ⟨hc0, ha0⟩ := sceneUpdate_clean scene hclean
    rw [hc0] at c1 t1
    rw [ha0] at a1
    -- the first pass
    obtain ⟨sA, _, hA, _, _, dA, _, _, _, _, _, monoL, monoF⟩ :=
      calcPass_sim TOO_MANY_POINTS cluster xc2l yc2l false false rest
        (calcTrace TOO_MANY_POINTS cluster xc2l yc2l tr.1 scene).1
        (calcTrace TOO_MANY_POINTS cluster xc2l yc2l tr.1 scene).1 d1 d1 rfl rfl
        (by simp) (by simp)
    unfold calcThenPlot at h1
    rw [calcPass_cons] at h1
    simp only [hA] at h1
    rw [plot_dirty_scene _ _ _ _ _ _ _ dA, Option.bind_eq_some] at h1
    obtain ⟨sP, hP, hr1⟩ := h1
    simp only [Option.some.injEq] at hr1
    obtain ⟨r, hr, cP, aP, lP, fP⟩ := plotDirty_some _ _ _ hP
    subst hr1
    simp only [Option.map_some']
    -- the second pass
    generalize hs1 : SceneState.draw _ = s1 at *
    have hd1 : s1.dirty = false := by rw [← hs1]; rfl
    have hl1 : s1.line2d.truthy = sA.line2d.truthy := by rw [← hs1, ← lP]; rfl
    have hf1 : s1.fill2d.truthy = sA.fill2d.truthy := by rw [← hs1, ← fP]; rfl
    obtain ⟨c2, a2, d2, l2, f2, t2⟩ :=
      calcTrace_fields TOO_MANY_POINTS cluster xc2l yc2l tr.1 (some s1)
    obtain ⟨hc2, ha2⟩ := sceneUpdate_clean (some s1)
      (by intro s hs; cases hs; exact hd1)
    obtain ⟨rl, rf⟩ := sceneUpdate_renderers s1
    rw [hc2] at c2 t2
    rw [ha2] at a2
    rw [rl, hl1] at l2
    rw [rf, hf1] at f2
    obtain ⟨e, sB, hA2, hB, hcd, _, dB, cB, aB, lB, fB, _, _⟩ :=
      calcPass_sim TOO_MANY_POINTS cluster xc2l yc2l sA.line2d.truthy sA.fill2d.truthy rest
        (calcTrace TOO_MANY_POINTS cluster xc2l yc2l tr.1 scene).1
        (calcTrace TOO_MANY_POINTS cluster xc2l yc2l tr.1 (some s1)).1 d1 d2
        (by rw [c1, c2]) (by rw [a1, a2])
        (by
          rw [l2, l1]
          rw [l1] at monoL
          revert monoL
          cases sA.line2d.truthy <;> cases (sceneUpdate scene).line2d.truthy <;>
            cases (sceneOptions tr.1.style tr.1.linePositions
              (calcPositions xc2l yc2l tr.1)).line.isSome <;> simp)
        (by
          rw [f2, f1]
          rw [f1] at monoF
          revert monoF
          cases sA.fill2d.truthy <;> cases (sceneUpdate scene).fill2d.truthy <;>
            cases (sceneOptions tr.1.style tr.1.linePositions
              (calcPositions xc2l yc2l tr.1)).fill.isSome <;> simp)
    rw [hA] at hA2
    cases hA2
    rw [Bool.or_self] at lB fB
    have hr2 : realizeArrays sB.toOptionArrays sB.line2d.truthy sB.fill2d.truthy
        ({ trace := tr.2,
           t := (calcTrace TOO_MANY_POINTS cluster xc2l yc2l tr.1 (some s1)).2.t } ::
          (calcPass TOO_MANY_POINTS cluster xc2l yc2l rest
            (some (calcTrace TOO_MANY_POINTS cluster xc2l yc2l tr.1 (some s1)).1)).2)
        sB.count = some r := by
      rw [← aB, lB, fB, ← cB, ← hcd, t2, ← t1]
      exact hr
    obtain ⟨sP2, hP2, cP2, aP2⟩ := plotDirty_of_realize _ _ _ hr2
    unfold calcThenPlot
    rw [calcPass_cons]
    simp only [hB]
    rw [plot_dirty_scene _ _ _ _ _ _ _ dB, hP2]
    refine ⟨_, rfl, ?_, ?_, ?_⟩
    · simp only [Option.map_some', Option.some.injEq]
      show sP2.count = sP.count
      rw [cP2, cP, cB]
    · simp only [Option.map_some', Option.some.injEq]
      show sP2.toOptionArrays = sP.toOptionArrays
      rw [aP2, aP]
    · simp only [← hcd, t2, ← t1]

/-- Witness of **C19 (amended)** on the example trace, from a subplot without scene. -/
theorem calcThenPlot_draw_idempotent_witness :
    ∃ r1 r2, calcThenPlot 100000 (fun _ => ()) id id id id false false
        [(exCalcInput, exPlotTrace)] (none : Option (SceneState Int String)) = some r1 ∧
      calcThenPlot 100000 (fun _ => ()) id id id id false false
        [(exCalcInput, exPlotTrace)] (r1.1.map SceneState.draw) = some r2 ∧
      r2.1.map (fun s => s.count) = r1.1.map (fun s => s.count) ∧
      r2.1.map (fun s => s.toOptionArrays) = r1.1.map (fun s => s.toOptionArrays) ∧
      r2.2 = r1.2 ∧ r1.1.map (fun s => s.count) = some 1 := by
  cases h : calcThenPlot 100000 (fun _ => ()) id id id id false false
      [(exCalcInput, exPlotTrace)] (none : Option (SceneState Int String)) with
  | none => exact absurd (congrArg Option.isSome h) (by decide)
  | some r1 =>
    obtain ⟨r2, h2, hc, ha, hcd⟩ := calcThenPlot_draw_idempotent 100000 (fun _ => ()) id id
      id id false false [(exCalcInput, exPlotTrace)] none (by intro s hs; cases hs) r1 h
    refine ⟨r1, r2, rfl, h2, hc, ha, hcd, ?_⟩
    have hcount : ((calcThenPlot 100000 (fun _ => ()) id id id id false false
        [(exCalcInput, exPlotTrace)] (none : Option (SceneState Int String))).bind
        (fun r => r.1)).map (fun s => s.count) = some 1 := by decide
    rw [h] at hcount
    exact hcount



/-! ## Hover: lemmas and claims -/

theorem exSqrt_abs (a b : Int) : |a| ≤ exSqrt (a * a + b * b) ∧ |b| ≤ exSqrt (a * a + b * b) := by
  have key : ∀ c n : Int, c * c ≤ n → |c| ≤ Int.sqrt n := by
    intro c n h
    unfold Int.sqrt
    rw [Int.abs_eq_natAbs]
    apply Int.ofNat_le.mpr
    rw [Nat.le_sqrt]
    have h1 : ((c.natAbs * c.natAbs : Nat) : Int) = c * c := by
      push_cast
      exact abs_mul_abs_self c
    have h0 : 0 ≤ c * c := mul_self_nonneg c
    have h2 : ((n.toNat : Nat) : Int) = n := Int.toNat_of_nonneg (le_trans h0 h)
    have : ((c.natAbs * c.natAbs : Nat) : Int) ≤ ((n.toNat : Nat) : Int) := by
      rw [h1, h2]; exact h
    exact Int.ofNat_le.mp this
  have ha : 0 ≤ a * a := mul_self_nonneg a
  have hb : 0 ≤ b * b := mul_self_nonneg b
  exact ⟨key a _ (by linarith), key b _ (by linarith)⟩

theorem hoverStepX_skip {K : Type} [LinearOrderedCommRing K] (sqrt : K → K) (xa ya : Axis K)
    (x y : List (JSVal K)) (xpx ypx maxD : K) (st : HoverScan K) (id : Option Nat)
    (hst : st.minDist ≤ maxD)
    (hd : ∀ d, hoverDistance sqrt xa ya x y xpx ypx true id = some d → maxD ≤ d) :
    hoverStepX sqrt xa ya x y xpx ypx st id = st := by
  simp only [hoverDistance, if_true] at hd
  cases h : (xa.c2pVal (hoverCoord x id)).map (fun p => |p - xpx|) with
  | none => simp only [hoverStepX, h]
  | some dx =>
    have := hd dx h
    simp only [hoverStepX, h]
    rw [if_neg]
    exact not_lt.mpr (le_trans hst this)

theorem hoverStepXY_skip {K : Type} [LinearOrderedCommRing K] (sqrt : K → K) (xa ya : Axis K)
    (x y : List (JSVal K)) (xpx ypx maxD : K) (st : HoverScan K) (id : Option Nat)
    (hst : st.minDist ≤ maxD)
    (hd : ∀ d, hoverDistance sqrt xa ya x y xpx ypx false id = some d → maxD ≤ d) :
    hoverStepXY sqrt xa ya x y xpx ypx st id = st := by
  simp only [hoverDistance, Bool.false_eq_true, if_false] at hd
  cases h : hoverDist sqrt xa ya x y xpx ypx id with
  | none => simp only [hoverStepXY, h]
  | some dist =>
    have := hd dist h
    simp only [hoverStepXY, h]
    rw [if_neg]
    exact not_lt.mpr (le_trans hst this)

theorem hoverStepX_le {K : Type} [LinearOrderedCommRing K] (sqrt : K → K) (xa ya : Axis K)
    (x y : List (JSVal K)) (xpx ypx : K) (st : HoverScan K) (id : Option Nat) :
    (hoverStepX sqrt xa ya x y xpx ypx st id).minDist ≤ st.minDist := by
  cases h : (xa.c2pVal (hoverCoord x id)).map (fun p => |p - xpx|) with
  | none => simp only [hoverStepX, h, le_refl]
  | some dx =>
    simp only [hoverStepX, h]
    split
    · exact le_of_lt (by assumption)
    · exact le_refl _

theorem hoverStepXY_le {K : Type} [LinearOrderedCommRing K] (sqrt : K → K) (xa ya : Axis K)
    (x y : List (JSVal K)) (xpx ypx : K) (st : HoverScan K) (id : Option Nat) :
    (hoverStepXY sqrt xa ya x y xpx ypx st id).minDist ≤ st.minDist := by
  cases h : hoverDist sqrt xa ya x y xpx ypx id with
  | none => simp only [hoverStepXY, h, le_refl]
  | some dist =>
    simp only [hoverStepXY, h]
    split
    · exact le_of_lt (by assumption)
    · exact le_refl _

theorem scan_filter {K : Type} [LinearOrderedCommRing K]
    (f : HoverScan K → Option Nat → HoverScan K) (maxD : K) (keep : Nat → Bool)
    (hle : ∀ st id, (f st id).minDist ≤ st.minDist)
    (l : List Nat) (st : HoverScan K) (hst : st.minDist ≤ maxD)
    (hskip : ∀ i ∈ l, keep i = false → ∀ st : HoverScan K, st.minDist ≤ maxD →
      f st (some i) = st) :
    (l.map some).foldl f st = ((l.filter keep).map some).foldl f st := by
  induction l generalizing st with
  | nil => rfl
  | cons i l ih =>
    have ih2 := fun st hst => ih st hst (fun j hj => hskip j (List.mem_cons_of_mem _ hj))
    cases hk : keep i with
    | true =>
      rw [List.filter_cons_of_pos hk]
      simp only [List.map_cons, List.foldl_cons]
      exact ih2 _ (le_trans (hle _ _) hst)
    | false =>
      rw [List.filter_cons_of_neg (by simp [hk])]
      simp only [List.map_cons, List.foldl_cons]
      rw [hskip i (List.mem_cons_self _ _) hk st hst]
      exact ih2 _ hst

theorem close_in_range {K : Type} [LinearOrderedCommRing K] (ax : Axis K)
    (hmono : StrictMono ax.c2p ∨ StrictAnti ax.c2p) (hinv : ∀ p, ax.c2p (ax.p2c p) = p)
    (p q maxD : K) (h : |ax.c2p p - q| < maxD) :
    min (ax.p2c (q - maxD)) (ax.p2c (q + maxD)) ≤ p ∧
      p ≤ max (ax.p2c (q - maxD)) (ax.p2c (q + maxD)) := by
  rw [abs_lt] at h
  have h1 : ax.c2p (ax.p2c (q - maxD)) < ax.c2p p := by rw [hinv]; linarith [h.1]
  have h2 : ax.c2p p < ax.c2p (ax.p2c (q + maxD)) := by rw [hinv]; linarith [h.2]
  rcases hmono with hm | hm
  · have a1 := hm.lt_iff_lt.mp h1
    have a2 := hm.lt_iff_lt.mp h2
    exact ⟨le_trans (min_le_left _ _) (le_of_lt a1), le_trans (le_of_lt a2) (le_max_right _ _)⟩
  · have a1 := hm.lt_iff_lt.mp h1
    have a2 := hm.lt_iff_lt.mp h2
    exact ⟨le_trans (min_le_right _ _) (le_of_lt a2), le_trans (le_of_lt a1) (le_max_left _ _)⟩


theorem inRect_true {K : Type} [LinearOrderedCommRing K] (x y : List (JSVal K))
    (xmin ymin xmax ymax : K) (i : Nat) (px py : K)
    (hx : toNum (idx x (i : Int)) = some px) (hy : toNum (idx y (i : Int)) = some py)
    (h1 : xmin ≤ px ∧ px ≤ xmax) (h2 : ymin ≤ py ∧ py ≤ ymax) :
    inRect x y xmin ymin xmax ymax i = true := by
  simp [inRect, hx, hy, h1.1, h1.2, h2.1, h2.2]

theorem dropped_far_xy {K : Type} [LinearOrderedCommRing K] (sqrt : K → K)
    (hsqrt : ∀ a b : K, |a| ≤ sqrt (a * a + b * b) ∧ |b| ≤ sqrt (a * a + b * b))
    (xa ya : Axis K) (hxm : StrictMono xa.c2p ∨ StrictAnti xa.c2p)
    (hym : StrictMono ya.c2p ∨ StrictAnti ya.c2p) (hxi : ∀ p, xa.c2p (xa.p2c p) = p)
    (hyi : ∀ p, ya.c2p (ya.p2c p) = p) (x y : List (JSVal K)) (xpx ypx maxD : K) (i : Nat)
    (hout : inRect x y (min (xa.p2c (xpx - maxD)) (xa.p2c (xpx + maxD)))
      (min (ya.p2c (ypx - maxD)) (ya.p2c (ypx + maxD)))
      (max (xa.p2c (xpx - maxD)) (xa.p2c (xpx + maxD)))
      (max (ya.p2c (ypx - maxD)) (ya.p2c (ypx + maxD))) i = false)
    (d : K) (hd : hoverDistance sqrt xa ya x y xpx ypx false (some i) = some d) :
    maxD ≤ d := by
  by_contra hlt
  rw [not_le] at hlt
  simp only [hoverDistance, Bool.false_eq_true, if_false, hoverDist, hoverCoord,
    Axis.c2pVal] at hd
  cases hx : toNum (idx x (i : Int)) with
  | none => simp [hx] at hd
  | some px =>
    cases hy : toNum (idx y (i : Int)) with
    | none => simp [hx, hy] at hd
    | some py =>
      simp only [hx, hy, Option.map_some', Option.some_bind, Option.some.injEq] at hd
      have hs := hsqrt (xa.c2p px - xpx) (ya.c2p py - ypx)
      rw [hd] at hs
      have h1 := close_in_range xa hxm hxi px xpx maxD (lt_of_le_of_lt hs.1 hlt)
      have h2 := close_in_range ya hym hyi py ypx maxD (lt_of_le_of_lt hs.2 hlt)
      rw [inRect_true x y _ _ _ _ i px py hx hy h1 h2] at hout
      cases hout

theorem dropped_far_x {K : Type} [LinearOrderedCommRing K] (sqrt : K → K)
    (xa ya : Axis K) (hxm : StrictMono xa.c2p ∨ StrictAnti xa.c2p)
    (hxi : ∀ p, xa.c2p (xa.p2c p) = p)
    (x y : List (JSVal K)) (xpx ypx maxD : K) (i : Nat)
    (hy : ∀ px, toNum (idx x (i : Int)) = some px → |xa.c2p px - xpx| < maxD →
      ∃ py, toNum (idx y (i : Int)) = some py ∧
        min ya._rl.1 ya._rl.2 ≤ py ∧ py ≤ max ya._rl.1 ya._rl.2)
    (hout : inRect x y (min (xa.p2c (xpx - maxD)) (xa.p2c (xpx + maxD)))
      (min ya._rl.1 ya._rl.2)
      (max (xa.p2c (xpx - maxD)) (xa.p2c (xpx + maxD)))
      (max ya._rl.1 ya._rl.2) i = false)
    (d : K) (hd : hoverDistance sqrt xa ya x y xpx ypx true (some i) = some d) :
    maxD ≤ d := by
  by_contra hlt
  rw [not_le] at hlt
  simp only [hoverDistance, if_true, hoverCoord, Axis.c2pVal] at hd
  cases hx : toNum (idx x (i : Int)) with
  | none => simp [hx] at hd
  | some px =>
    simp only [hx, Option.map_some', Option.some.injEq] at hd
    rw [← hd] at hlt
    obtain ⟨py, hpy, h2⟩ := hy px hx hlt
    have h1 := close_in_range xa hxm hxi px xpx maxD hlt
    rw [inRect_true x y _ _ _ _ i px py hx hpy h1 h2] at hout
    cases hout

/-- **C15.** Counterexample in hover mode `'x'`: a trace with the single point (0, 3) on a y
axis of range `[0, 1]`, query point (0, 0), `maxPixelDistance` 5. With the identity index
the point matches at distance 0; with a spatial index the query rectangle is limited to the
y range `[0, 1]`, the index returns no point and there is no match. -/
theorem hoverPoints_tree_differs_x_mode :
    (hoverPoints exRange exSqrt exPointData exAxis exAxis exHoverIds 0 0
      true).pointData.index = some 0 ∧
    (hoverPoints exRange exSqrt exPointData exAxis exAxis exHoverIds 0 0
      true).pointData.distance = 0 ∧
    (hoverPoints exRange exSqrt exPointData exAxis exAxis exHoverTree 0 0
      true).pointData.index = none ∧
    (hoverPoints exRange exSqrt exPointData exAxis exAxis exHoverTree 0 0
      true).pointData.distance = 5 ∧
    (∀ xmin ymin xmax ymax, exRange () xmin ymin xmax ymax =
      (List.range 1).filter (inRect exHoverIds.t.x exHoverIds.t.y xmin ymin xmax ymax)) := by
  refine ⟨by decide, by decide, by decide, by decide, ?_⟩
  intro xmin ymin xmax ymax
  rfl

/-- **C15 (amended).** With strictly monotone `c2p` on both axes, `p2c` with
`c2p(p2c(p)) = p`, and `Math.sqrt` giving at least the absolute value of either leg,
`hoverPoints` returns the same result for a stash with the identity index `[0..n-1]` as for
the same stash with a spatial index whose `range` returns, ascending, the points inside the
closed rectangle: in every hover mode other than `'x'`, and in mode `'x'` when every point
whose horizontal pixel distance is less than `maxPixelDistance` has its `y` inside the range
of the y axis. -/
theorem hoverPoints_index_equiv {K T : Type} [LinearOrderedCommRing K]
    (range : T → K → K → K → K → List Nat) (sqrt : K → K)
    (hsqrt : ∀ a b : K, |a| ≤ sqrt (a * a + b * b) ∧ |b| ≤ sqrt (a * a + b * b))
    (pointData : PointData K) (xa ya : Axis K)
    (hxm : StrictMono xa.c2p ∨ StrictAnti xa.c2p)
    (hym : StrictMono ya.c2p ∨ StrictAnti ya.c2p) (hxi : ∀ p, xa.c2p (xa.p2c p) = p)
    (hyi : ∀ p, ya.c2p (ya.p2c p) = p) (t : PlotStash K) (n : Nat) (tree : T)
    (hrange : ∀ xmin ymin xmax ymax,
      range tree xmin ymin xmax ymax = rectQuery t.x t.y n xmin ymin xmax ymax)
    (xval yval : K) (xmode : Bool)
    (hy : xmode = true → ∀ i, i < n → ∀ px, toNum (idx t.x (i : Int)) = some px →
      |xa.c2p px - xa.c2p xval| < pointData.distance →
      ∃ py, toNum (idx t.y (i : Int)) = some py ∧
        min ya._rl.1 ya._rl.2 ≤ py ∧ py ≤ max ya._rl.1 ya._rl.2) :
    hoverPoints range sqrt pointData xa ya { tree := some tree, ids := none, t := t }
        xval yval xmode =
      hoverPoints range sqrt pointData xa ya
        { tree := none, ids := some ((List.range n).map some), t := t } xval yval xmode := by
  have hscan : hoverScan sqrt xa ya t.x t.y (xa.c2p xval) (ya.c2p yval) pointData.distance
      xmode ((List.range n).map some) =
      hoverScan sqrt xa ya t.x t.y (xa.c2p xval) (ya.c2p yval) pointData.distance xmode
        (((List.range n).filter (inRect t.x t.y
          (min (xa.p2c (xa.c2p xval - pointData.distance))
            (xa.p2c (xa.c2p xval + pointData.distance)))
          (if xmode then min ya._rl.1 ya._rl.2
            else min (ya.p2c (ya.c2p yval - pointData.distance))
              (ya.p2c (ya.c2p yval + pointData.distance)))
          (max (xa.p2c (xa.c2p xval - pointData.distance))
            (xa.p2c (xa.c2p xval + pointData.distance)))
          (if xmode then max ya._rl.1 ya._rl.2
            else max (ya.p2c (ya.c2p yval - pointData.distance))
              (ya.p2c (ya.c2p yval + pointData.distance))))).map some) := by
    cases xmode with
    | true =>
      simp only [hoverScan, if_true]
      apply scan_filter _ pointData.distance _ (hoverStepX_le sqrt xa ya t.x t.y _ _) _ _
        (le_refl _)
      intro i hi hk st hst
      exact hoverStepX_skip sqrt xa ya t.x t.y _ _ pointData.distance st (some i) hst
        (dropped_far_x sqrt xa ya hxm hxi t.x t.y _ _ _ i
          (hy rfl i (List.mem_range.mp hi)) hk)
    | false =>
      simp only [hoverScan, Bool.false_eq_true, if_false]
      apply scan_filter _ pointData.distance _ (hoverStepXY_le sqrt xa ya t.x t.y _ _) _ _
        (le_refl _)
      intro i _ hk st hst
      exact hoverStepXY_skip sqrt xa ya t.x t.y _ _ pointData.distance st (some i) hst
        (dropped_far_xy sqrt hsqrt xa ya hxm hym hxi hyi t.x t.y _ _ _ i hk)
  cases xmode with
  | true =>
    simp only [if_true] at hscan
    simp only [hoverPoints, hoverIds, if_true, hrange, rectQuery, hscan]
  | false =>
    simp only [Bool.false_eq_true, if_false] at hscan
    simp only [hoverPoints, hoverIds, Bool.false_eq_true, if_false, hrange, rectQuery, hscan]

/-- Witness of **C15 (amended)**: hover mode `'closest'` on the trace with the point (0, 3),
and hover mode `'x'` on the trace with the point (0, 1), whose `y` is inside the axis
range. -/
theorem hoverPoints_index_equiv_witness :
    hoverPoints exRange exSqrt exPointData exAxis exAxis exHoverTree 0 0 false =
      hoverPoints exRange exSqrt exPointData exAxis exAxis exHoverIds 0 0 false ∧
    hoverPoints exRangeNear exSqrt exPointData exAxis exAxis
        { tree := some (), ids := none, t := exHoverNear.t } 0 0 true =
      hoverPoints exRangeNear exSqrt exPointData exAxis exAxis
        { tree := none, ids := some ((List.range 1).map some), t := exHoverNear.t } 0 0 true :=
  ⟨hoverPoints_index_equiv exRange exSqrt exSqrt_abs exPointData exAxis exAxis
    (Or.inl strictMono_id) (Or.inl strictMono_id) (fun _ => rfl) (fun _ => rfl)
    exHoverIds.t 1 () (fun _ _ _ _ => rfl) 0 0 false (by intro h; cases h),
   hoverPoints_index_equiv exRangeNear exSqrt exSqrt_abs exPointData exAxis exAxis
    (Or.inl strictMono_id) (Or.inl strictMono_id) (fun _ => rfl) (fun _ => rfl)
    exHoverNear.t 1 () (fun _ _ _ _ => rfl) 0 0 true
    (by
      intro _ i hi px _ _
      have hi0 : i = 0 := by omega
      subst hi0
      exact ⟨1, by decide, by decide, by decide⟩)⟩


theorem scan_no_match {K : Type} [LinearOrderedCommRing K]
    (f : HoverScan K → Option Nat → HoverScan K) (g : Option Nat → Option K) (maxD : K)
    (hS1 : ∀ st id, (∀ d, g id = some d → ¬ d < st.minDist) → f st id = st)
    (hS2 : ∀ st id d, g id = some d → d < st.minDist →
      (f st id).id = id ∧ (f st id).minDist = d)
    (hS3 : g none = none) (l : List (Option Nat)) (st : HoverScan K)
    (h0 : st.id = none → st.minDist = maxD) (h1 : st.minDist ≤ maxD) :
    ((l.foldl f st).id = none ↔
      st.id = none ∧ ∀ id ∈ l, ∀ d, g id = some d → ¬ d < maxD) ∧
    ((l.foldl f st).id = none →
      (l.foldl f st).minDist = st.minDist ∧ (l.foldl f st).dxy = st.dxy) := by
  induction l generalizing st with
  | nil => simp
  | cons id l ih =>
    simp only [List.foldl_cons]
    by_cases hm : ∃ d, g id = some d ∧ d < st.minDist
    · obtain ⟨d, hd, hlt⟩ := hm
      obtain ⟨e1, e2⟩ := hS2 st id d hd hlt
      have hid : id ≠ none := by
        intro h; rw [h, hS3] at hd; cases hd
      have hne : (f st id).id ≠ none := by rw [e1]; exact hid
      obtain ⟨i1, _⟩ := ih (f st id) (fun h => absurd h hne)
        (by rw [e2]; exact le_trans (le_of_lt hlt) h1)
      have hfin : (l.foldl f (f st id)).id ≠ none := fun h => hne (i1.mp h).1
      refine ⟨⟨fun h => absurd h hfin, ?_⟩, fun h => absurd h hfin⟩
      rintro ⟨hn, hall⟩
      exact absurd (by rw [← h0 hn]; exact hlt) (hall id (List.mem_cons_self _ _) d hd)
    · have hst : f st id = st := hS1 st id (fun d hd hlt => hm ⟨d, hd, hlt⟩)
      rw [hst]
      obtain ⟨i1, i2⟩ := ih st h0 h1
      refine ⟨⟨?_, ?_⟩, i2⟩
      · intro h
        obtain ⟨hn, hall⟩ := i1.mp h
        refine ⟨hn, ?_⟩
        intro id2 hmem d hd
        rcases List.mem_cons.mp hmem with rfl | hmem
        · intro hlt
          exact hm ⟨d, hd, by rw [h0 hn]; exact hlt⟩
        · exact hall id2 hmem d hd
      · rintro ⟨hn, hall⟩
        exact i1.mpr ⟨hn, fun id2 hmem => hall id2 (List.mem_cons_of_mem _ hmem)⟩

theorem hoverStepX_match {K : Type} [LinearOrderedCommRing K] (sqrt : K → K)
    (xa ya : Axis K) (x y : List (JSVal K)) (xpx ypx : K) (st : HoverScan K)
    (id : Option Nat) (d : K) (hd : hoverDistance sqrt xa ya x y xpx ypx true id = some d)
    (hlt : d < st.minDist) :
    (hoverStepX sqrt xa ya x y xpx ypx st id).id = id ∧
      (hoverStepX sqrt xa ya x y xpx ypx st id).minDist = d := by
  simp only [hoverDistance, if_true] at hd
  simp only [hoverStepX, hd, if_pos hlt, and_self]

theorem hoverStepXY_match {K : Type} [LinearOrderedCommRing K] (sqrt : K → K)
    (xa ya : Axis K) (x y : List (JSVal K)) (xpx ypx : K) (st : HoverScan K)
    (id : Option Nat) (d : K) (hd : hoverDistance sqrt xa ya x y xpx ypx false id = some d)
    (hlt : d < st.minDist) :
    (hoverStepXY sqrt xa ya x y xpx ypx st id).id = id ∧
      (hoverStepXY sqrt xa ya x y xpx ypx st id).minDist = d := by
  simp only [hoverDistance, Bool.false_eq_true, if_false] at hd
  simp only [hoverStepXY, hd, if_pos hlt, and_self]

theorem hoverScan_no_match {K : Type} [LinearOrderedCommRing K] (sqrt : K → K)
    (xa ya : Axis K) (x y : List (JSVal K)) (xpx ypx maxD : K) (xmode : Bool)
    (ids : List (Option Nat)) :
    ((hoverScan sqrt xa ya x y xpx ypx maxD xmode ids).id = none ↔
      ∀ id ∈ ids, ∀ d, hoverDistance sqrt xa ya x y xpx ypx xmode id = some d → ¬ d < maxD) ∧
    ((hoverScan sqrt xa ya x y xpx ypx maxD xmode ids).id = none →
      (hoverScan sqrt xa ya x y xpx ypx maxD xmode ids).minDist = maxD ∧
      (hoverScan sqrt xa ya x y xpx ypx maxD xmode ids).dxy = .undefined) := by
  cases xmode with
  | true =>
    have h := scan_no_match (hoverStepX sqrt xa ya x y xpx ypx)
      (hoverDistance sqrt xa ya x y xpx ypx true) maxD
      (fun st id hd => hoverStepX_skip sqrt xa ya x y xpx ypx st.minDist st id (le_refl _)
        (fun d h => not_lt.mp (hd d h)))
      (fun st id d => hoverStepX_match sqrt xa ya x y xpx ypx st id d) rfl ids
      { id := none, minDist := maxD, dxy := .undefined } (fun _ => rfl) (le_refl _)
    simpa [hoverScan] using h
  | false =>
    have h := scan_no_match (hoverStepXY sqrt xa ya x y xpx ypx)
      (hoverDistance sqrt xa ya x y xpx ypx false) maxD
      (fun st id hd => hoverStepXY_skip sqrt xa ya x y xpx ypx st.minDist st id (le_refl _)
        (fun d h => not_lt.mp (hd d h)))
      (fun st id d => hoverStepXY_match sqrt xa ya x y xpx ypx st id d) rfl ids
      { id := none, minDist := maxD, dxy := .undefined } (fun _ => rfl) (le_refl _)
    simpa [hoverScan] using h


/-- **C20.** For a stash with a spatial index or an identity index (every stash of `calc` has
one), `hoverPoints` returns `pointData.index` undefined if and only if no element of the
candidate array `ids` has a pixel distance strictly less than the given `maxPixelDistance`
(horizontal distance in mode `'x'`, distance in the plane otherwise); in that case
`pointData.distance` is still `maxPixelDistance`, `dxy` is undefined and `calcHover` has not
run; `calcHover` runs exactly when an index was found. -/
theorem hoverPoints_no_match {K T : Type} [LinearOrderedCommRing K]
    (range : T → K → K → K → K → List Nat) (sqrt : K → K) (pointData : PointData K)
    (xa ya : Axis K) (stash : CalcStash K T) (xval yval : K) (xmode : Bool)
    (hstash : stash.tree.isSome = true ∨ stash.ids.isSome = true) :
    ∃ ids, hoverIds range xa ya stash (xa.c2p xval) (ya.c2p yval) pointData.distance xmode =
        some ids ∧
      ((hoverPoints range sqrt pointData xa ya stash xval yval xmode).pointData.index = none ↔
        ∀ id ∈ ids, ∀ d, hoverDistance sqrt xa ya stash.t.x stash.t.y (xa.c2p xval)
          (ya.c2p yval) xmode id = some d → ¬ d < pointData.distance) ∧
      ((hoverPoints range sqrt pointData xa ya stash xval yval xmode).pointData.index = none →
        (hoverPoints range sqrt pointData xa ya stash xval yval xmode).pointData.distance =
          pointData.distance ∧
        (hoverPoints range sqrt pointData xa ya stash xval yval xmode).pointData.dxy =
          .undefined) ∧
      (hoverPoints range sqrt pointData xa ya stash xval yval xmode).detail =
        (hoverPoints range sqrt pointData xa ya stash xval yval xmode).pointData.index.isSome := by
  have hsome : ∃ ids, hoverIds range xa ya stash (xa.c2p xval) (ya.c2p yval)
      pointData.distance xmode = some ids := by
    unfold hoverIds
    cases ht : stash.tree with
    | some tree =>
      cases xmode <;> simp
    | none =>
      cases hi : stash.ids with
      | some ids => exact ⟨ids, rfl⟩
      | none => simp [ht, hi] at hstash
  obtain ⟨ids, hids⟩ := hsome
  obtain ⟨h1, h2⟩ := hoverScan_no_match sqrt xa ya stash.t.x stash.t.y (xa.c2p xval)
    (ya.c2p yval) pointData.distance xmode ids
  refine ⟨ids, hids, ?_, ?_, ?_⟩
  · simp only [hoverPoints, hids]
    exact h1
  · simp only [hoverPoints, hids]
    exact h2
  · simp only [hoverPoints, hids]

/-- Witness of **C20**: in mode `'x'` the point (0, 3) of the example trace is at horizontal
distance 0 of the query point (0, 0): with `maxPixelDistance` 0 it does not match, with
`maxPixelDistance` 5 it does. -/
theorem hoverPoints_no_match_witness :
    (hoverPoints exRange exSqrt exPointDataZero exAxis exAxis exHoverIds 0 0
      true).pointData.index = none ∧
    (hoverPoints exRange exSqrt exPointData exAxis exAxis exHoverIds 0 0
      true).pointData.index = some 0 ∧
    ∃ ids, hoverIds exRange exAxis exAxis exHoverIds (exAxis.c2p 0) (exAxis.c2p 0)
        exPointDataZero.distance true = some ids ∧
      ((hoverPoints exRange exSqrt exPointDataZero exAxis exAxis exHoverIds 0 0
          true).pointData.index = none ↔
        ∀ id ∈ ids, ∀ d, hoverDistance exSqrt exAxis exAxis exHoverIds.t.x exHoverIds.t.y
          (exAxis.c2p 0) (exAxis.c2p 0) true id = some d → ¬ d < exPointDataZero.distance) ∧
      ((hoverPoints exRange exSqrt exPointDataZero exAxis exAxis exHoverIds 0 0
          true).pointData.index = none →
        (hoverPoints exRange exSqrt exPointDataZero exAxis exAxis exHoverIds 0 0
          true).pointData.distance = exPointDataZero.distance ∧
        (hoverPoints exRange exSqrt exPointDataZero exAxis exAxis exHoverIds 0 0
          true).pointData.dxy = .undefined) ∧
      (hoverPoints exRange exSqrt exPointDataZero exAxis exAxis exHoverIds 0 0 true).detail =
        (hoverPoints exRange exSqrt exPointDataZero exAxis exAxis exHoverIds 0 0
          true).pointData.index.isSome :=
  ⟨by decide, by decide,
    hoverPoints_no_match exRange exSqrt exPointDataZero exAxis exAxis exHoverIds 0 0 true
      (Or.inr rfl)⟩


theorem scan_argmin {K : Type} [LinearOrderedCommRing K]
    (f : HoverScan K → Option Nat → HoverScan K) (g : Option Nat → Option K)
    (hS1 : ∀ st id, (∀ d, g id = some d → ¬ d < st.minDist) → f st id = st)
    (hS2 : ∀ st id d, g id = some d → d < st.minDist →
      (f st id).id = id ∧ (f st id).minDist = d)
    (l : List (Option Nat)) (st : HoverScan K) :
    (l.foldl f st = st ∧ ∀ id ∈ l, ∀ d, g id = some d → ¬ d < st.minDist) ∨
    (∃ (k : Nat) (id : Option Nat) (dk : K), l[k]? = some id ∧ g id = some dk ∧ dk < st.minDist ∧
      (l.foldl f st).id = id ∧ (l.foldl f st).minDist = dk ∧
      (∀ (j : Nat) (id2 : Option Nat) (d : K), l[j]? = some id2 → g id2 = some d → dk ≤ d) ∧
      (∀ (j : Nat) (id2 : Option Nat) (d : K), j < k → l[j]? = some id2 → g id2 = some d → dk < d)) := by
  induction l generalizing st with
  | nil => left; simp
  | cons id l ih =>
    simp only [List.foldl_cons]
    by_cases hm : ∃ d, g id = some d ∧ d < st.minDist
    · obtain ⟨d, hd, hlt⟩ := hm
      obtain ⟨e1, e2⟩ := hS2 st id d hd hlt
      right
      rcases ih (f st id) with ⟨heq, hall⟩ | ⟨k, id1, dk, hk, hg, hlt1, hid, hmin, hle, hfirst⟩
      · refine ⟨0, id, d, by simp, hd, hlt, by rw [heq, e1], by rw [heq, e2], ?_, ?_⟩
        · intro j id2 d2 hj hg2
          cases j with
          | zero =>
            simp only [List.getElem?_cons_zero, Option.some.injEq] at hj
            subst hj
            rw [hd] at hg2
            cases hg2
            exact le_refl _
          | succ j =>
            simp only [List.getElem?_cons_succ] at hj
            have := hall id2 (List.getElem?_mem hj) d2 hg2
            rw [e2] at this
            exact not_lt.mp this
        · intro j id2 d2 hj
          exact absurd hj (Nat.not_lt_zero _)
      · rw [e2] at hlt1
        refine ⟨k + 1, id1, dk, by simpa using hk, hg, lt_trans hlt1 hlt, hid, hmin, ?_, ?_⟩
        · intro j id2 d2 hj hg2
          cases j with
          | zero =>
            simp only [List.getElem?_cons_zero, Option.some.injEq] at hj
            subst hj
            rw [hd] at hg2
            cases hg2
            exact le_of_lt hlt1
          | succ j =>
            simp only [List.getElem?_cons_succ] at hj
            exact hle j id2 d2 hj hg2
        · intro j id2 d2 hjk hj hg2
          cases j with
          | zero =>
            simp only [List.getElem?_cons_zero, Option.some.injEq] at hj
            subst hj
            rw [hd] at hg2
            cases hg2
            exact hlt1
          | succ j =>
            simp only [List.getElem?_cons_succ] at hj
            exact hfirst j id2 d2 (by omega) hj hg2
    · have hno : ∀ d, g id = some d → ¬ d < st.minDist := fun d hd hlt => hm ⟨d, hd, hlt⟩
      rw [hS1 st id hno]
      rcases ih st with ⟨heq, hall⟩ | ⟨k, id1, dk, hk, hg, hlt1, hid, hmin, hle, hfirst⟩
      · left
        refine ⟨heq, ?_⟩
        intro id2 hmem d2 hg2
        rcases List.mem_cons.mp hmem with rfl | hmem
        · exact hno d2 hg2
        · exact hall id2 hmem d2 hg2
      · right
        refine ⟨k + 1, id1, dk, by simpa using hk, hg, hlt1, hid, hmin, ?_, ?_⟩
        · intro j id2 d2 hj hg2
          cases j with
          | zero =>
            simp only [List.getElem?_cons_zero, Option.some.injEq] at hj
            subst hj
            exact le_of_lt (lt_of_lt_of_le hlt1 (not_lt.mp (hno d2 hg2)))
          | succ j =>
            simp only [List.getElem?_cons_succ] at hj
            exact hle j id2 d2 hj hg2
        · intro j id2 d2 hjk hj hg2
          cases j with
          | zero =>
            simp only [List.getElem?_cons_zero, Option.some.injEq] at hj
            subst hj
            exact lt_of_lt_of_le hlt1 (not_lt.mp (hno d2 hg2))
          | succ j =>
            simp only [List.getElem?_cons_succ] at hj
            exact hfirst j id2 d2 (by omega) hj hg2


/-- **C21.** When some element of the candidate array `ids` has a pixel distance (horizontal
in mode `'x'`, in the plane otherwise) less than `maxPixelDistance`, `hoverPoints` returns as
`pointData.index` the candidate at a position `k` whose distance is minimal over all
candidates and strictly smaller than that of every candidate before position `k`, and
`pointData.distance` is that minimal distance. -/
theorem hoverPoints_closest {K T : Type} [LinearOrderedCommRing K]
    (range : T → K → K → K → K → List Nat) (sqrt : K → K) (pointData : PointData K)
    (xa ya : Axis K) (stash : CalcStash K T) (xval yval : K) (xmode : Bool)
    (ids : List (Option Nat))
    (hids : hoverIds range xa ya stash (xa.c2p xval) (ya.c2p yval) pointData.distance xmode =
      some ids)
    (hex : ∃ id ∈ ids, ∃ d, hoverDistance sqrt xa ya stash.t.x stash.t.y (xa.c2p xval)
      (ya.c2p yval) xmode id = some d ∧ d < pointData.distance) :
    ∃ (k : Nat) (id : Option Nat) (dk : K), ids[k]? = some id ∧
      hoverDistance sqrt xa ya stash.t.x stash.t.y (xa.c2p xval) (ya.c2p yval) xmode id =
        some dk ∧
      dk < pointData.distance ∧
      (hoverPoints range sqrt pointData xa ya stash xval yval xmode).pointData.index = id ∧
      (hoverPoints range sqrt pointData xa ya stash xval yval xmode).pointData.distance = dk ∧
      (∀ (j : Nat) (id2 : Option Nat) (d : K), ids[j]? = some id2 →
        hoverDistance sqrt xa ya stash.t.x stash.t.y (xa.c2p xval) (ya.c2p yval) xmode id2 =
          some d → dk ≤ d) ∧
      (∀ (j : Nat) (id2 : Option Nat) (d : K), j < k → ids[j]? = some id2 →
        hoverDistance sqrt xa ya stash.t.x stash.t.y (xa.c2p xval) (ya.c2p yval) xmode id2 =
          some d → dk < d) := by
  obtain ⟨id0, hmem, d0, hd0, hlt0⟩ := hex
  have key : ∀ (f : HoverScan K → Option Nat → HoverScan K),
      (∀ st id, (∀ d, hoverDistance sqrt xa ya stash.t.x stash.t.y (xa.c2p xval)
        (ya.c2p yval) xmode id = some d → ¬ d < st.minDist) → f st id = st) →
      (∀ st id d, hoverDistance sqrt xa ya stash.t.x stash.t.y (xa.c2p xval)
        (ya.c2p yval) xmode id = some d → d < st.minDist →
        (f st id).id = id ∧ (f st id).minDist = d) →
      hoverScan sqrt xa ya stash.t.x stash.t.y (xa.c2p xval) (ya.c2p yval)
        pointData.distance xmode ids =
        ids.foldl f { id := none, minDist := pointData.distance, dxy := .undefined } →
      ∃ (k : Nat) (id : Option Nat) (dk : K), ids[k]? = some id ∧
        hoverDistance sqrt xa ya stash.t.x stash.t.y (xa.c2p xval) (ya.c2p yval) xmode id =
          some dk ∧
        dk < pointData.distance ∧
        (hoverPoints range sqrt pointData xa ya stash xval yval xmode).pointData.index = id ∧
        (hoverPoints range sqrt pointData xa ya stash xval yval xmode).pointData.distance =
          dk ∧
        (∀ (j : Nat) (id2 : Option Nat) (d : K), ids[j]? = some id2 →
          hoverDistance sqrt xa ya stash.t.x stash.t.y (xa.c2p xval) (ya.c2p yval) xmode
            id2 = some d → dk ≤ d) ∧
        (∀ (j : Nat) (id2 : Option Nat) (d : K), j < k → ids[j]? = some id2 →
          hoverDistance sqrt xa ya stash.t.x stash.t.y (xa.c2p xval) (ya.c2p yval) xmode
            id2 = some d → dk < d) := by
    intro f hS1 hS2 hscan
    rcases scan_argmin f _ hS1 hS2 ids
        { id := none, minDist := pointData.distance, dxy := .undefined } with
      ⟨_, hall⟩ | ⟨k, id, dk, hk, hg, hlt, hid, hmin, hle, hfirst⟩
    · exact absurd hlt0 (hall id0 hmem d0 hd0)
    · refine ⟨k, id, dk, hk, hg, hlt, ?_, ?_, hle, hfirst⟩
      · simp only [hoverPoints, hids, hscan]; exact hid
      · simp only [hoverPoints, hids, hscan]; exact hmin
  cases xmode with
  | true =>
    exact key (hoverStepX sqrt xa ya stash.t.x stash.t.y (xa.c2p xval) (ya.c2p yval))
      (fun st id hd => hoverStepX_skip sqrt xa ya _ _ _ _ st.minDist st id (le_refl _)
        (fun d h => not_lt.mp (hd d h)))
      (fun st id d => hoverStepX_match sqrt xa ya _ _ _ _ st id d)
      (by simp [hoverScan])
  | false =>
    exact key (hoverStepXY sqrt xa ya stash.t.x stash.t.y (xa.c2p xval) (ya.c2p yval))
      (fun st id hd => hoverStepXY_skip sqrt xa ya _ _ _ _ st.minDist st id (le_refl _)
        (fun d h => not_lt.mp (hd d h)))
      (fun st id d => hoverStepXY_match sqrt xa ya _ _ _ _ st id d)
      (by simp [hoverScan])

/-- Witness of **C21**: the points (0, 0) and (5, 1), identity pixel transform, mode `'x'`,
query x = 1 and `maxPixelDistance` 2: the result is point 0 at distance 1. -/
theorem hoverPoints_closest_witness :
    (hoverPoints exRange exSqrt exPointDataTwo exAxis exAxis exHoverTwo 1 0
      true).pointData.index = some 0 ∧
    (hoverPoints exRange exSqrt exPointDataTwo exAxis exAxis exHoverTwo 1 0
      true).pointData.distance = 1 ∧
    ∃ (k : Nat) (id : Option Nat) (dk : Int), [some 0, some 1][k]? = some id ∧
      hoverDistance exSqrt exAxis exAxis exHoverTwo.t.x exHoverTwo.t.y (exAxis.c2p 1)
        (exAxis.c2p 0) true id = some dk ∧
      dk < exPointDataTwo.distance ∧
      (hoverPoints exRange exSqrt exPointDataTwo exAxis exAxis exHoverTwo 1 0
        true).pointData.index = id ∧
      (hoverPoints exRange exSqrt exPointDataTwo exAxis exAxis exHoverTwo 1 0
        true).pointData.distance = dk ∧
      (∀ (j : Nat) (id2 : Option Nat) (d : Int), [some 0, some 1][j]? = some id2 →
        hoverDistance exSqrt exAxis exAxis exHoverTwo.t.x exHoverTwo.t.y (exAxis.c2p 1)
          (exAxis.c2p 0) true id2 = some d → dk ≤ d) ∧
      (∀ (j : Nat) (id2 : Option Nat) (d : Int), j < k → [some 0, some 1][j]? = some id2 →
        hoverDistance exSqrt exAxis exAxis exHoverTwo.t.x exHoverTwo.t.y (exAxis.c2p 1)
          (exAxis.c2p 0) true id2 = some d → dk < d) :=
  ⟨by decide, by decide,
    hoverPoints_closest exRange exSqrt exPointDataTwo exAxis exAxis exHoverTwo 1 0 true
      [some 0, some 1] rfl ⟨some 0, by simp, 1, by decide, by decide⟩⟩


/-! ## Degenerate buffers, pixel caches and holes: the claims -/

/-- **C22.** Evaluation of the fill construction on degenerate buffers. For a trace without
points the `'tozeroy'` polygon is `[undefined, 0, undefined, 0]` and the `'tozerox'` polygon
`[0, undefined, 0, undefined]`: two vertices, not none. For a buffer of two invalid pairs the
`'tozeroy'` polygon is `[undefined, 0, NaN, 0]` and the `'toself'` polygon has three vertices;
for the single pair (5, NaN) the `'tozeroy'` polygon is `[undefined, 0, 5, 0]`.
Nothing is thrown, and the `'toself'` polygon of the trace without points is empty. -/
theorem buildFill_degenerate_has_vertices :
    ((buildFill exLineNoPos [⟨exEmptyTrace, exEmptyStash⟩] (some exFillOpts) 0).bind
        (fun r => r.1)).bind (fun f => f.positions) =
      some [.undefined, .num 0, .undefined, .num 0] ∧
    ((buildFill exLineNoPos [⟨{ exEmptyTrace with fill := Fill.tozerox }, exEmptyStash⟩]
        (some exFillOpts) 0).bind (fun r => r.1)).bind (fun f => f.positions) =
      some [.num 0, .undefined, .num 0, .undefined] ∧
    ((buildFill exLineNoPos [⟨{ exEmptyTrace with fill := Fill.toself }, exEmptyStash⟩]
        (some exFillOpts) 0).bind (fun r => r.1)).bind (fun f => f.positions) = some [] ∧
    ((buildFill exNoLine [⟨{ exEmptyTrace with _length := 2 }, exInvalidStash⟩]
        (some exFillOpts) 0).bind (fun r => r.1)).bind (fun f => f.positions) =
      some [.undefined, .num 0, .nan, .num 0] ∧
    ((buildFill exNoLine
        [⟨{ exEmptyTrace with fill := Fill.toself, _length := 2 }, exInvalidStash⟩]
        (some exFillOpts) 0).bind (fun r => r.1)).bind (fun f => f.positions) =
      some [.nan, .nan, .nan, .nan, .undefined, .undefined] ∧
    ((buildFill exNoLine
        [⟨{ exEmptyTrace with _length := 1 },
          { exEmptyStash with positions := [.num 5, .nan], x := [.num 5], y := [.undefined] }⟩]
        (some exFillOpts) 0).bind (fun r => r.1)).bind (fun f => f.positions) =
      some [.undefined, .num 0, .num 5, .num 0] := by
  decide

/-- **C23.** Evaluation of `plot` with `dragmode` neither `'lasso'` nor `'select'` and
click-to-select off, on two traces of which the second has `selectedpoints`: the loop
switches `selectMode` on at the second trace, so the first trace's `xpx` and `ypx` are null
while the second trace's are arrays. With the traces in the other order both get arrays. -/
theorem plot_caches_follow_cdata_order :
    (plot true false false id id (some exAfterCalc.1.draw) [exCdPlain, exCdSelected]).map
        (fun r => r.2.map (fun cd => (cd.t.xpx.isSome, cd.t.ypx.isSome))) =
      some [(false, false), (true, true)] ∧
    ((plot true false false id id (some exAfterCalc.1.draw) [exCdPlain, exCdSelected]).bind
        (fun r => r.2[1]?)).bind (fun cd => cd.t.xpx) = some [.num 5, .num 7] ∧
    ((plot true false false id id (some exAfterCalc.1.draw) [exCdPlain, exCdSelected]).bind
        (fun r => r.2[1]?)).bind (fun cd => cd.t.ypx) = some [.num 6, .num 8] ∧
    (plot true false false id id (some exAfterCalc.1.draw) [exCdSelected, exCdPlain]).map
        (fun r => r.2.map (fun cd => (cd.t.xpx.isSome, cd.t.ypx.isSome))) =
      some [(true, true), (true, true)] ∧
    ((plot true false false id id (some exAfterCalc.1.draw) [exCdSelected, exCdPlain]).bind
        (fun r => r.2[1]?)).bind (fun cd => cd.t.xpx) = some [.num 1, .num 3] := by
  decide



theorem prevHoles_fold {α : Type} (prevLinePos : List (JSVal α)) (offset : ℚ) (n : Nat)
    (acc : List ℚ) :
    ((List.range n).map (fun k : Nat => 2 * k)).foldl
      (fun (hole : List ℚ) (j : Nat) =>
        if isNaN (idx prevLinePos (j : Int)) || isNaN (idx prevLinePos ((j : Int) + 1)) then
          hole ++ [(j : ℚ) / 2 + offset + 1]
        else hole)
      acc =
    acc ++ ((List.range n).filter (fun k : Nat =>
        isNaN (idx prevLinePos ((2 * k : Nat) : Int)) ||
          isNaN (idx prevLinePos (((2 * k : Nat) : Int) + 1)))).map
      (fun k : Nat => (k : ℚ) + offset + 1) := by
  induction n with
  | zero => simp
  | succ n ih =>
    rw [List.range_succ, List.map_append, List.foldl_append, ih, List.filter_append,
      List.map_append]
    simp only [List.map_cons, List.map_nil, List.foldl_cons, List.foldl_nil]
    by_cases h : (isNaN (idx prevLinePos ((2 * n : Nat) : Int)) ||
        isNaN (idx prevLinePos (((2 * n : Nat) : Int) + 1))) = true
    · rw [if_pos h]
      simp only [List.filter_cons, h, if_true, List.filter_nil, List.map_cons, List.map_nil,
        List.append_assoc]
      congr 2
      push_cast
      ring_nf
    · rw [if_neg h]
      have h2 := h
      simp only [Bool.or_eq_true, not_or, Bool.not_eq_true, Nat.cast_mul, Nat.cast_ofNat] at h2
      simp [List.filter_cons, h2]

/-- The array `hole` in closed form: `offset`, then `k + offset + 1` for every invalid
pair `k` of the previous line buffer, in order. -/
theorem prevHoles_eq {α : Type} (prevLinePos : List (JSVal α)) (offset : ℚ) :
    prevHoles prevLinePos offset =
      offset :: ((List.range ((prevLinePos.length + 1) / 2)).filter (fun k : Nat =>
          isNaN (idx prevLinePos ((2 * k : Nat) : Int)) ||
            isNaN (idx prevLinePos (((2 * k : Nat) : Int) + 1)))).map
        (fun k : Nat => (k : ℚ) + offset + 1) := by
  unfold prevHoles
  rw [prevHoles_fold]
  rfl


theorem prevHoles_increasing {α : Type} (prevLinePos : List (JSVal α)) (offset : ℚ) :
    (prevHoles prevLinePos offset).Pairwise (fun a b => a < b) := by
  rw [prevHoles_eq]
  refine List.pairwise_cons.mpr ⟨?_, ?_⟩
  · intro a ha
    obtain ⟨k, _, rfl⟩ := List.mem_map.mp ha
    have : (0 : ℚ) ≤ (k : ℚ) := Nat.cast_nonneg k
    linarith
  · apply List.Pairwise.map (fun k : Nat => (k : ℚ) + offset + 1) (R := fun a b => a < b)
    · intro a b hab
      have : (a : ℚ) < (b : ℚ) := Nat.cast_lt.mpr hab
      linarith
    · exact List.Pairwise.filter _ (List.pairwise_lt_range _)

/-- The previous-trace step when the own branch has left the index variable `i` unchanged:
the positions are the own polygon followed by the whole previous line buffer, and `hole` is
`prevHoles` of that buffer from the own vertex count. -/
theorem buildFill_prev_hole {α O : Type} [DecidableEq α] [Zero α]
    (lineOptions : List (Option (LineOpts α O))) (cdata : List (CdItem α O))
    (f : FillOpts α O) (i : Nat) (cd : CdItem α O) (pos : List (JSVal α)) (fl : O)
    (prevOptions : LineOpts α O) (prevLinePos : List (JSVal α))
    (hcd : cdata[i]? = some cd) (hprev : cd.trace._prevtrace = some Fill.tonext)
    (hown : fillOwnPositions lineOptions cd.trace
      (((jsGet lineOptions i).bind (fun l => l.positions)).getD cd.t.positions) f.fill i =
        some (pos, fl, (i : Int)))
    (hi : 1 ≤ i) (hopt : jsGet lineOptions (i - 1) = some prevOptions)
    (hpos : prevOptions.positions = some prevLinePos) :
    buildFill lineOptions cdata (some f) i =
      some (some { f with
                    fill := fl,
                    hole := some (prevHoles prevLinePos ((pos.length : ℚ) / 2)),
                    fillmode := some cd.trace.fill,
                    opacity := some cd.trace.opacity,
                    positions := some (pos ++ prevLinePos) },
            if fillData cd.trace i ≠ [] then some (fillData cd.trace i) else none) := by
  have h1 : (0 : Int) ≤ (i : Int) - 1 := by omega
  have h2 : ((i : Int) - 1).toNat = i - 1 := by omega
  unfold buildFill
  simp only [hcd, hown, Option.some_bind, fillPrevHole, hprev, if_true, h1, h2, hopt, hpos]


/-- **C24.** Evaluation of the fill construction for a trace whose previous trace has fill
`'tonext'` and the line buffer (0, 0), invalid, (2, 2). With fill `'tonexty'` and a next trace
the loop over the next positions leaves `i = -1`, the previous-trace step reads
`scene.lineOptions[-2].positions` and throws: no positions and no `hole` are built. With fill
`'tozeroy'` the same trace gets its own polygon of three vertices followed by the previous
buffer, and `hole = [3, 5]`. -/
theorem buildFill_hole_throws_after_tonexty :
    exCdata3[1]?.map (fun cd => (cd.trace.fill, cd.trace._prevtrace)) =
      some (Fill.tonexty, some Fill.tonext) ∧
    (jsGet exLineOptsHole 0).bind (fun l => l.positions) =
      some [.num 0, .num 0, .nan, .nan, .num 2, .num 2] ∧
    (buildFill exLineOptsHole exCdata3 (some exFillOpts) 1).isNone = true ∧
    ((buildFill exLineOptsHole exCdata3Zeroy (some exFillOpts) 1).bind
        (fun r => r.1)).bind (fun f => f.positions) =
      some [.num 1, .num 0, .num 1, .num 1, .num 1, .num 0,
        .num 0, .num 0, .nan, .nan, .num 2, .num 2] ∧
    ((buildFill exLineOptsHole exCdata3Zeroy (some exFillOpts) 1).bind
        (fun r => r.1)).bind (fun f => f.hole) = some [3, 5] := by
  refine ⟨by decide, by decide, by decide, by decide, ?_⟩
  rw [buildFill_prev_hole exLineOptsHole exCdata3Zeroy exFillOpts 1
    exCdata3Zeroy[1] [.num 1, .num 0, .num 1, .num 1, .num 1, .num 0] "red"
    ⟨some [.num 0, .num 0, .nan, .nan, .num 2, .num 2], "line0"⟩
    [.num 0, .num 0, .nan, .nan, .num 2, .num 2] rfl rfl (by decide) (by decide) rfl rfl]
  simp only [Option.some_bind, prevHoles_eq, Option.some.injEq]
  simp [List.range_succ, List.filter_cons, idx, isNaN]
  norm_num


/-! ## Trimming twice and the batches of `plot` -/

theorem trimLinePositions_decomp {α : Type} (A mid B : List (JSVal α × JSVal α))
    (f l : JSVal α × JSVal α) (hA : ∀ p ∈ A, invalidPair p = true)
    (hB : ∀ p ∈ B, invalidPair p = true) (hf : mid.head? = some f)
    (hl : mid.getLast? = some l) (hfv : invalidPair f = false) (hlv : invalidPair l = false) :
    trimLinePositions (interleave (A ++ mid ++ B)) = some (interleave mid) := by
  obtain ⟨h1, h2⟩ := scan_decomp
    (fun i : Int => isNaN (idx (interleave (A ++ mid ++ B)) i) ||
      isNaN (idx (interleave (A ++ mid ++ B)) (i + 1)))
    invalidPair A mid B f l (fun k => invalid_at_even _ k) hA hB hf hl hfv hlv
    (2 * (A ++ mid ++ B).length + 1) (by omega)
  unfold trimLinePositions
  simp only [interleave_length, Nat.cast_mul, Nat.cast_ofNat] at h1 h2 ⊢
  rw [h1]
  simp only [Option.bind_eq_bind, Option.some_bind]
  rw [h2]
  simp only [Option.some_bind, Option.pure_def, Option.some.injEq]
  exact jsSlice_decomp A mid B

theorem trimLinePositions_allbad {α : Type} (ps : List (JSVal α × JSVal α))
    (hall : ∀ p ∈ ps, invalidPair p = true) :
    trimLinePositions (interleave ps) = some [] := by
  obtain ⟨h1, h2⟩ := scan_allbad
    (fun i : Int => isNaN (idx (interleave ps) i) || isNaN (idx (interleave ps) (i + 1)))
    invalidPair ps (fun k => invalid_at_even ps k) hall (2 * ps.length + 1) (by omega)
  unfold trimLinePositions
  simp only [interleave_length, Nat.cast_mul, Nat.cast_ofNat] at h1 h2 ⊢
  rw [h1]
  simp only [Option.bind_eq_bind, Option.some_bind]
  rw [h2]
  simp only [Option.some_bind, Option.pure_def, Option.some.injEq]
  have e : 2 * (ps.length : Int) - 2 + 2 = 2 * (ps.length : Int) := by ring
  rw [e, jsSlice_interleave]
  simp [interleave]

theorem trimLinePositions_twice {α : Type} (srcPos : List (JSVal α))
    (heven : srcPos.length % 2 = 0) :
    ∃ t, trimLinePositions srcPos = some t ∧ trimLinePositions t = some t := by
  have hsrc := interleave_pairs srcPos heven
  generalize pairs srcPos = ps at hsrc
  subst hsrc
  by_cases hex : ∃ p ∈ ps, invalidPair p = false
  · obtain ⟨A, mid, B, f, l, e, hA, hB, hf, hl, hfv, hlv⟩ :=
      exists_trim_decomp invalidPair ps hex
    subst e
    refine ⟨interleave mid, trimLinePositions_decomp A mid B f l hA hB hf hl hfv hlv, ?_⟩
    have := trimLinePositions_decomp [] mid [] f l (by simp) (by simp) hf hl hfv hlv
    simpa using this
  · have hall : ∀ p ∈ ps, invalidPair p = true := by
      intro p hp
      cases h : invalidPair p with
      | true => rfl
      | false => exact absurd ⟨p, hp, h⟩ hex
    refine ⟨[], trimLinePositions_allbad ps hall, ?_⟩
    have := trimLinePositions_allbad ([] : List (JSVal α × JSVal α)) (by simp)
    simpa [interleave] using this

/-- **C28.** For every even-length position buffer the line trimming returns a buffer, and
trimming that buffer again returns it unchanged; so the callback of the trimming `map` of
`plot`, run again on the line options it returned, returns them unchanged. -/
theorem trimLinePositions_idempotent {α O : Type} (srcPos : List (JSVal α))
    (heven : srcPos.length % 2 = 0) (rest : O) :
    (∃ t, trimLinePositions srcPos = some t ∧ trimLinePositions t = some t) ∧
    (∃ l2, trimLineOpts (some ({ positions := some srcPos, rest := rest } : LineOpts α O)) =
        some l2 ∧ trimLineOpts l2 = some l2) := by
  obtain ⟨t, h1, h2⟩ := trimLinePositions_twice srcPos heven
  refine ⟨⟨t, h1, h2⟩, some { positions := some t, rest := rest }, ?_, ?_⟩
  · simp [trimLineOpts, h1]
  · simp [trimLineOpts, h2]

/-- Witness of **C28** on the example line buffer. -/
theorem trimLinePositions_idempotent_witness :
    exLine.length % 2 = 0 ∧
    trimLinePositions exLine = some [.num 1, .num 2, .nan, .num 3, .num 4, .num 5] ∧
    trimLinePositions ([.num 1, .num 2, .nan, .num 3, .num 4, .num 5] : List (JSVal Int)) =
      some [.num 1, .num 2, .nan, .num 3, .num 4, .num 5] ∧
    ((∃ t, trimLinePositions exLine = some t ∧ trimLinePositions t = some t) ∧
    (∃ l2, trimLineOpts (some ({ positions := some exLine, rest := "line" } :
        LineOpts Int String)) = some l2 ∧ trimLineOpts l2 = some l2)) :=
  ⟨by decide, by decide, by decide, trimLinePositions_idempotent exLine (by decide) "line"⟩


theorem plotBatchStep_on {α O : Type} (clickSelectEnabled : Bool)
    (xc2p yc2p : JSVal α → JSVal α) (st : BatchLoop α O) (a : CdItem α O)
    (hc : (a.trace.selectedpoints.isSome || st.selectMode || clickSelectEnabled) = true) :
    (plotBatchStep clickSelectEnabled xc2p yc2p st a).selectBatch =
      some (match a.trace.selectedpoints with
        | some selPts =>
          jsSet (if st.selectBatch.isNone then [] else st.selectBatch.getD []) a.t.index
            (some selPts)
        | none => if st.selectBatch.isNone then [] else st.selectBatch.getD []) ∧
    (plotBatchStep clickSelectEnabled xc2p yc2p st a).unselectBatch =
      some (match a.trace.selectedpoints with
        | some selPts =>
          jsSet (if st.selectBatch.isNone then [] else st.unselectBatch.getD []) a.t.index
            (some ((List.range a.trace._length).filter (fun j => !selPts.contains j)))
        | none => if st.selectBatch.isNone then [] else st.unselectBatch.getD []) := by
  simp only [plotBatchStep, if_pos hc]
  cases a.trace.selectedpoints <;> exact ⟨rfl, rfl⟩

theorem plotBatchStep_off {α O : Type} (clickSelectEnabled : Bool)
    (xc2p yc2p : JSVal α → JSVal α) (st : BatchLoop α O) (a : CdItem α O)
    (hc : ¬ (a.trace.selectedpoints.isSome || st.selectMode || clickSelectEnabled) = true) :
    (plotBatchStep clickSelectEnabled xc2p yc2p st a).selectBatch = st.selectBatch ∧
    (plotBatchStep clickSelectEnabled xc2p yc2p st a).unselectBatch = st.unselectBatch := by
  simp only [plotBatchStep, if_neg hc, and_self]

theorem plotBatchStep_keeps {α O : Type} (clickSelectEnabled : Bool)
    (xc2p yc2p : JSVal α → JSVal α) (l : List (CdItem α O)) (st : BatchLoop α O)
    (sb ub : Batch) (k : Nat) (hsb : st.selectBatch = some sb) (hub : st.unselectBatch = some ub)
    (hk : ∀ x ∈ l, x.t.index ≠ k) :
    ∃ sb2 ub2, (l.foldl (plotBatchStep clickSelectEnabled xc2p yc2p) st).selectBatch = some sb2 ∧
      (l.foldl (plotBatchStep clickSelectEnabled xc2p yc2p) st).unselectBatch = some ub2 ∧
      jsGet sb2 k = jsGet sb k ∧ jsGet ub2 k = jsGet ub k := by
  induction l generalizing st sb ub with
  | nil => exact ⟨sb, ub, hsb, hub, rfl, rfl⟩
  | cons a l ih =>
    simp only [List.foldl_cons]
    have hne : k ≠ a.t.index := fun h => hk a (List.mem_cons_self _ _) h.symm
    have hrest : ∀ x ∈ l, x.t.index ≠ k := fun x hx => hk x (List.mem_cons_of_mem _ hx)
    by_cases hc : (a.trace.selectedpoints.isSome || st.selectMode || clickSelectEnabled) = true
    · obtain ⟨e1, e2⟩ := plotBatchStep_on clickSelectEnabled xc2p yc2p st a hc
      simp only [hsb, hub, Option.isNone_some, Bool.false_eq_true, if_false,
        Option.getD_some] at e1 e2
      obtain ⟨sb2, ub2, h1, h2, h3, h4⟩ :=
        ih (plotBatchStep clickSelectEnabled xc2p yc2p st a) _ _ e1 e2 hrest
      refine ⟨sb2, ub2, h1, h2, ?_, ?_⟩
      · rw [h3]
        cases a.trace.selectedpoints with
        | none => rfl
        | some selPts => simp only [jsGet_jsSet, if_neg hne]
      · rw [h4]
        cases a.trace.selectedpoints with
        | none => rfl
        | some selPts => simp only [jsGet_jsSet, if_neg hne]
    · obtain ⟨e1, e2⟩ := plotBatchStep_off clickSelectEnabled xc2p yc2p st a hc
      exact ih (plotBatchStep clickSelectEnabled xc2p yc2p st a) sb ub (by rw [e1, hsb])
        (by rw [e2, hub]) hrest

theorem plotBatch_selected {α O : Type} (clickSelectEnabled : Bool)
    (xc2p yc2p : JSVal α → JSVal α) (l : List (CdItem α O)) (st : BatchLoop α O)
    (hidx : l.Pairwise (fun a b => a.t.index ≠ b.t.index)) (cd : CdItem α O) (hcd : cd ∈ l)
    (selPts : List Nat) (hsel : cd.trace.selectedpoints = some selPts) :
    ∃ sb ub, (l.foldl (plotBatchStep clickSelectEnabled xc2p yc2p) st).selectBatch = some sb ∧
      (l.foldl (plotBatchStep clickSelectEnabled xc2p yc2p) st).unselectBatch = some ub ∧
      jsGet sb cd.t.index = some selPts ∧
      jsGet ub cd.t.index =
        some ((List.range cd.trace._length).filter (fun j => !selPts.contains j)) := by
  induction l generalizing st with
  | nil => simp at hcd
  | cons a l ih =>
    simp only [List.foldl_cons]
    obtain ⟨hhead, htail⟩ := List.pairwise_cons.mp hidx
    rcases List.mem_cons.mp hcd with rfl | hmem
    · have hc : (cd.trace.selectedpoints.isSome || st.selectMode || clickSelectEnabled) =
          true := by simp [hsel]
      obtain ⟨e1, e2⟩ := plotBatchStep_on clickSelectEnabled xc2p yc2p st cd hc
      simp only [hsel] at e1 e2
      obtain ⟨sb2, ub2, h1, h2, h3, h4⟩ := plotBatchStep_keeps clickSelectEnabled xc2p yc2p l
        (plotBatchStep clickSelectEnabled xc2p yc2p st cd) _ _ cd.t.index e1 e2
        (fun x hx => (hhead x hx).symm)
      refine ⟨sb2, ub2, h1, h2, ?_, ?_⟩
      · rw [h3, jsGet_jsSet, if_pos rfl]
      · rw [h4, jsGet_jsSet, if_pos rfl]
    · exact ih (plotBatchStep clickSelectEnabled xc2p yc2p st a) htail hmem


/-- **C29.** When `plot` runs with a successful `prepareRegl` on traces with pairwise
different stash indices and its dirty block completes, it returns, and for every trace with
`selectedpoints` the slot `scene.selectBatch[index]` holds the selected points and
`scene.unselectBatch[index]` holds exactly the indices `j` of `[0, n)` that are no selected
point, in ascending order. The two lists are disjoint, and together they hold exactly the
indices of `[0, n)` if and only if every selected point is below `n`. -/
theorem plot_unselectBatch {α O : Type} [DecidableEq α] [Zero α]
    (selectMode clickSelectEnabled : Bool) (xc2p yc2p : JSVal α → JSVal α)
    (scene sP : SceneState α O) (cdata : List (CdItem α O))
    (hdirty : (if scene.dirty then plotDirty scene cdata else some scene) = some sP)
    (hidx : cdata.Pairwise (fun a b => a.t.index ≠ b.t.index)) (cd : CdItem α O)
    (hcd : cd ∈ cdata) (selPts : List Nat) (hsel : cd.trace.selectedpoints = some selPts) :
    ∃ s2 cdata2 sb ub,
      plot true selectMode clickSelectEnabled xc2p yc2p (some scene) cdata =
        some (some s2, cdata2) ∧
      s2.selectBatch = some sb ∧ s2.unselectBatch = some ub ∧
      jsGet sb cd.t.index = some selPts ∧
      jsGet ub cd.t.index =
        some ((List.range cd.trace._length).filter (fun j => !selPts.contains j)) ∧
      ((List.range cd.trace._length).filter (fun j => !selPts.contains j)).Pairwise
        (fun a b => a < b) ∧
      (∀ j, j ∈ (List.range cd.trace._length).filter (fun j => !selPts.contains j) ↔
        (j < cd.trace._length ∧ j ∉ selPts)) ∧
      ((∀ j, (j ∈ selPts ∨
          j ∈ (List.range cd.trace._length).filter (fun j => !selPts.contains j)) ↔
          j < cd.trace._length) ↔
        ∀ s ∈ selPts, s < cd.trace._length) := by
  have hmemU : ∀ j, j ∈ (List.range cd.trace._length).filter (fun j => !selPts.contains j) ↔
      (j < cd.trace._length ∧ j ∉ selPts) := by
    intro j
    simp [List.mem_filter]
  obtain ⟨sb, ub, h1, h2, h3, h4⟩ := plotBatch_selected clickSelectEnabled xc2p yc2p cdata
    { selectBatch := none, unselectBatch := none, selectMode := selectMode, cdata := [] }
    hidx cd hcd selPts hsel
  have hne : cdata.length ≠ 0 := by
    intro h
    rw [List.length_eq_zero] at h
    rw [h] at hcd
    simp at hcd
  refine ⟨{ sP with
      selectBatch := (cdata.foldl (plotBatchStep clickSelectEnabled xc2p yc2p)
        { selectBatch := none, unselectBatch := none, selectMode := selectMode,
          cdata := [] }).selectBatch,
      unselectBatch := (cdata.foldl (plotBatchStep clickSelectEnabled xc2p yc2p)
        { selectBatch := none, unselectBatch := none, selectMode := selectMode,
          cdata := [] }).unselectBatch,
      select2d := if (cdata.foldl (plotBatchStep clickSelectEnabled xc2p yc2p)
        { selectBatch := none, unselectBatch := none, selectMode := selectMode,
          cdata := [] }).selectMode then true else sP.select2d },
    (cdata.foldl (plotBatchStep clickSelectEnabled xc2p yc2p)
      { selectBatch := none, unselectBatch := none, selectMode := selectMode,
        cdata := [] }).cdata, sb, ub, ?_, h1, h2, h3, h4, ?_, hmemU, ?_⟩
  · simp only [plot, if_neg hne, Bool.not_true, Bool.false_eq_true, if_false, hdirty,
      Option.some_bind]
  · exact List.Pairwise.filter _ (List.pairwise_lt_range _)
  · constructor
    · intro h s hs
      exact (h s).mp (Or.inl hs)
    · intro h j
      constructor
      · rintro (hj | hj)
        · exact h j hj
        · exact ((hmemU j).mp hj).1
      · intro hj
        by_cases hin : j ∈ selPts
        · exact Or.inl hin
        · exact Or.inr ((hmemU j).mpr ⟨hj, hin⟩)

/-- Witness of **C29**: two traces of two points, the second with `selectedpoints = [1]`, on
a clean scene: `selectBatch[1] = [1]` and `unselectBatch[1] = [0]`. -/
theorem plot_unselectBatch_witness :
    ((plot true false false id id (some exAfterCalc.1.draw) [exCdPlain, exCdSelected]).bind
        (fun r => r.1)).bind (fun s => s.unselectBatch) = some [none, some [0]] ∧
    ∃ s2 cdata2 sb ub,
      plot true false false id id (some exAfterCalc.1.draw) [exCdPlain, exCdSelected] =
        some (some s2, cdata2) ∧
      s2.selectBatch = some sb ∧ s2.unselectBatch = some ub ∧
      jsGet sb exCdSelected.t.index = some [1] ∧
      jsGet ub exCdSelected.t.index =
        some ((List.range exCdSelected.trace._length).filter
          (fun j => !([1] : List Nat).contains j)) ∧
      ((List.range exCdSelected.trace._length).filter
        (fun j => !([1] : List Nat).contains j)).Pairwise (fun a b => a < b) ∧
      (∀ j, j ∈ (List.range exCdSelected.trace._length).filter
          (fun j => !([1] : List Nat).contains j) ↔
        (j < exCdSelected.trace._length ∧ j ∉ ([1] : List Nat))) ∧
      ((∀ j, (j ∈ ([1] : List Nat) ∨
          j ∈ (List.range exCdSelected.trace._length).filter
            (fun j => !([1] : List Nat).contains j)) ↔
          j < exCdSelected.trace._length) ↔
        ∀ s ∈ ([1] : List Nat), s < exCdSelected.trace._length) :=
  ⟨by decide,
    plot_unselectBatch false false id id exAfterCalc.1.draw exAfterCalc.1.draw
      [exCdPlain, exCdSelected] rfl (by decide) exCdSelected (by simp) [1] rfl⟩


end Theorems
end Scattergl

namespace Bar

/-! ## Bar plot: theorems -/

theorem mathRound_bounds {K : Type} [LinearOrderedField K] [FloorRing K] (v : K) :
    (mathRound v : K) ≤ v + 1 / 2 ∧ v - 1 / 2 < (mathRound v : K) := by
  unfold mathRound
  constructor
  · exact Int.floor_le _
  · have := Int.lt_floor_add_one (v + 1 / 2)
    linarith

theorem d3round_hundredth {K : Type} [LinearOrderedField K] [FloorRing K] (z : ℤ) :
    d3round ((z : K) / 100) = (z : K) / 100 := by
  unfold d3round mathRound
  have h : (z : K) / 100 * 100 = (z : K) := by field_simp
  rw [h]
  have h2 : ⌊(z : K) + 1 / 2⌋ = z := by
    rw [Int.floor_eq_iff]
    constructor <;> norm_num
  rw [h2]

theorem roundWithLine_hundredth {K : Type} [LinearOrderedField K] [FloorRing K]
    (noGaps : Bool) (m : ℤ) (v : K) :
    roundWithLine noGaps ((m : K) / 100) v =
      if noGaps then (mathRound v : K) - (m : K) / 100 else v := by
  unfold roundWithLine
  have h : (mathRound v : K) - (m : K) / 100 = ((100 * mathRound v - m : ℤ) : K) / 100 := by
    push_cast
    field_simp
    ring
  rw [h, d3round_hundredth]

theorem int_gap_one {K : Type} [LinearOrderedField K] (a b : ℤ) (h : (b : K) < (a : K)) :
    (b : K) + 1 ≤ (a : K) := by
  have h1 : b < a := by exact_mod_cast h
  have h2 : b + 1 ≤ a := h1
  exact_mod_cast h2

theorem int_gap_two {K : Type} [LinearOrderedField K] (a b : ℤ)
    (h : (b : K) + 1 < (a : K)) : (b : K) + 2 ≤ (a : K) := by
  have h1 : b + 1 < a := by exact_mod_cast h
  have h2 : b + 2 ≤ a := by omega
  exact_mod_cast h2

theorem lineOffset_hundredth {K : Type} [LinearOrderedField K] [FloorRing K] (lw : K)
    (hlw : lw ≤ 1 / 100) :
    ∃ m : ℤ, lineOffset lw = (m : K) / 100 ∧ -100 ≤ m ∧ m ≤ 1 := by
  refine ⟨mathRound (jsMod1 (lw / 2) * 100), rfl, ?_, ?_⟩
  · -- the remainder is above -1
    have hlow : -1 < jsMod1 (lw / 2) := by
      unfold jsMod1
      split
      · have := Int.floor_le (lw / 2)
        linarith
      · have := Int.ceil_lt_add_one (lw / 2)
        linarith
    unfold mathRound
    rw [Int.le_floor]
    push_cast
    linarith
  · have hhigh : jsMod1 (lw / 2) ≤ 1 / 200 := by
      unfold jsMod1
      split
      · rename_i h0
        have : ⌊lw / 2⌋ = 0 := by
          rw [Int.floor_eq_iff]
          constructor
          · simpa using h0
          · norm_num
            linarith
        rw [this]
        norm_num
        linarith
      · rename_i h0
        have := Int.le_ceil (lw / 2)
        linarith
    unfold mathRound
    have : ⌊jsMod1 (lw / 2) * 100 + 1 / 2⌋ < 2 := by
      rw [Int.floor_lt]
      push_cast
      linarith
    omega


theorem expandToVisible_eq {K : Type} [LinearOrderedField K] [FloorRing K]
    (noGaps : Bool) (m : ℤ) (v vc : K) :
    expandToVisible noGaps ((m : K) / 100) v vc =
      if |v - vc| ≥ 2 then (if noGaps then (mathRound v : K) - (m : K) / 100 else v)
      else if v > vc then (⌈v⌉ : K) else (⌊v⌋ : K) := by
  unfold expandToVisible
  rw [roundWithLine_hundredth]

theorem expandToVisible_pair {K : Type} [LinearOrderedField K] [FloorRing K]
    (noGaps : Bool) (m : ℤ) (hm1 : -100 ≤ m) (hm2 : m ≤ 1) (x0 x1 : K) (hne : x0 ≠ x1) :
    1 ≤ |expandToVisible noGaps ((m : K) / 100) x1
          (expandToVisible noGaps ((m : K) / 100) x0 x1) -
        expandToVisible noGaps ((m : K) / 100) x0 x1| := by
  have ho1 : (-1 : K) ≤ (m : K) / 100 := by
    have : ((-100 : ℤ) : K) ≤ (m : K) := by exact_mod_cast hm1
    push_cast at this
    linarith
  have ho2 : (m : K) / 100 ≤ 1 / 100 := by
    have : (m : K) ≤ ((1 : ℤ) : K) := by exact_mod_cast hm2
    push_cast at this
    linarith
  simp only [expandToVisible_eq]
  generalize (m : K) / 100 = off at ho1 ho2 ⊢
  obtain ⟨r0a, r0b⟩ := mathRound_bounds x0
  obtain ⟨r1a, r1b⟩ := mathRound_bounds x1
  have f0a := Int.floor_le x0
  have f1a := Int.floor_le x1
  have c0a := Int.le_ceil x0
  have c1a := Int.le_ceil x1
  by_cases hA : |x0 - x1| ≥ 2
  · simp only [if_pos hA]
    cases noGaps with
    | false =>
      have hA2 : |x1 - x0| ≥ 2 := by rw [abs_sub_comm]; exact hA
      simp only [Bool.false_eq_true, if_false, if_pos hA2]
      linarith
    | true =>
      simp only [if_true]
      by_cases hB : |x1 - ((mathRound x0 : K) - off)| ≥ 2
      · simp only [if_pos hB]
        rcases le_abs.mp hA with h | h
        · exact le_abs.mpr (Or.inr (by linarith))
        · exact le_abs.mpr (Or.inl (by linarith))
      · simp only [if_neg hB]
        rcases le_abs.mp hA with h | h
        · -- x1 is at least 2 below x0
          have hlt : ¬ x1 > (mathRound x0 : K) - off := by
            intro hc
            linarith
          simp only [if_neg hlt]
          have hd := int_gap_two (K := K) (mathRound x0) ⌊x1⌋ (by linarith)
          exact le_abs.mpr (Or.inr (by linarith))
        · have hgt : x1 > (mathRound x0 : K) - off := by linarith
          simp only [if_pos hgt]
          have hd := int_gap_two (K := K) ⌈x1⌉ (mathRound x0) (by linarith)
          exact le_abs.mpr (Or.inl (by linarith))
  · simp only [if_neg hA]
    by_cases h01 : x0 > x1
    · simp only [if_pos h01]
      have hlt : ¬ x1 > (⌈x0⌉ : K) := by
        intro hc
        linarith
      by_cases hB : |x1 - (⌈x0⌉ : K)| ≥ 2
      · simp only [if_pos hB]
        have hB2 : 2 ≤ (⌈x0⌉ : K) - x1 := by
          rcases le_abs.mp hB with h | h
          · linarith
          · linarith
        cases noGaps with
        | false =>
          simp only [Bool.false_eq_true, if_false]
          exact le_abs.mpr (Or.inr (by linarith))
        | true =>
          simp only [if_true]
          have hd := int_gap_two (K := K) ⌈x0⌉ (mathRound x1) (by linarith)
          exact le_abs.mpr (Or.inr (by linarith))
      · simp only [if_neg hB, if_neg hlt]
        have hd := int_gap_one (K := K) ⌈x0⌉ ⌊x1⌋ (by linarith)
        exact le_abs.mpr (Or.inr (by linarith))
    · simp only [if_neg h01]
      have h10 : x0 < x1 := lt_of_le_of_ne (not_lt.mp h01) hne
      have hgt : x1 > (⌊x0⌋ : K) := by linarith
      by_cases hB : |x1 - (⌊x0⌋ : K)| ≥ 2
      · simp only [if_pos hB]
        have hB2 : 2 ≤ x1 - (⌊x0⌋ : K) := by
          rcases le_abs.mp hB with h | h
          · linarith
          · linarith
        cases noGaps with
        | false =>
          simp only [Bool.false_eq_true, if_false]
          exact le_abs.mpr (Or.inl (by linarith))
        | true =>
          simp only [if_true]
          have hd := int_gap_two (K := K) (mathRound x1) ⌊x0⌋ (by linarith)
          exact le_abs.mpr (Or.inl (by linarith))
      · simp only [if_neg hB, if_pos hgt]
        have hd := int_gap_one (K := K) ⌈x1⌉ ⌊x0⌋ (by linarith)
        exact le_abs.mpr (Or.inl (by linarith))


/-- **C25.** On a non-static plot, for a bar with opacity at least 1 and line width at most
0.01, `fixpx` is `expandToVisible`, and after `x0 = fixpx(x0, x1); x1 = fixpx(x1, x0)` the
edges are at least one pixel apart whenever `x0` and `x1` differed, with or without bar gaps;
likewise for `y0` and `y1`. -/
theorem fixEdges_visible {K : Type} [LinearOrderedField K] [FloorRing K] (op lw : K)
    (noGaps : Bool) (e : Edges K) (hop : 1 ≤ op) (hlw : lw ≤ 1 / 100) :
    (∀ v vc, fixpx op lw noGaps v vc = expandToVisible noGaps (lineOffset lw) v vc) ∧
    (e.x0 ≠ e.x1 →
      1 ≤ |(fixEdges false op lw noGaps e).x1 - (fixEdges false op lw noGaps e).x0|) ∧
    (e.y0 ≠ e.y1 →
      1 ≤ |(fixEdges false op lw noGaps e).y1 - (fixEdges false op lw noGaps e).y0|) := by
  have hfix : ∀ v vc, fixpx op lw noGaps v vc =
      expandToVisible noGaps (lineOffset lw) v vc := by
    intro v vc
    unfold fixpx
    rw [if_neg]
    rintro (h | h)
    · exact absurd h (not_lt.mpr hop)
    · exact absurd h (not_lt.mpr hlw)
  obtain ⟨m, hm, hm1, hm2⟩ := lineOffset_hundredth lw hlw
  refine ⟨hfix, ?_, ?_⟩
  · intro hne
    simp only [fixEdges, Bool.not_false, if_true, hfix, hm]
    exact expandToVisible_pair noGaps m hm1 hm2 e.x0 e.x1 hne
  · intro hne
    simp only [fixEdges, Bool.not_false, if_true, hfix, hm]
    exact expandToVisible_pair noGaps m hm1 hm2 e.y0 e.y1 hne

/-- Witness of **C25**: a fully opaque bar without line, 0.2 pixels wide, without bar
gaps. -/
theorem fixEdges_visible_witness :
    (1 : ℚ) ≤ 1 ∧ (0 : ℚ) ≤ 1 / 100 ∧ exThinBar.x0 ≠ exThinBar.x1 ∧
    1 ≤ |(fixEdges false 1 0 true exThinBar).x1 - (fixEdges false 1 0 true exThinBar).x0| :=
  ⟨le_refl _, by norm_num, by norm_num [exThinBar],
    (fixEdges_visible (1 : ℚ) 0 true exThinBar (le_refl _) (by norm_num)).2.1
      (by norm_num [exThinBar])⟩


theorem min_div_mul_le {K : Type} [LinearOrderedField K] (a b tw th : K) (hw : 0 < tw)
    (hh : 0 < th) :
    min (a / tw) (b / th) * tw ≤ a ∧ min (a / tw) (b / th) * th ≤ b := by
  constructor
  · calc min (a / tw) (b / th) * tw ≤ a / tw * tw :=
          mul_le_mul_of_nonneg_right (min_le_left _ _) (le_of_lt hw)
      _ = a := by field_simp
  · calc min (a / tw) (b / th) * th ≤ b / th * th :=
          mul_le_mul_of_nonneg_right (min_le_right _ _) (le_of_lt hh)
      _ = b := by field_simp

theorem min_div_le_one {K : Type} [LinearOrderedField K] (a b tw th : K) (hw : 0 < tw)
    (hh : 0 < th) (hnot : ¬ (tw ≤ a ∧ th ≤ b)) : min (a / tw) (b / th) ≤ 1 := by
  by_cases h : tw ≤ a
  · have h2 : b < th := not_le.mp (fun hc => hnot ⟨h, hc⟩)
    exact le_trans (min_le_right _ _) (le_of_lt ((div_lt_one hh).mpr h2))
  · exact le_trans (min_le_left _ _) (le_of_lt ((div_lt_one hw).mpr (not_le.mp h)))

theorem rotateScale_fits {K : Type} [LinearOrderedField K] (tw th bw bh : K) (hw : 0 < tw)
    (hh : 0 < th) :
    (rotateScale tw th bw bh true).2 ≤ 1 ∧
    (if (rotateScale tw th bw bh true).1 then (rotateScale tw th bw bh true).2 * th
      else (rotateScale tw th bw bh true).2 * tw) ≤ bw ∧
    (if (rotateScale tw th bw bh true).1 then (rotateScale tw th bw bh true).2 * tw
      else (rotateScale tw th bw bh true).2 * th) ≤ bh ∧
    (∀ constrained : Bool, tw ≤ bw ∧ th ≤ bh →
      (rotateScale tw th bw bh constrained).2 = 1 ∧
      (rotateScale tw th bw bh constrained).1 = false) := by
  by_cases h1 : tw ≤ bw ∧ th ≤ bh
  · have e : ∀ c, rotateScale tw th bw bh c = (false, 1) := by
      intro c
      simp only [rotateScale, if_pos h1]
    simp only [e, one_mul, Bool.false_eq_true, if_false, and_self, implies_true, and_true]
    exact ⟨le_refl _, h1.1, h1.2⟩
  · by_cases h2 : tw ≤ bh ∧ th ≤ bw
    · have e : ∀ c, rotateScale tw th bw bh c = (true, 1) := by
        intro c
        simp only [rotateScale, if_neg h1, if_pos h2]
      simp only [e, one_mul, if_true]
      exact ⟨le_refl _, h2.2, h2.1, fun _ hfit => absurd hfit h1⟩
    · by_cases h3 : decide (tw < th) = decide (bw < bh)
      · have e : rotateScale tw th bw bh true = (false, min (bw / tw) (bh / th)) := by
          simp only [rotateScale, if_neg h1, if_neg h2, if_pos h3, if_true]
        simp only [e, Bool.false_eq_true, if_false]
        exact ⟨min_div_le_one _ _ _ _ hw hh h1, (min_div_mul_le _ _ _ _ hw hh).1,
          (min_div_mul_le _ _ _ _ hw hh).2, fun _ hfit => absurd hfit h1⟩
      · have e : rotateScale tw th bw bh true = (true, min (bh / tw) (bw / th)) := by
          simp only [rotateScale, if_neg h1, if_neg h2, if_neg h3, if_true]
        simp only [e, if_true]
        exact ⟨min_div_le_one _ _ _ _ hw hh h2, (min_div_mul_le _ _ _ _ hw hh).2,
          (min_div_mul_le _ _ _ _ hw hh).1, fun _ hfit => absurd hfit h1⟩

/-- **C26.** For a text box of positive width and height and `constrained` true, the scale
chosen by `getTransformToMoveInsideBar` is at most 1 and the target box (the scaled text
box, width and height exchanged under rotation) is at most as wide and as high as the bar
after padding; when the text fits unrotated, the scale is 1 and there is no rotation,
whatever `constrained` is. -/
theorem insideBarLayout_fits {K : Type} [LinearOrderedField K] (x0 x1 y0 y1 : K)
    (textBB : TextBB K) (horizontal : Bool) (hw : 0 < textBB.width)
    (hh : 0 < textBB.height) :
    (insideBarLayout x0 x1 y0 y1 textBB horizontal true).scale ≤ 1 ∧
    (insideBarLayout x0 x1 y0 y1 textBB horizontal true).targetWidth ≤
      (insideBarLayout x0 x1 y0 y1 textBB horizontal true).barWidth ∧
    (insideBarLayout x0 x1 y0 y1 textBB horizontal true).targetHeight ≤
      (insideBarLayout x0 x1 y0 y1 textBB horizontal true).barHeight ∧
    (insideBarLayout x0 x1 y0 y1 textBB horizontal true).targetWidth =
      (if (insideBarLayout x0 x1 y0 y1 textBB horizontal true).rotate then
        (insideBarLayout x0 x1 y0 y1 textBB horizontal true).scale * textBB.height
      else (insideBarLayout x0 x1 y0 y1 textBB horizontal true).scale * textBB.width) ∧
    (insideBarLayout x0 x1 y0 y1 textBB horizontal true).targetHeight =
      (if (insideBarLayout x0 x1 y0 y1 textBB horizontal true).rotate then
        (insideBarLayout x0 x1 y0 y1 textBB horizontal true).scale * textBB.width
      else (insideBarLayout x0 x1 y0 y1 textBB horizontal true).scale * textBB.height) ∧
    (∀ constrained : Bool,
      textBB.width ≤ (insideBarLayout x0 x1 y0 y1 textBB horizontal constrained).barWidth ∧
        textBB.height ≤
          (insideBarLayout x0 x1 y0 y1 textBB horizontal constrained).barHeight →
      (insideBarLayout x0 x1 y0 y1 textBB horizontal constrained).scale = 1 ∧
      (insideBarLayout x0 x1 y0 y1 textBB horizontal constrained).rotate = false ∧
      (getTransformToMoveInsideBar x0 x1 y0 y1 textBB horizontal constrained).scale = none ∧
      (getTransformToMoveInsideBar x0 x1 y0 y1 textBB horizontal constrained).rotate =
        none) := by
  obtain ⟨r1, r2, r3, r4⟩ := rotateScale_fits textBB.width textBB.height
    (barPadding x0 x1 y0 y1).2.1 (barPadding x0 x1 y0 y1).2.2 hw hh
  refine ⟨r1, r2, r3, rfl, rfl, ?_⟩
  intro constrained hfit
  obtain ⟨e1, e2⟩ := r4 constrained hfit
  have e1b : (insideBarLayout x0 x1 y0 y1 textBB horizontal constrained).scale = 1 := e1
  have e2b : (insideBarLayout x0 x1 y0 y1 textBB horizontal constrained).rotate = false := e2
  refine ⟨e1, e2, ?_, ?_⟩
  · simp only [getTransformToMoveInsideBar, getTransform, e1b, lt_irrefl, if_false]
  · simp only [getTransformToMoveInsideBar, getTransform, e2b, Bool.false_eq_true, if_false,
      Option.map_none']

/-- Witness of **C26**: a text box of 40 by 10 pixels in a bar of 20 by 20 pixels (14 by 14
after padding): the scale is 7/20 without rotation. -/
theorem insideBarLayout_fits_witness :
    (0 : ℚ) < exTextBB.width ∧ (0 : ℚ) < exTextBB.height ∧
    (insideBarLayout 0 20 0 20 exTextBB false true).scale = 7 / 20 ∧
    (insideBarLayout 0 20 0 20 exTextBB false true).rotate = false ∧
    (insideBarLayout 0 20 0 20 exTextBB false true).scale ≤ 1 ∧
    (insideBarLayout 0 20 0 20 exTextBB false true).targetWidth ≤
      (insideBarLayout 0 20 0 20 exTextBB false true).barWidth ∧
    (insideBarLayout 0 20 0 20 exTextBB false true).targetHeight ≤
      (insideBarLayout 0 20 0 20 exTextBB false true).barHeight :=
  ⟨by norm_num [exTextBB], by norm_num [exTextBB],
    by norm_num [insideBarLayout, rotateScale, barPadding, TEXTPAD, exTextBB],
    by norm_num [insideBarLayout, rotateScale, barPadding, TEXTPAD, exTextBB],
    (insideBarLayout_fits (0 : ℚ) 20 0 20 exTextBB false (by norm_num [exTextBB])
      (by norm_num [exTextBB])).1,
    (insideBarLayout_fits (0 : ℚ) 20 0 20 exTextBB false (by norm_num [exTextBB])
      (by norm_num [exTextBB])).2.1,
    (insideBarLayout_fits (0 : ℚ) 20 0 20 exTextBB false (by norm_num [exTextBB])
      (by norm_num [exTextBB])).2.2.1⟩


end Bar


namespace Parcoords

/-! ## Parallel coordinates: theorems -/

theorem filterChanged_preGUI {K : Type} (newRanges : List (JSArr K)) (st : DimState K) :
    (filterChanged newRanges st).preGUI = storePreGUI st := by
  unfold filterChanged
  simp only
  split <;> rfl

theorem storePreGUI_keeps {K : Type} (st : DimState K) (h : st.preGUI ≠ .undefined) :
    storePreGUI st = st.preGUI := by
  unfold storePreGUI
  cases hp : st.preGUI with
  | undefined => exact absurd hp h
  | null => rfl
  | value c => rfl

theorem initialRecord_defined {K : Type} (st : DimState K) :
    initialRecord st ≠ .undefined := by
  unfold initialRecord
  cases st.gdConstraint <;> simp

theorem filterChanged_fold_preGUI {K : Type} (calls : List (List (JSArr K)))
    (st : DimState K) (h : st.preGUI ≠ .undefined) :
    (calls.foldl (fun s r => filterChanged r s) st).preGUI = st.preGUI := by
  induction calls generalizing st with
  | nil => rfl
  | cons c rest ih =>
    simp only [List.foldl_cons]
    have hk : (filterChanged c st).preGUI = st.preGUI := by
      rw [filterChanged_preGUI, storePreGUI_keeps st h]
    rw [ih (filterChanged c st) (by rw [hk]; exact h), hk]

theorem copyFrom_vals {K : Type} (k : Nat) (l : List (JSArr K)) :
    (copyFrom k l).map (fun r => r.vals) = l.map (fun r => r.vals) := by
  induction l generalizing k with
  | nil => rfl
  | cons r rs ih => simp [copyFrom, ih]

theorem copyFrom_ids {K : Type} (k : Nat) (l : List (JSArr K)) :
    ∀ r ∈ copyFrom k l, k ≤ r.id ∧ r.id < k + l.length := by
  induction l generalizing k with
  | nil => intro r hr; simp [copyFrom] at hr
  | cons a rs ih =>
    intro r hr
    simp only [copyFrom, List.mem_cons] at hr
    rcases hr with rfl | hr
    · simp
    · have := ih (k + 1) r hr
      simp only [List.length_cons]
      omega

/-- **C27.** For every sequence of calls of `filterChanged` on a dimension whose `preGUI`
entry is not set before the first call: after the last call the entry holds the constraint
range the dimension had before the first call (`null` when it had none); a call on a set
entry leaves it as it is. After a call the constraint range of `gd.data` and of `_fullData`
is absent for no range, one copied range for one range and the list of the copied ranges
otherwise; the arrays stored have identities not in use before the call, so none of them is
an array of the caller. -/
theorem filterChanged_record {K : Type} (st0 : DimState K) (h0 : st0.preGUI = .undefined)
    (calls : List (List (JSArr K))) (newRanges : List (JSArr K)) (st : DimState K)
    (hst : st = calls.foldl (fun s r => filterChanged r s) st0) :
    (filterChanged newRanges st).preGUI = initialRecord st0 ∧
    (∀ s : DimState K, s.preGUI ≠ .undefined → (filterChanged newRanges s).preGUI = s.preGUI) ∧
    (newRanges = [] →
      (filterChanged newRanges st).gdConstraint = none ∧
      (filterChanged newRanges st).fullConstraint = none) ∧
    (∀ r, newRanges = [r] →
      ∃ c1 c2 : JSArr K, (filterChanged newRanges st).gdConstraint = some (.single c1) ∧
        (filterChanged newRanges st).fullConstraint = some (.single c2) ∧
        c1.vals = r.vals ∧ c2.vals = r.vals) ∧
    (2 ≤ newRanges.length →
      ∃ (i1 i2 : Nat) (rs : List (JSArr K)),
        (filterChanged newRanges st).gdConstraint = some (.multi i1 rs) ∧
        (filterChanged newRanges st).fullConstraint = some (.multi i2 rs) ∧
        rs.map (fun r => r.vals) = newRanges.map (fun r => r.vals)) ∧
    (∀ c, ((filterChanged newRanges st).gdConstraint = some c ∨
        (filterChanged newRanges st).fullConstraint = some c) →
      ∀ i ∈ c.ids, st.fresh ≤ i) ∧
    ((∀ r ∈ newRanges, r.id < st.fresh) →
      ∀ c, ((filterChanged newRanges st).gdConstraint = some c ∨
        (filterChanged newRanges st).fullConstraint = some c) →
      ∀ r ∈ newRanges, r.id ∉ c.ids) := by
  have hkeep : ∀ s : DimState K, s.preGUI ≠ .undefined →
      (filterChanged newRanges s).preGUI = s.preGUI := by
    intro s hs
    rw [filterChanged_preGUI, storePreGUI_keeps s hs]
  have hids : ∀ c, ((filterChanged newRanges st).gdConstraint = some c ∨
      (filterChanged newRanges st).fullConstraint = some c) → ∀ i ∈ c.ids, st.fresh ≤ i := by
    intro c hc i hi
    have hcopy := copyFrom_ids (st.fresh + 1) newRanges
    unfold filterChanged copyRanges at hc
    cases hl : copyFrom (st.fresh + 1) newRanges with
    | nil => simp [hl] at hc
    | cons a rest =>
      rw [hl] at hcopy
      cases rest with
      | nil =>
        simp only [hl] at hc
        have ha := hcopy a (by simp)
        rcases hc with hc | hc
        · simp only [Option.some.injEq] at hc
          subst hc
          simp only [Constraint.ids, List.mem_singleton] at hi
          omega
        · simp only [Option.some.injEq] at hc
          subst hc
          simp only [Constraint.ids, List.mem_singleton] at hi
          omega
      | cons b rest2 =>
        simp only [hl] at hc
        have hmem : ∀ i ∈ (a :: b :: rest2).map (fun r => r.id), st.fresh ≤ i := by
          intro j hj
          obtain ⟨r, hr, rfl⟩ := List.mem_map.mp hj
          have := hcopy r hr
          omega
        rcases hc with hc | hc
        · simp only [Option.some.injEq] at hc
          subst hc
          simp only [Constraint.ids, List.mem_cons] at hi
          rcases hi with rfl | hi
          · exact le_refl _
          · exact hmem i (by simpa using hi)
        · simp only [Option.some.injEq] at hc
          subst hc
          simp only [Constraint.ids, List.mem_cons] at hi
          rcases hi with rfl | hi
          · omega
          · exact hmem i (by simpa using hi)
  refine ⟨?_, hkeep, ?_, ?_, ?_, hids, ?_⟩
  · cases calls with
    | nil =>
      simp only [List.foldl_nil] at hst
      subst hst
      rw [filterChanged_preGUI]
      unfold storePreGUI
      rw [h0]
    | cons c rest =>
      simp only [List.foldl_cons] at hst
      have h1 : (filterChanged c st0).preGUI = initialRecord st0 := by
        rw [filterChanged_preGUI]
        unfold storePreGUI
        rw [h0]
      have h2 : st.preGUI = initialRecord st0 := by
        rw [hst, filterChanged_fold_preGUI rest _ (by rw [h1]; exact initialRecord_defined st0),
          h1]
      rw [hkeep st (by rw [h2]; exact initialRecord_defined st0), h2]
  · intro he
    subst he
    exact ⟨rfl, rfl⟩
  · intro r he
    subst he
    exact ⟨_, _, rfl, rfl, rfl, rfl⟩
  · intro hlen
    cases newRanges with
    | nil => simp at hlen
    | cons a rest =>
      cases rest with
      | nil => simp at hlen
      | cons b rest2 =>
        refine ⟨_, _, _, rfl, rfl, ?_⟩
        exact copyFrom_vals (st.fresh + 1) (a :: b :: rest2)
  · intro hcaller c hc r hr hin
    have := hids c hc r.id hin
    have := hcaller r hr
    omega


/-- Witness of **C27**: on a dimension with the range `[1, 2]`, a call with two ranges and
then a call with none: the record keeps `[1, 2]`, the constraint range is the list of copies
after the first call and absent after the second. -/
theorem filterChanged_record_witness :
    exDim.preGUI = .undefined ∧
    (filterChanged exRanges exDim).gdConstraint =
      some (.multi 4 [⟨5, [3, 4]⟩, ⟨6, [6, 8]⟩]) ∧
    (filterChanged exRanges exDim).fullConstraint =
      some (.multi 7 [⟨5, [3, 4]⟩, ⟨6, [6, 8]⟩]) ∧
    (filterChanged [] (filterChanged exRanges exDim)).preGUI =
      .value (.single ⟨0, [1, 2]⟩) ∧
    (filterChanged [] (filterChanged exRanges exDim)).gdConstraint = none ∧
    (filterChanged ([] : List (JSArr Int)) (filterChanged exRanges exDim)).preGUI =
      initialRecord exDim :=
  ⟨rfl, by decide, by decide, by decide, by decide,
    (filterChanged_record exDim rfl [exRanges] [] (filterChanged exRanges exDim) rfl).1⟩

end Parcoords
